import Mathlib

/-!
# SmartNet OSW parser (trunk-recorder, `systems/smartnet_parser.cc`)

A shallow embedding of the control-channel parser: the bandplan resolver
(`get_bandplan_details`, `is_chan`, `get_freq`), the bounded OSW queue
(`enqueue`), the message gate (`parse_message`) and the sequencer
(`process_osws`) with the trunking tables it updates.

Modelling conventions
* `double` values (frequencies in MHz, timestamps in seconds) are exact
  rationals; `std::round` is `cround` (half away from zero) and the cast
  `(int)x` is `ctrunc` (towards zero).
* `addr` and `cmd` come from unsigned bytes of the wire body, so they are
  natural numbers; bit operations are the ones of `Nat`.
* `std::deque<OSW>` is a `List OSW` whose head is the front of the deque;
  `front()`/`pop_front()` on an empty deque is undefined behaviour and makes
  the pass return `none`.
* `std::map` is a key-sorted association list (`smap_*`).
* Logging is not modelled; an arm that only logs leaves the state unchanged.
-/

namespace SmartnetParser

/-! ## Constants (`smartnet_parser.h`, `smartnet_parser.cc`) -/

/-- Constant `#define OSW_QUEUE_SIZE 5 + 1`. -/
def OSW_QUEUE_SIZE : Nat := 5 + 1

/-- Constant `#define OSW_QUEUE_RESET_CMD 0xFFE`. -/
def OSW_QUEUE_RESET_CMD : Nat := 0xFFE

/-- Constant `#define M_SMARTNET_TIMEOUT -1`. -/
def M_SMARTNET_TIMEOUT : Int := -1

/-- Constant `#define M_SMARTNET_OSW 0`. -/
def M_SMARTNET_OSW : Int := 0

/-- Constant `#define M_SMARTNET_BAD_OSW -2`. -/
def M_SMARTNET_BAD_OSW : Int := -2

/-- Constant `#define EXPIRY_TIMER 1.0`. -/
def EXPIRY_TIMER : ℚ := 1

/-- Constant `#define TGID_EXPIRY_TIME 3.0`; no function of the parser reads it. -/
def TGID_EXPIRY_TIME : ℚ := 3

/-- Constant `#define PATCH_EXPIRY_TIME 5.0`. -/
def PATCH_EXPIRY_TIME : ℚ := 5

/-- Constant `#define ADJ_SITE_EXPIRY_TIME 60.0`. -/
def ADJ_SITE_EXPIRY_TIME : ℚ := 60

/-- Constant `#define ALT_CC_EXPIRY_TIME 60.0`. -/
def ALT_CC_EXPIRY_TIME : ℚ := 60

/-- Constant `#define TGID_DEFAULT_PRIO 3`. -/
def TGID_DEFAULT_PRIO : Int := 3

/-! ## Numeric helpers -/

/-- Rounding `std::round`: nearest integer, halves away from zero. -/
def cround (x : ℚ) : Int :=
  if 0 ≤ x then Rat.floor (x + 1 / 2) else - Rat.floor (-x + 1 / 2)

/-- The cast `(int)x` of a double: truncation towards zero. -/
def ctrunc (x : ℚ) : Int :=
  if 0 ≤ x then Rat.floor x else - Rat.floor (-x)

/-! ## The configured system (the `System *` the parser reads) -/

/-- The getters of `System` used by the parser. -/
structure System where
  bandplan : String
  bandplan_base : ℚ
  bandplan_high : ℚ
  bandplan_spacing : ℚ
  bandplan_offset : Int
  sys_num : Int

/-- Substring test `s.find(pat) != std::string::npos` on character lists. -/
def hasInfix : List Char → List Char → Bool
  | [], pat => pat.isEmpty
  | c :: cs, pat => pat.isPrefixOf (c :: cs) || hasInfix cs pat

/-- The tuple returned by `get_bandplan_details`. -/
structure BandplanDetails where
  band : String
  is_rebanded : Bool
  is_international : Bool
  is_splinter : Bool
  is_shuffled : Bool
deriving DecidableEq, Repr

/-- Source function `SmartnetParser::get_bandplan_details` on the bandplan name. -/
def bandplan_details_of (name : String) : BandplanDetails :=
  let b1 := if name = "400" ∨ name = "400_custom" then "OBT" else name
  let b2 := if b1 = "800_reband" then "800_rebanded" else b1
  let b3 := if b2 = "800_standard" then "800_domestic" else b2
  let b4 := if b3 = "800_splinter" then "800_domestic_splinter" else b3
  let bandplan := b4 ++ "_"
  { band := String.mk (bandplan.data.take 3)
    is_rebanded := decide (bandplan = "800_rebanded_")
    is_international := hasInfix bandplan.data "_international_".data
    is_splinter := hasInfix bandplan.data "_splinter_".data
    is_shuffled := hasInfix bandplan.data "_shuffled_".data }

/-- Source function `SmartnetParser::get_bandplan_details`. -/
def get_bandplan_details (sys : System) : BandplanDetails :=
  bandplan_details_of sys.bandplan

/-- Source function `SmartnetParser::is_obt_system`. -/
def is_obt_system (sys : System) : Bool :=
  decide ((get_bandplan_details sys).band = "OBT")

/-- The body of `get_freq` before the final rounding. -/
def get_freq_raw (sys : System) (chan : Int) (is_tx : Bool) : ℚ :=
  let d := get_bandplan_details sys
  if d.band = "800" then
    let f0 : ℚ := 0
    let f1 : ℚ :=
      if !d.is_international && !d.is_shuffled then
        let fa : ℚ :=
          if d.is_rebanded then
            if chan ≤ 0x1b7 then 851.0125 + 0.025 * chan
            else if chan ≥ 0x1b8 ∧ chan ≤ 0x22f then 851.0250 + 0.025 * (chan - 0x1b8)
            else f0
          else if d.is_splinter then
            if chan ≤ 0x257 then 851.0000 + 0.025 * chan
            else if chan ≥ 0x258 ∧ chan ≤ 0x2cf then 866.0125 + 0.025 * (chan - 0x258)
            else f0
          else
            if chan ≤ 0x2cf then 851.0125 + 0.025 * chan else f0
        if chan ≥ 0x2d0 ∧ chan ≤ 0x2f7 then 866.0000 + 0.025 * (chan - 0x2d0)
        else if chan ≥ 0x32f ∧ chan ≤ 0x33f then 867.0000 + 0.025 * (chan - 0x32f)
        else if chan ≥ 0x3c1 ∧ chan ≤ 0x3fe then 867.4250 + 0.025 * (chan - 0x3c1)
        else if chan = 0x3be then 868.9750
        else fa
      else f0
    if is_tx ∧ f1 ≠ 0 then f1 - 45 else f1
  else if d.band = "900" then
    let f1 : ℚ := 935.0125 + 0.0125 * chan
    if is_tx ∧ f1 ≠ 0 then f1 - 39 else f1
  else if d.band = "OBT" then
    let bp_base := sys.bandplan_base
    let bp_high := sys.bandplan_high
    let bp_spacing := sys.bandplan_spacing
    let bp_base_offset := sys.bandplan_offset
    let high_cmd : ℚ := bp_base_offset + (bp_high - bp_base) / bp_spacing
    if !is_tx then
      if chan ≥ bp_base_offset ∧ (chan : ℚ) < high_cmd then
        bp_base + bp_spacing * (chan - bp_base_offset)
      else 0
    else 0
  else 0

/-- Source function `SmartnetParser::get_freq`: the frequency in MHz, rounded to 5 decimals. -/
def get_freq (sys : System) (chan : Int) (is_tx : Bool) : ℚ :=
  (cround (get_freq_raw sys chan is_tx * 100000) : ℚ) / 100000

/-- Source function `SmartnetParser::is_chan`. -/
def is_chan (sys : System) (chan : Int) (is_tx : Bool) : Bool :=
  let d := get_bandplan_details sys
  if chan < 0 then false
  else if d.band = "800" then
    if !d.is_international && !d.is_shuffled then
      if (chan ≥ 0x2d0 ∧ chan ≤ 0x2f7) ∨ (chan ≥ 0x32f ∧ chan ≤ 0x33f) ∨
          (chan ≥ 0x3c1 ∧ chan ≤ 0x3fe) ∨ chan = 0x3be then true
      else if d.is_rebanded ∧ chan ≤ 0x22f then true
      else if chan ≤ 0x2cf then true
      else false
    else false
  else if d.band = "900" then
    if chan ≤ 0x1de then true else false
  else if d.band = "OBT" then
    let bp_base := sys.bandplan_base
    let bp_high := sys.bandplan_high
    let bp_spacing := sys.bandplan_spacing
    let bp_base_offset := sys.bandplan_offset
    let high_cmd : ℚ := bp_base_offset + (bp_high - bp_base) / bp_spacing
    let bp_tx_base_offset := bp_base_offset - 380
    if is_tx ∧ chan ≥ bp_tx_base_offset ∧ chan < bp_base_offset then true
    else if !is_tx ∧ chan ≥ bp_base_offset ∧ (chan : ℚ) < high_cmd then true
    else false
  else false

/-- Source function `SmartnetParser::is_patch_group`. -/
def is_patch_group (tgid : Nat) : Bool :=
  tgid &&& 0x7 == 3 || tgid &&& 0x7 == 4

/-- Source function `SmartnetParser::is_multiselect_group`. -/
def is_multiselect_group (tgid : Nat) : Bool :=
  tgid &&& 0x7 == 5 || tgid &&& 0x7 == 7

/-! ## Data model (`smartnet_parser.h`) -/

/-- Source `struct OSW`: one decoded control word with the fields derived at enqueue time. -/
structure OSW where
  addr : Nat
  grp : Bool
  cmd : Nat
  ch_rx : Bool
  ch_tx : Bool
  f_rx : ℚ
  f_tx : ℚ
  ts : ℚ
deriving DecidableEq, Repr, Inhabited

/-- Modelled from the spec: the `MessageType` enumeration of `parser.h`, which is not part of
the sources at hand; the spec gives `type ∈ {GRANT, UPDATE, ...}` and the parser emits only
these two. -/
inductive MessageType where
  | GRANT
  | UPDATE
  | UNKNOWN
deriving DecidableEq, Repr, Inhabited

/-- The fields of `TrunkMessage` that `create_trunk_message` assigns. -/
structure TrunkMessage where
  message_type : MessageType
  freq : ℚ
  talkgroup : Nat
  source : Nat
  encrypted : Bool
  emergency : Bool
  sys_num : Int
  sys_id : Nat
  sys_site_id : Nat
  phase2_tdma : Bool
  tdma_slot : Int
  mode : Bool
  duplex : Bool
  priority : Int
deriving DecidableEq, Repr

/-- Source `struct VoiceFrequency`. -/
structure VoiceFrequency where
  frequency : Int
  tgid : Nat
  flags : Nat
  mode : Int
  counter : Int
  time : ℚ
deriving DecidableEq, Repr

/-- Source `struct TalkgroupInfo`. -/
structure TalkgroupInfo where
  tgid : Nat
  priority : Int
  tag : String
  srcaddr : Int
  time : ℚ
  release_time : ℚ
  mode : Int
  status : Nat
  frequency : Int
deriving DecidableEq, Repr

/-- Source `struct AlternateCCFreq`. -/
structure AlternateCCFreq where
  time : ℚ
  cc_rx_freq : ℚ
  cc_tx_freq : ℚ
deriving DecidableEq, Repr

/-- Source `struct AdjacentSite`. -/
structure AdjacentSite where
  time : ℚ
  cc_rx_freq : ℚ
  cc_tx_freq : ℚ
deriving DecidableEq, Repr

/-! ## `std::map` as a key-sorted association list -/

/-- Map operation `m.find(k)`: the value stored under `k`, if any. -/
def smap_find {K V : Type} [DecidableEq K] (m : List (K × V)) (k : K) : Option V :=
  match m with
  | [] => none
  | (k1, v1) :: rest => if k = k1 then some v1 else smap_find rest k

/-- Map operation `m[k] = v`: insert or overwrite, keeping the keys in increasing order. -/
def smap_insert {K V : Type} [DecidableEq K] [LT K] [DecidableRel (fun a b : K => a < b)]
    (m : List (K × V)) (k : K) (v : V) : List (K × V) :=
  match m with
  | [] => [(k, v)]
  | (k1, v1) :: rest =>
    if k < k1 then (k, v) :: (k1, v1) :: rest
    else if k = k1 then (k, v) :: rest
    else (k1, v1) :: smap_insert rest k v

/-- Map operation `m.erase(k)`. -/
def smap_erase {K V : Type} [DecidableEq K] (m : List (K × V)) (k : K) : List (K × V) :=
  m.filter (fun p => !decide (p.1 = k))

/-- The private members of `SmartnetParser` that the parser reads and writes. -/
structure ParserState where
  osw_q : List OSW
  voice_frequencies : List (Int × VoiceFrequency)
  talkgroups : List (Nat × TalkgroupInfo)
  patches : List (Nat × List (Nat × (ℚ × Int)))
  alternate_cc_freqs : List (Int × AlternateCCFreq)
  adjacent_sites : List (Nat × AdjacentSite)
  osw_count : Nat
  last_osw : ℚ
  last_expiry_check : ℚ
  rx_cc_freq : ℚ
  rx_sys_id : Nat
  rx_site_id : Nat
deriving DecidableEq, Repr

/-- The state built by the constructor `SmartnetParser::SmartnetParser`. -/
def ParserState.init : ParserState :=
  { osw_q := [], voice_frequencies := [], talkgroups := [], patches := [],
    alternate_cc_freqs := [], adjacent_sites := [], osw_count := 0, last_osw := 0,
    last_expiry_check := 0, rx_cc_freq := 0, rx_sys_id := 0, rx_site_id := 0 }

/-- Source function `SmartnetParser::create_trunk_message`. -/
def create_trunk_message (sys : System) (s : ParserState) (type : MessageType) (freq : ℚ)
    (talkgroup : Nat) (source : Nat) (encrypted : Bool) (emergency : Bool) : TrunkMessage :=
  { message_type := type, freq := freq, talkgroup := talkgroup, source := source,
    encrypted := encrypted, emergency := emergency, sys_num := sys.sys_num,
    sys_id := s.rx_sys_id, sys_site_id := s.rx_site_id, phase2_tdma := false,
    tdma_slot := 0, mode := false, duplex := false, priority := TGID_DEFAULT_PRIO }

/-! ## The OSW queue -/

/-- The word `enqueue` builds from `(addr, grp, cmd, ts)` under the current bandplan. -/
def mk_osw (sys : System) (addr : Nat) (grp : Nat) (cmd : Nat) (ts : ℚ) : OSW :=
  let ch_rx := is_chan sys cmd false
  let ch_tx := is_chan sys cmd true
  { addr := addr, grp := decide (grp ≠ 0), cmd := cmd, ts := ts,
    ch_rx := ch_rx, ch_tx := ch_tx,
    f_rx := if ch_rx then get_freq sys cmd false else 0,
    f_tx := if ch_tx then get_freq sys cmd true else 0 }

/-- The queue part of `enqueue`: drop the front when full, then append. -/
def push_bounded (q : List OSW) (osw : OSW) : List OSW :=
  (if q.length ≥ OSW_QUEUE_SIZE then q.tail else q) ++ [osw]

/-- Source function `SmartnetParser::enqueue`. -/
def enqueue (sys : System) (s : ParserState) (addr : Nat) (grp : Nat) (cmd : Nat) (ts : ℚ) :
    ParserState :=
  { s with osw_q := push_bounded s.osw_q (mk_osw sys addr grp cmd ts) }

/-! ## Trunking state updates -/

/-- Source function `SmartnetParser::add_default_tgid`: the entry it stores under `tgid`. -/
def default_tgid (tgid : Nat) : TalkgroupInfo :=
  { tgid := tgid, priority := TGID_DEFAULT_PRIO, tag := "", srcaddr := 0, time := 0,
    release_time := 0, mode := -1, status := 0, frequency := 0 }

/-- Source function `SmartnetParser::update_talkgroup`: the returned flag and the new talkgroup table. -/
def update_talkgroup (tgs : List (Nat × TalkgroupInfo)) (ts : ℚ) (frequency : Int) (tgid : Nat)
    (srcaddr : Int) (mode : Int) : Bool × List (Nat × TalkgroupInfo) :=
  let base_tgid := tgid &&& 0xfff0
  let tgid_stat := tgid &&& 0x000f
  let assign (ti : TalkgroupInfo) : TalkgroupInfo :=
    let t1 := { ti with time := ts, release_time := 0, frequency := frequency, status := tgid_stat }
    let t2 := if srcaddr ≥ 0 then { t1 with srcaddr := srcaddr } else t1
    if mode ≥ 0 then { t2 with mode := mode } else t2
  match smap_find tgs base_tgid with
  | none => (true, smap_insert tgs base_tgid (assign (default_tgid base_tgid)))
  | some ti =>
    if ts < ti.release_time then (false, tgs)
    else (true, smap_insert tgs base_tgid (assign ti))

/-- Source function `SmartnetParser::update_talkgroups`: the talkgroup itself, then every sub-talkgroup
patched to it. -/
def update_talkgroups (s : ParserState) (ts : ℚ) (frequency : Int) (tgid : Nat)
    (srcaddr : Int) (mode : Int) : ParserState :=
  let tgs1 := (update_talkgroup s.talkgroups ts frequency tgid srcaddr mode).2
  let tgs2 :=
    match smap_find s.patches tgid with
    | none => tgs1
    | some subs =>
      subs.foldl (fun tgs p => (update_talkgroup tgs ts frequency p.1 srcaddr mode).2) tgs1
  { s with talkgroups := tgs2 }

/-- Source function `SmartnetParser::update_voice_frequency`. A fresh `VoiceFrequency` leaves `tgid`, `flags`,
`mode` and `time` unset in the source; they are 0 here until assigned. -/
def update_voice_frequency (s : ParserState) (ts : ℚ) (freq : ℚ) (tgid : Nat)
    (srcaddr : Int) (mode : Int) : ParserState :=
  if freq = 0 then s
  else
    let frequency := ctrunc (freq * 1000000)
    let s1 := update_talkgroups s ts frequency tgid srcaddr mode
    let base_tgid := tgid &&& 0xfff0
    let flags := tgid &&& 0x000f
    let vf0 : VoiceFrequency :=
      match smap_find s1.voice_frequencies frequency with
      | none => { frequency := frequency, tgid := 0, flags := 0, mode := 0, counter := 0, time := 0 }
      | some vf => vf
    let vf1 := if mode ≠ -1 then { vf0 with mode := mode } else vf0
    let vf2 := { vf1 with tgid := base_tgid, flags := flags, counter := vf1.counter + 1, time := ts }
    { s1 with voice_frequencies := smap_insert s1.voice_frequencies frequency vf2 }

/-- Source function `SmartnetParser::add_adjacent_site`. -/
def add_adjacent_site (s : ParserState) (ts : ℚ) (site : Nat) (cc_rx_freq cc_tx_freq : ℚ) :
    ParserState :=
  let as : AdjacentSite := { time := ts, cc_rx_freq := cc_rx_freq, cc_tx_freq := cc_tx_freq }
  { s with adjacent_sites := smap_insert s.adjacent_sites site as }

/-- Source function `SmartnetParser::add_alternate_cc_freq`. -/
def add_alternate_cc_freq (s : ParserState) (ts : ℚ) (cc_rx_freq cc_tx_freq : ℚ) : ParserState :=
  let ac : AlternateCCFreq := { time := ts, cc_rx_freq := cc_rx_freq, cc_tx_freq := cc_tx_freq }
  let key := ctrunc (cc_rx_freq * 1000000)
  { s with alternate_cc_freqs := smap_insert s.alternate_cc_freqs key ac }

/-- Source function `SmartnetParser::add_patch`. -/
def add_patch (s : ParserState) (ts : ℚ) (tgid : Nat) (sub_tgid : Nat) (mode : Int) :
    ParserState :=
  let subs := (smap_find s.patches tgid).getD []
  { s with patches := smap_insert s.patches tgid (smap_insert subs sub_tgid (ts, mode)) }

/-- Source function `SmartnetParser::delete_patches`. -/
def delete_patches (s : ParserState) (tgid : Nat) : ParserState :=
  { s with patches := smap_erase s.patches tgid }

/-- Source function `SmartnetParser::expire_talkgroups`: the body only takes the lock. -/
def expire_talkgroups (s : ParserState) (_curr_time : ℚ) : ParserState := s

/-- Source function `SmartnetParser::expire_patches`. -/
def expire_patches (s : ParserState) (curr_time : ℚ) : ParserState :=
  let live (e : Nat × (ℚ × Int)) : Bool := !decide (curr_time > e.2.1 + PATCH_EXPIRY_TIME)
  let swept := s.patches.map (fun p => (p.1, p.2.filter live))
  { s with patches := swept.filter (fun p => !p.2.isEmpty) }

/-- Source function `SmartnetParser::expire_adjacent_sites`. -/
def expire_adjacent_sites (s : ParserState) (curr_time : ℚ) : ParserState :=
  let live (p : Nat × AdjacentSite) : Bool :=
    !decide (curr_time > p.2.time + ADJ_SITE_EXPIRY_TIME)
  { s with adjacent_sites := s.adjacent_sites.filter live }

/-- Source function `SmartnetParser::expire_alternate_cc_freqs`. -/
def expire_alternate_cc_freqs (s : ParserState) (curr_time : ℚ) : ParserState :=
  let live (p : Int × AlternateCCFreq) : Bool :=
    !decide (curr_time > p.2.time + ALT_CC_EXPIRY_TIME)
  { s with alternate_cc_freqs := s.alternate_cc_freqs.filter live }

/-! ## The sequencer `process_osws` -/

/-- The flag `encrypted = (dst_tgid & 0x8) >> 3` computed in every GRANT/UPDATE arm. -/
def tgid_encrypted (dst_tgid : Nat) : Bool :=
  (dst_tgid &&& 0x8) >>> 3 != 0

/-- The flag `emergency` computed in every GRANT/UPDATE arm from `options = dst_tgid & 0x7`. -/
def tgid_emergency (dst_tgid : Nat) : Bool :=
  let options := dst_tgid &&& 0x7
  options == 2 || options == 4 || options == 5

/-- What a recognition arm leaves behind: the emitted messages, the parser state (queue
included) and the local `is_unknown_osw`. -/
structure ArmOut where
  messages : List TrunkMessage
  state : ParserState
  is_unknown_osw : Bool
deriving DecidableEq, Repr

/-- Outcome of the reset-marker loop at the top of `process_osws`. -/
inductive ResyncOutcome where
  | returned (q : List OSW)
  | proceed (osw2 : OSW) (q : List OSW) (is_queue_reset : Bool) (queue_reset : OSW)
deriving DecidableEq, Repr

/-- The loop `while (osw2.cmd == OSW_QUEUE_RESET_CMD)`: `osw2` is the word in hand, `q` the
queue behind it. -/
def resync (osw2 : OSW) (q : List OSW) (is_queue_reset : Bool) (queue_reset : OSW) :
    ResyncOutcome :=
  if osw2.cmd = OSW_QUEUE_RESET_CMD then
    match q with
    | [] => .proceed osw2 [] true osw2
    | nxt :: rest =>
      if rest.length = OSW_QUEUE_SIZE - 2 then resync nxt rest true osw2
      else .returned (osw2 :: rest)
  else .proceed osw2 q is_queue_reset queue_reset

/-- The commands that may follow an idle delayed into a two-word message (`valid_cmds`). -/
def valid_cmds : List Nat :=
  [0x30a, 0x30b, 0x30d, 0x310, 0x311, 0x317, 0x318, 0x319, 0x31a, 0x320, 0x322, 0x32e, 0x340]

/-- The OBT arm (`is_obt_system() && osw2.ch_tx`); `s.osw_q` is the queue behind `osw2`. -/
def arm_obt (sys : System) (s : ParserState) (osw2 : OSW) : Option ArmOut :=
  match s.osw_q with
  | [] => some ⟨[], s, false⟩
  | osw1 :: q1 =>
    let s1 := { s with osw_q := q1 }
    if osw1.cmd = 0x320 ∧ osw2.grp ∧ osw1.grp then
      match q1 with
      | [] => none
      | osw0 :: q0 =>
        if osw0.cmd = 0x30b ∧ osw0.addr &&& 0xfc00 = 0x6000 then
          let system := osw2.addr
          let site := ((osw1.addr &&& 0xfc00) >>> 10) + 1
          let cc_rx_chan := osw0.addr &&& 0x3ff
          let cc_rx_freq := get_freq sys cc_rx_chan false
          let cc_tx_freq := osw2.f_tx
          let s0 := { s with osw_q := q0, rx_sys_id := system }
          if osw0.grp then
            some ⟨[], add_adjacent_site s0 osw1.ts site cc_rx_freq cc_tx_freq, false⟩
          else
            some ⟨[], add_alternate_cc_freq { s0 with rx_site_id := site } osw1.ts cc_rx_freq
              cc_tx_freq, false⟩
        else some ⟨[], { s with osw_q := osw0 :: q0 }, true⟩
    else if osw1.cmd = 0x2f8 ∧ osw2.ch_tx then some ⟨[], s1, false⟩
    else if osw2.ch_tx ∧ osw1.ch_rx ∧ osw1.grp ∧ osw1.addr ≠ 0 ∧ osw2.addr ≠ 0 then
      let mode : Int := if osw2.grp then 0 else 1
      let src_rid := osw2.addr
      let dst_tgid := osw1.addr
      let vc_rx_freq := osw1.f_rx
      let msg := create_trunk_message sys s1 .GRANT (vc_rx_freq * 1000000) dst_tgid src_rid
        (tgid_encrypted dst_tgid) (tgid_emergency dst_tgid)
      some ⟨[msg], update_voice_frequency s1 osw1.ts vc_rx_freq dst_tgid src_rid mode, false⟩
    else if osw2.ch_tx ∧ osw1.ch_rx ∧ !osw1.grp ∧ osw1.addr ≠ 0 ∧ osw2.addr ≠ 0 then
      some ⟨[], s1, false⟩
    else if osw2.ch_tx ∧ osw1.ch_rx ∧ !osw2.grp ∧ !osw1.grp ∧ osw1.addr ≠ 0 ∧ osw2.addr ≠ 0 then
      some ⟨[], s1, false⟩
    else some ⟨[], { s with osw_q := osw1 :: q1 }, true⟩

/-- The sub-arm `osw1.cmd == 0x30b` of the `0x308` arm; `q1` is the queue behind `osw1`. -/
def arm_308_30b (sys : System) (curr_time : Int) (s : ParserState) (osw2 osw1 : OSW)
    (q1 : List OSW) : Option ArmOut :=
  match q1 with
  | [] => none
  | first :: qa =>
    let popped : Option (OSW × List OSW) :=
      if first.cmd = 0x2f8 ∧ !first.grp then
        match qa with
        | [] => none
        | nxt :: qb => some (nxt, qb)
      else some (first, qa)
    match popped with
    | none => none
    | some (osw0, q0) =>
      if osw1.grp ∧ !osw0.grp ∧ osw0.ch_rx ∧ osw0.addr &&& 0xff00 = 0x1f00 ∧
          osw1.addr &&& 0xfc00 = 0x2800 ∧ osw1.addr &&& 0x3ff = osw0.cmd then
        some ⟨[], { s with osw_q := q0, rx_sys_id := osw2.addr,
                           rx_cc_freq := osw0.f_rx * 1000000 }, false⟩
      else
        let s0 := { s with osw_q := osw0 :: q0 }
        if osw1.addr &&& 0xFC00 = 0x2800 ∧ osw1.grp then
          some ⟨[], { s0 with rx_sys_id := osw2.addr, rx_cc_freq := osw0.f_rx * 1000000 }, false⟩
        else if osw1.addr &&& 0xFC00 = 0x6000 then
          let cc_rx_chan := osw1.addr &&& 0x3ff
          let cc_rx_freq := get_freq sys cc_rx_chan false
          let cc_tx_freq := osw2.f_tx
          let s2 := { s0 with rx_sys_id := osw2.addr }
          if !osw1.grp then
            some ⟨[], add_alternate_cc_freq s2 curr_time cc_rx_freq cc_tx_freq, false⟩
          else some ⟨[], s2, false⟩
        else
          -- extended functions on groups (patch cancel) and on individuals: every branch
          -- of the two chains only logs
          some ⟨[], s0, false⟩

/-- The arm `osw2.cmd == 0x308` (two- or three-OSW messages); `s.osw_q` is the queue behind
`osw2`. -/
def arm_308 (sys : System) (curr_time : Int) (s : ParserState) (osw2 : OSW) : Option ArmOut :=
  match s.osw_q with
  | [] => some ⟨[], { s with osw_q := [osw2] }, false⟩
  | osw1 :: q1 =>
    let s1 := { s with osw_q := q1 }
    if osw1.ch_rx ∧ !osw1.grp ∧ osw1.addr &&& 0xff00 = 0x1f00 then
      some ⟨[], { s1 with rx_sys_id := osw2.addr, rx_cc_freq := osw1.f_rx * 1000000 }, false⟩
    else if osw1.ch_rx ∧ osw1.grp ∧ osw1.addr ≠ 0 ∧ osw2.addr ≠ 0 then
      let src_rid := osw2.addr
      let dst_tgid := osw1.addr
      let vc_freq := osw1.f_rx
      let msg := create_trunk_message sys s1 .GRANT (vc_freq * 1000000) dst_tgid src_rid
        (tgid_encrypted dst_tgid) (tgid_emergency dst_tgid)
      some ⟨[msg], update_voice_frequency s1 osw1.ts vc_freq dst_tgid src_rid 0, false⟩
    else if osw1.ch_rx ∧ !osw1.grp ∧ osw1.addr ≠ 0 ∧ osw2.addr ≠ 0 then some ⟨[], s1, false⟩
    else if osw1.ch_rx ∧ !osw1.grp ∧ osw1.addr ≠ 0 ∧ osw2.addr ≠ 0 then some ⟨[], s1, false⟩
    else if osw1.cmd = 0x2f8 then
      match q1 with
      | [] => none
      | osw0 :: q0 =>
        let found := decide (osw0.cmd ∈ valid_cmds)
        if !found then some ⟨[], { s with osw_q := osw0 :: q0 }, false⟩
        else some ⟨[], { s with osw_q := osw2 :: osw0 :: q0 }, false⟩
    else if osw1.cmd = 0x300 ∧ osw1.grp then some ⟨[], s1, false⟩
    else if osw1.cmd = 0x302 ∧ !osw1.grp then some ⟨[], s1, false⟩
    else if osw1.cmd = 0x303 ∧ osw1.grp then some ⟨[], s1, false⟩
    else if osw1.cmd = 0x308 then
      match q1 with
      | [] => none
      | osw0 :: q0 =>
        if osw0.cmd = 0x2f8 then some ⟨[], { s with osw_q := osw1 :: q0 }, false⟩
        else some ⟨[], { s with osw_q := osw1 :: osw0 :: q0 }, true⟩
    else if osw1.cmd = 0x30a ∧ (!osw1.grp ∧ !osw2.grp) then some ⟨[], s1, false⟩
    else if osw1.cmd = 0x30b then arm_308_30b sys curr_time s osw2 osw1 q1
    else if osw1.cmd = 0x30d ∧ !osw1.grp ∧ !osw2.grp then some ⟨[], s1, false⟩
    else if osw1.cmd = 0x310 ∧ !osw1.grp ∧ !osw2.grp then some ⟨[], s1, false⟩
    else if osw1.cmd = 0x311 ∧ !osw1.grp ∧ !osw2.grp then some ⟨[], s1, false⟩
    else if osw1.cmd = 0x315 ∧ !osw1.grp ∧ !osw2.grp then some ⟨[], s1, false⟩
    else if osw1.cmd = 0x317 ∧ !osw1.grp ∧ !osw2.grp then some ⟨[], s1, false⟩
    else if osw1.cmd = 0x318 ∧ !osw1.grp ∧ !osw2.grp then some ⟨[], s1, false⟩
    else if osw1.cmd = 0x319 ∧ !osw1.grp ∧ !osw2.grp then some ⟨[], s1, false⟩
    else if osw1.cmd = 0x31a ∧ !osw1.grp ∧ !osw2.grp then some ⟨[], s1, false⟩
    else if osw1.cmd = 0x31b ∧ !osw1.grp ∧ !osw2.grp then some ⟨[], s1, false⟩
    else if osw1.cmd = 0x320 then
      match q1 with
      | [] => none
      | osw0 :: q0 =>
        if osw0.cmd = 0x2f8 ∧ !osw0.grp then
          match q0 with
          | [] => none
          | _ :: qb => some ⟨[], { s with osw_q := qb }, false⟩
        else if osw0.cmd = 0x30b ∧ osw0.addr &&& 0xfc00 = 0x6000 then
          some ⟨[], { s with osw_q := q0 }, false⟩
        else some ⟨[], { s with osw_q := osw0 :: q0 }, true⟩
    else if osw1.cmd = 0x322 ∧ osw2.grp ∧ osw1.grp then some ⟨[], s1, false⟩
    else if osw1.cmd = 0x32e ∧ osw2.grp ∧ osw1.grp then some ⟨[], s1, false⟩
    else if osw1.cmd = 0x340 ∧ osw2.grp ∧ osw1.grp ∧
        (is_patch_group osw2.addr ∨ is_multiselect_group osw2.addr) then
      -- tgid, sub_tgid and mode are computed and logged; `add_patch` is not called
      some ⟨[], s1, false⟩
    else some ⟨[], { s with osw_q := osw1 :: q1 }, true⟩

/-- The arm `osw2.cmd == 0x321` (digital two-OSW messages); `s.osw_q` is the queue behind
`osw2`. -/
def arm_321 (sys : System) (s : ParserState) (osw2 : OSW) : Option ArmOut :=
  match s.osw_q with
  | [] => none
  | osw1 :: q1 =>
    let s1 := { s with osw_q := q1 }
    if osw1.ch_rx ∧ osw2.grp ∧ osw1.grp ∧ osw1.addr ≠ 0 then
      let src_rid := osw2.addr
      let dst_tgid := osw1.addr
      let vc_freq := osw1.f_rx
      let msg := create_trunk_message sys s1 .GRANT (vc_freq * 1000000) dst_tgid src_rid
        (tgid_encrypted dst_tgid) (tgid_emergency dst_tgid)
      some ⟨[msg], s1, false⟩
    else if osw1.ch_rx ∧ !osw1.grp ∧ osw1.addr ≠ 0 ∧ osw2.addr ≠ 0 then some ⟨[], s1, false⟩
    else if osw1.cmd = 0x2f8 then
      match q1 with
      | [] => none
      | osw0 :: q0 =>
        if osw0.cmd ≠ 0x317 ∧ osw0.cmd ≠ 0x318 then
          some ⟨[], { s with osw_q := osw0 :: q0 }, false⟩
        else some ⟨[], { s with osw_q := osw2 :: osw0 :: q0 }, false⟩
    else if osw1.cmd = 0x315 ∧ !osw1.grp ∧ !osw2.grp then some ⟨[], s1, false⟩
    else if osw1.cmd = 0x317 ∧ !osw1.grp ∧ !osw2.grp then some ⟨[], s1, false⟩
    else some ⟨[], { s with osw_q := osw1 :: q1 }, true⟩

/-- The recognition chain of `process_osws` on the working head `osw2`; `s.osw_q` is the
queue behind it. -/
def recognise (sys : System) (curr_time : Int) (s : ParserState) (osw2 : OSW) : Option ArmOut :=
  if is_obt_system sys ∧ osw2.ch_tx then arm_obt sys s osw2
  else if osw2.ch_rx ∧ osw2.grp then
    let dst_tgid := osw2.addr
    let vc_freq := osw2.f_rx
    let msg := create_trunk_message sys s .UPDATE (vc_freq * 1000000) dst_tgid 0
      (tgid_encrypted dst_tgid) (tgid_emergency dst_tgid)
    some ⟨[msg], update_voice_frequency s osw2.ts vc_freq dst_tgid (-1) (-1), false⟩
  else if osw2.ch_rx ∧ !osw2.grp ∧ osw2.addr &&& 0xff00 = 0x1f00 then
    some ⟨[], { s with rx_cc_freq := osw2.f_rx * 1000000 }, false⟩
  else if osw2.cmd = 0x2F8 ∧ !osw2.grp then some ⟨[], s, false⟩
  else if osw2.cmd = 0x300 ∧ osw2.grp then some ⟨[], s, false⟩
  else if osw2.cmd = 0x303 ∧ osw2.grp then some ⟨[], s, false⟩
  else if osw2.cmd = 0x308 then arm_308 sys curr_time s osw2
  else if osw2.cmd = 0x321 then arm_321 sys s osw2
  else if osw2.cmd = 0x324 ∧ osw2.grp then some ⟨[], s, false⟩
  else if osw2.cmd = 0x32a ∧ osw2.grp then some ⟨[], s, false⟩
  else if osw2.cmd = 0x32b ∧ !osw2.grp then some ⟨[], s, false⟩
  else if osw2.cmd = 0x32c ∧ !osw2.grp then some ⟨[], s, false⟩
  else if osw2.cmd ≥ 0x360 ∧ osw2.cmd ≤ 0x39f then some ⟨[], s, false⟩
  else if osw2.cmd = 0x3a0 ∧ osw2.grp then some ⟨[], s, false⟩
  else if osw2.cmd = 0x3bf ∨ osw2.cmd = 0x3c0 then some ⟨[], s, false⟩
  else some ⟨[], { s with osw_q := osw2 :: s.osw_q }, true⟩

/-- The result of one pass: the returned messages, the state afterwards and the two local
flags `is_unknown_osw` and `is_queue_reset` at the end of the pass. -/
structure PassResult where
  messages : List TrunkMessage
  state : ParserState
  is_unknown_osw : Bool
  is_queue_reset : Bool
deriving DecidableEq, Repr

/-- Source function `SmartnetParser::process_osws`; `none` is a pass that reads the front of an empty deque. -/
def process_osws (sys : System) (curr_time : Int) (s : ParserState) : Option PassResult :=
  if s.osw_q.isEmpty then some ⟨[], s, false, false⟩
  else if s.osw_q.length < OSW_QUEUE_SIZE then some ⟨[], s, false, false⟩
  else
    match s.osw_q with
    | [] => some ⟨[], s, false, false⟩
    | front :: q =>
      match resync front q false default with
      | .returned q1 => some ⟨[], { s with osw_q := q1 }, false, true⟩
      | .proceed osw2 q1 is_queue_reset queue_reset =>
        match recognise sys curr_time { s with osw_q := q1 } osw2 with
        | none => none
        | some out =>
          if out.is_unknown_osw ∧ is_queue_reset then
            some ⟨out.messages, { out.state with osw_q := queue_reset :: out.state.osw_q },
              out.is_unknown_osw, is_queue_reset⟩
          else some ⟨out.messages, out.state, out.is_unknown_osw, is_queue_reset⟩

/-! ## The message gate `parse_message` -/

/-- The parts of a `gr::message` the parser reads: `type()`, `arg2()` and the body bytes of
`to_string()`. -/
structure Message where
  type : Int
  arg2 : ℚ
  body : List Nat

/-- Source function `SmartnetParser::parse_message`; `curr_time` is the value of `time(NULL)` and `none` as
message is the null pointer. `type() >> 16` and `type() & 0xffff` on the two's-complement
`long` are the floor quotient and the non-negative remainder by `2^16`. -/
def parse_message (sys : System) (curr_time : Int) (msg : Option Message) (s : ParserState) :
    Option (List TrunkMessage × ParserState) :=
  match msg with
  | none => some ([], s)
  | some m =>
    let m_proto : Int := m.type / 65536
    if m_proto ≠ 2 then some ([], s)
    else
      let m_type : Int := m.type % 65536
      let m_ts := m.arg2
      let s1 : ParserState :=
        if m_type = M_SMARTNET_TIMEOUT then s
        else if m_type = M_SMARTNET_BAD_OSW then
          enqueue sys { s with osw_q := [] } 0xffff 0x1 OSW_QUEUE_RESET_CMD m_ts
        else if m_type = M_SMARTNET_OSW then
          match m.body with
          | b0 :: b1 :: b2 :: b3 :: b4 :: _ =>
            let osw_addr := (b0 <<< 8) ||| b1
            let osw_grp := b2
            let osw_cmd := (b3 <<< 8) ||| b4
            let s2 := enqueue sys s osw_addr osw_grp osw_cmd m_ts
            { s2 with osw_count := s2.osw_count + 1, last_osw := m_ts }
          | _ => s
        else s
      match process_osws sys curr_time s1 with
      | none => none
      | some r =>
        let s3 := r.state
        let s4 :=
          if (curr_time : ℚ) ≥ s3.last_expiry_check + EXPIRY_TIMER then
            let e1 := expire_talkgroups s3 curr_time
            let e2 := expire_patches e1 curr_time
            let e3 := expire_adjacent_sites e2 curr_time
            let e4 := expire_alternate_cc_freqs e3 curr_time
            { e4 with last_expiry_check := curr_time }
          else s3
        some (r.messages, s4)

/-! ## Words in the queue and concrete scenarios -/

/-- A queue word is one that `enqueue` built under the current bandplan: the derived fields
`ch_rx`, `ch_tx`, `f_rx`, `f_tx` are those of its `cmd`. -/
def wf_osw (sys : System) (w : OSW) : Prop :=
  w = mk_osw sys w.addr (if w.grp then 1 else 0) w.cmd w.ts

/-- The band family is 800 or 900 (the first three characters of the normalised name). -/
def is_800_900 (sys : System) : Prop :=
  (get_bandplan_details sys).band = "800" ∨ (get_bandplan_details sys).band = "900"

/-- A system on the 800 MHz standard bandplan. -/
def sys800 : System :=
  { bandplan := "800_standard", bandplan_base := 0, bandplan_high := 0, bandplan_spacing := 0,
    bandplan_offset := 0, sys_num := 0 }

/-- The idle word `OSW(addr=0, grp=0, cmd=0x2F8)` as enqueued on `sys800`. -/
def idle800 : OSW := mk_osw sys800 0 0 0x2f8 0

/-- Scenario 2, second word of the grant: `OSW(addr=0x2BCD, grp=1, cmd=0x308)`. -/
def grant_hdr800 : OSW := mk_osw sys800 0x2BCD 1 0x308 0

/-- Scenario 2, channel word of the grant: `OSW(addr=0x1234, grp=1, cmd=channel 0)`. -/
def grant_chan800 : OSW := mk_osw sys800 0x1234 1 0 0

/-- A parser state holding the given queue and empty tables. -/
def state_with (q : List OSW) : ParserState :=
  { ParserState.init with osw_q := q }

/-- The reset marker `parse_message` enqueues on a bad OSW: `enqueue(0xffff, 0x1, 0xFFE, ts)`. -/
def reset800 : OSW := mk_osw sys800 0xffff 0x1 OSW_QUEUE_RESET_CMD 0

/-- A word no arm recognises on `sys800`: `OSW(addr=0x1234, grp=1, cmd=0x3FF)`. -/
def unknown800 : OSW := mk_osw sys800 0x1234 1 0x3ff 0

/-- The head `w` fails every test of the outer recognition chain of `process_osws`, so the
final `else` (unknown OSW) is taken. -/
def matches_no_arm (sys : System) (w : OSW) : Prop :=
  ¬ (is_obt_system sys ∧ w.ch_tx) ∧ ¬ (w.ch_rx ∧ w.grp) ∧
  ¬ (w.ch_rx ∧ !w.grp ∧ w.addr &&& 0xff00 = 0x1f00) ∧
  ¬ (w.cmd = 0x2F8 ∧ !w.grp) ∧ ¬ (w.cmd = 0x300 ∧ w.grp) ∧ ¬ (w.cmd = 0x303 ∧ w.grp) ∧
  w.cmd ≠ 0x308 ∧ w.cmd ≠ 0x321 ∧ ¬ (w.cmd = 0x324 ∧ w.grp) ∧ ¬ (w.cmd = 0x32a ∧ w.grp) ∧
  ¬ (w.cmd = 0x32b ∧ !w.grp) ∧ ¬ (w.cmd = 0x32c ∧ !w.grp) ∧
  ¬ (w.cmd ≥ 0x360 ∧ w.cmd ≤ 0x39f) ∧ ¬ (w.cmd = 0x3a0 ∧ w.grp) ∧
  ¬ (w.cmd = 0x3bf ∨ w.cmd = 0x3c0)

instance (sys : System) (w : OSW) : Decidable (matches_no_arm sys w) := by
  unfold matches_no_arm
  infer_instance

/-- Every result of an arm satisfies `P` (an arm that reads an empty deque has no result). -/
def ArmAll (P : ArmOut → Prop) (r : Option ArmOut) : Prop :=
  ∀ out, r = some out → P out

/-- The GRANT encoding of a message `m` read off the talkgroup word `w`: the raw address, the
frequency of the channel word and the two flags computed from the raw address. -/
def encodes (w : OSW) (m : TrunkMessage) : Prop :=
  m.talkgroup = w.addr ∧ m.freq = w.f_rx * 1000000 ∧
  m.encrypted = tgid_encrypted w.addr ∧ m.emergency = tgid_emergency w.addr ∧
  (m.message_type = MessageType.GRANT ∨ m.message_type = MessageType.UPDATE)

/-- Every message of an arm result is the encoding of some word of `q0`. -/
def EncodedFrom (q0 : List OSW) (out : ArmOut) : Prop :=
  ∀ m ∈ out.messages, ∃ w ∈ q0, encodes w m

/-- Scenario 2 as a full queue: the grant pair, head first, padded with idles to capacity. -/
def scenario2_state : ParserState :=
  state_with [grant_hdr800, grant_chan800, idle800, idle800, idle800, idle800]

/-- The message scenario 2 of the spec expects: emergency clear. -/
def scenario2_expected : TrunkMessage :=
  { message_type := .GRANT, freq := 851012500, talkgroup := 0x1234, source := 0x2BCD,
    encrypted := false, emergency := false, sys_num := 0, sys_id := 0, sys_site_id := 0,
    phase2_tdma := false, tdma_slot := 0, mode := false, duplex := false, priority := 3 }

/-- The message the pass emits on scenario 2: emergency set, since `0x1234 & 7 = 4`. -/
def scenario2_emitted : TrunkMessage :=
  { scenario2_expected with emergency := true }

/-- One OSW message through the parser: `enqueue` of the raw word `(addr, grp, cmd)` followed
by a pass of `process_osws`, as `parse_message` does for `M_SMARTNET_OSW`. -/
def feed_one (sys : System) (s : ParserState) (w : Nat × Nat × Nat) : Option PassResult :=
  process_osws sys 0 (enqueue sys s w.1 w.2.1 w.2.2 0)

/-- A sequence of OSW messages through the parser: the result of every pass, in order, and the
final state. -/
def feed_all (sys : System) : ParserState → List (Nat × Nat × Nat) →
    Option (List PassResult × ParserState)
  | s, [] => some ([], s)
  | s, w :: ws =>
    match feed_one sys s w with
    | none => none
    | some r =>
      match feed_all sys r.state ws with
      | none => none
      | some (rs, s1) => some (r :: rs, s1)

/-- All messages emitted by a sequence of passes, in order. -/
def all_messages (rs : List PassResult) : List TrunkMessage :=
  rs.flatMap (fun r => r.messages)

/-- The raw idle word `OSW(addr=0, grp=0, cmd=0x2F8)`. -/
def raw_idle : Nat × Nat × Nat := (0, 0, 0x2f8)

/-- Scenario 3 in queue order: the grant header `0x308`, one idle, the channel word, then
`n` idles of padding. -/
def scenario3_words (n : Nat) : List (Nat × Nat × Nat) :=
  [(0x2BCD, 1, 0x308), raw_idle, (0x1234, 1, 0)] ++ List.replicate n raw_idle

/-- Scenario 3 in the order of the spec text: channel word, idle, header `0x308`, then `n`
idles of padding. -/
def scenario3_words_rev (n : Nat) : List (Nat × Nat × Nat) :=
  [(0x1234, 1, 0), raw_idle, (0x2BCD, 1, 0x308)] ++ List.replicate n raw_idle

/-- The UPDATE the parser emits for the channel word of scenario 3. -/
def scenario3_update : TrunkMessage :=
  { scenario2_emitted with message_type := .UPDATE, source := 0 }

/-- The protocol-2 message whose low 16 type bits are `M_SMARTNET_BAD_OSW = -2` in two's
complement: `type = (2 << 16) | 0xFFFE`. -/
def bad_osw_msg : Message :=
  { type := 0x2FFFE, arg2 := 0, body := [] }

/-- Words that fill the queue as `[RESET, x, idle, idle, idle, idle]` with `x` unknown,
followed by one more idle. -/
def reset_then_unknown_words : List (Nat × Nat × Nat) :=
  [(0xffff, 1, 0xFFE), (0x1234, 1, 0x3ff), raw_idle, raw_idle, raw_idle, raw_idle, raw_idle]

/-- The queue of an arm result holds at most `n` words. -/
def QueueLe (n : Nat) (out : ArmOut) : Prop :=
  out.state.osw_q.length ≤ n

/-- The parser states that can arise: the constructor state, closed under the private
operations `enqueue` and `process_osws`, under the entry point `parse_message`, and under the
update operations `update_voice_frequency`, `update_talkgroups` and `update_talkgroup` with
any arguments. -/
inductive Reachable (sys : System) : ParserState → Prop where
  | init : Reachable sys ParserState.init
  | enqueue (s : ParserState) (addr grp cmd : Nat) (ts : ℚ) :
      Reachable sys s → Reachable sys (enqueue sys s addr grp cmd ts)
  | pass (s : ParserState) (t : Int) (r : PassResult) :
      Reachable sys s → process_osws sys t s = some r → Reachable sys r.state
  | message (s : ParserState) (t : Int) (msg : Option Message)
      (out : List TrunkMessage × ParserState) :
      Reachable sys s → parse_message sys t msg s = some out → Reachable sys out.2
  | update_voice_frequency (s : ParserState) (ts freq : ℚ) (tgid : Nat) (srcaddr mode : Int) :
      Reachable sys s → Reachable sys (update_voice_frequency s ts freq tgid srcaddr mode)
  | update_talkgroups (s : ParserState) (ts : ℚ) (frequency : Int) (tgid : Nat)
      (srcaddr mode : Int) :
      Reachable sys s → Reachable sys (update_talkgroups s ts frequency tgid srcaddr mode)
  | update_talkgroup (s : ParserState) (ts : ℚ) (frequency : Int) (tgid : Nat)
      (srcaddr mode : Int) :
      Reachable sys s →
      Reachable sys
        { s with talkgroups := (update_talkgroup s.talkgroups ts frequency tgid srcaddr mode).2 }

/-- The state after the six words of scenario 2 have been enqueued one by one. -/
def scenario2_enqueued : ParserState :=
  enqueue sys800 (enqueue sys800 (enqueue sys800 (enqueue sys800 (enqueue sys800
    (enqueue sys800 ParserState.init 0x2BCD 1 0x308 0) 0x1234 1 0 0) 0 0 0x2f8 0)
    0 0 0x2f8 0) 0 0 0x2f8 0) 0 0 0x2f8 0

/-- Scenario 3 as a full queue: grant header, one idle, the channel word, idles. -/
def scenario3_state : ParserState :=
  state_with [grant_hdr800, idle800, grant_chan800, idle800, idle800, idle800]

/-- The putback an arm performs when it flags an unknown OSW, relative to the queue `q` behind
the head: either `q` is restored, or `q` starts with a `0x320` word and is restored without
that word. -/
def PutbackOK (q : List OSW) (out : ArmOut) : Prop :=
  out.is_unknown_osw = true →
    (out.state.osw_q = q ∨
      ∃ osw1 rest, q = osw1 :: rest ∧ osw1.cmd = 0x320 ∧ out.state.osw_q = rest)

/-- The head `w` enters one of the multi-word arms' tests: the OBT arm, `0x308` or `0x321`. -/
def multiword_head (sys : System) (w : OSW) : Prop :=
  (is_obt_system sys ∧ w.ch_tx) ∨ w.cmd = 0x308 ∨ w.cmd = 0x321

/-- A second word with cmd `0x320` as enqueued on `sys800`: `OSW(addr=0x1234, grp=1)`. -/
def sysinfo800 : OSW := mk_osw sys800 0x1234 1 0x320 0

/-- A full queue on `sys800`: header `0x308`, a `0x320` word, an unknown word, three idles. -/
def putback320_state : ParserState :=
  state_with [grant_hdr800, sysinfo800, unknown800, idle800, idle800, idle800]

/-- Scenario 5, head: `OSW(cmd=0x308, grp=1, addr=0x103)`, a patch group (`0x103 & 7 = 3`). -/
def patch_hdr800 : OSW := mk_osw sys800 0x103 1 0x308 0

/-- Scenario 5, second word: `OSW(cmd=0x340, grp=1, addr=0x0ABC)`. -/
def patch_word800 : OSW := mk_osw sys800 0x0ABC 1 0x340 0

/-- Scenario 5 as a full queue: the patch pair padded with idles, empty tables. -/
def scenario5_state : ParserState :=
  state_with [patch_hdr800, patch_word800, idle800, idle800, idle800, idle800]

/-- The header of a digital grant: `OSW(addr=0x2BCD, grp=1, cmd=0x321)`. -/
def digital_hdr800 : OSW := mk_osw sys800 0x2BCD 1 0x321 0

/-- A digital group grant as a full queue: header `0x321`, the channel word of scenario 2,
idles; empty tables. -/
def digital_grant_state : ParserState :=
  state_with [digital_hdr800, grant_chan800, idle800, idle800, idle800, idle800]

/-- The fields `update_talkgroup` assigns on the entry `old` it updates. -/
def tg_assigned (old : TalkgroupInfo) (ts : ℚ) (frequency : Int) (tgid : Nat) (srcaddr : Int)
    (mode : Int) (e : TalkgroupInfo) : Prop :=
  e.time = ts ∧ e.release_time = 0 ∧ e.frequency = frequency ∧ e.status = tgid &&& 0xF ∧
  e.srcaddr = (if srcaddr ≥ 0 then srcaddr else old.srcaddr) ∧
  e.mode = (if mode ≥ 0 then mode else old.mode) ∧
  e.tgid = old.tgid ∧ e.priority = old.priority ∧ e.tag = old.tag

/-- A talkgroup entry for key `0x1230` whose release time is 10. -/
def released_entry : TalkgroupInfo :=
  { default_tgid 0x1230 with release_time := 10, frequency := 851012500 }

/-- A talkgroup table with the single entry `released_entry` under key `0x1230`. -/
def released_table : List (Nat × TalkgroupInfo) :=
  [(0x1230, released_entry)]

/-- Every key of a talkgroup table is base-masked and in range, and the entry stored with it
carries that key as its `tgid`. -/
def TalkgroupKeysOK (tgs : List (Nat × TalkgroupInfo)) : Prop :=
  ∀ p ∈ tgs, p.1 &&& 0xF = 0 ∧ p.1 ≤ 0xFFF0 ∧ p.2.tgid = p.1

/-- The talkgroup table of an arm result satisfies `TalkgroupKeysOK`. -/
def KeysOK (out : ArmOut) : Prop :=
  TalkgroupKeysOK out.state.talkgroups

/-- The state after `update_talkgroup(5, 851012500, 0x1234, 0x2BCD, 0)` on a new parser. -/
def one_talkgroup_state : ParserState :=
  { ParserState.init with
    talkgroups := (update_talkgroup ParserState.init.talkgroups 5 851012500 0x1234 0x2BCD 0).2 }

/-- The entry that update stores under key `0x1230`. -/
def one_talkgroup_entry : TalkgroupInfo :=
  { tgid := 0x1230, priority := 3, tag := "", srcaddr := 0x2BCD, time := 5, release_time := 0,
    mode := 0, status := 4, frequency := 851012500 }

/-- What `parse_message` returns for `bad_osw_msg` at time 100 on `one_talkgroup_state`. -/
def one_talkgroup_out : List TrunkMessage × ParserState :=
  ([], { one_talkgroup_state with last_expiry_check := 100 })

/-- A system on the 900 MHz bandplan. -/
def sys900 : System :=
  { bandplan := "900", bandplan_base := 0, bandplan_high := 0, bandplan_spacing := 0,
    bandplan_offset := 0, sys_num := 0 }

/-- The RX frequency of the 800 standard plan in units of 12.5 kHz (1/80 MHz), with the
channel ranges of `get_freq`; used to compare frequencies in integer arithmetic. -/
def std800_units (chan : Int) : Int :=
  if chan ≥ 0x2d0 ∧ chan ≤ 0x2f7 then 69280 + 2 * (chan - 0x2d0)
  else if chan ≥ 0x32f ∧ chan ≤ 0x33f then 69360 + 2 * (chan - 0x32f)
  else if chan ≥ 0x3c1 ∧ chan ≤ 0x3fe then 69394 + 2 * (chan - 0x3c1)
  else if chan = 0x3be then 69518
  else if chan ≤ 0x2cf then 68081 + 2 * chan
  else 0

end SmartnetParser

/-! # Call concluder (`call_concluder.cc`)

The aggregation loop of `Call_Concluder::create_call_data`, the JSON sidecar of
`create_call_json`, the file policy of `remove_call_files`, the worker `upload_call_worker`
and the supervisor `manage_call_data_workers`. `double` values are exact rationals and
`std::int64_t` values are integers (the stamps are epoch milliseconds, for which the signed
64-bit arithmetic of the source does not overflow). -/

namespace CallConcluder

/-- Modelled from the spec: `struct Transmission` is declared in a header outside `src/`;
the fields are those read by `create_call_data`. -/
structure Transmission where
  source : Int
  start_time : Int
  stop_time : Int
  start_time_ms : Int
  stop_time_ms : Int
  error_count : Int
  spike_count : Int
  color_code : Int
  talkgroup : Int
  filename : String
deriving DecidableEq

/-- Modelled from the spec: `struct Call_Source` is declared in a header outside `src/`; the
fields follow the brace initialiser `{ t.source, t.start_time, playable_pos_s, false, "", tag }`
of `create_call_data`. -/
structure Call_Source where
  source : Int
  time : Int
  position : ℚ
  emergency : Bool
  signal_system : String
  tag : String
deriving DecidableEq

/-- Modelled from the spec: `struct Call_Error` is declared in a header outside `src/`; the
fields follow the brace initialiser
`{ t.start_time, playable_pos_s, seg_len_s, t.error_count, t.spike_count }`. -/
structure Call_Error where
  time : Int
  position : ℚ
  total_len : ℚ
  error_count : Int
  spike_count : Int
deriving DecidableEq

/-- Modelled from the spec: the enumeration of `call_info.status` is declared in a header
outside `src/`; the four values are those named in `call_concluder.cc` and in the spec. -/
inductive Call_Data_Status where
  | INITIAL
  | SUCCESS
  | RETRY
  | FAILED
deriving DecidableEq

/-- One element of `json_data["freqList"]` as built by `create_call_json` (the constant
`freq` of the call is left out). -/
structure Freq_Entry where
  time : Int
  pos : ℚ
  len : ℚ
  error_count : Int
  spike_count : Int
deriving DecidableEq

/-- One element of `json_data["srcList"]` as built by `create_call_json`. -/
structure Src_Entry where
  src : Int
  time : Int
  pos : ℚ
  emergency : Int
  signal_system : String
  tag : String
deriving DecidableEq

/-- The JSON object built by `create_call_json`, restricted to the timing fields, the
talkgroup, the color code and the two per-transmission lists. -/
structure Call_Json where
  start_time : Int
  stop_time : Int
  start_time_ms : Int
  stop_time_ms : Int
  call_length : Int
  call_length_ms : Int
  talkgroup : Int
  color_code : Int
  freqList : List Freq_Entry
  srcList : List Src_Entry
deriving DecidableEq

/-- Modelled from the spec: `struct Call_Data_t` is declared in a header outside `src/`; kept
are the fields that the aggregation loop and the finalisation of `create_call_data` write,
and the fields read by `create_call_json`, `remove_call_files`, `upload_call_worker` and
`manage_call_data_workers`, and the fields read by `expand_filename_format`. The embedding
`create_call_data` computes all of them but the file names and `archive_files_on_failure`
(the last two statements of the source function, embedded in `create_call_data_files`) and
`process_call_time` (set from the clock, and set again before it is first read). -/
structure Call_Data_t where
  transmission_list : List Transmission
  transmission_source_list : List Call_Source
  transmission_error_list : List Call_Error
  transmission_archive : Bool
  talkgroup : Int
  error_count : Int
  spike_count : Int
  min_transmissions_removed : Int
  color_code : Int
  start_time_ms : Int
  stop_time_ms : Int
  start_time : Int
  stop_time : Int
  call_length_ms : Int
  length : ℚ
  status : Call_Data_Status := Call_Data_Status.INITIAL
  retry_attempt : Int := 0
  process_call_time : Int := 0
  call_num : Int := 0
  audio_archive : Bool := false
  call_log : Bool := false
  compress_wav : Bool := false
  upload_script : String := ""
  archive_files_on_failure : Bool := false
  filename : String := ""
  status_filename : String := ""
  converted : String := ""
  call_json : Option Call_Json := none
  freq : ℚ := 0
  short_name : String := ""
  talkgroup_tag : String := ""
  talkgroup_alpha_tag : String := ""
  talkgroup_description : String := ""
  talkgroup_group : String := ""
  talkgroup_display : String := ""
  audio_type : String := ""
  tdma_slot : Int := 0
  sys_num : Int := 0
  source_num : Int := 0
  recorder_num : Int := 0
  priority : Int := 0
  signal : ℚ := 0
  noise : ℚ := 0
  emergency : Bool := false
  encrypted : Bool := false
deriving DecidableEq

/-- The part of `Call` read by `create_call_data`, `create_base_filename` and
`conclude_call`: the getters of the same names; `is_monitoring` is
`get_state() == MONITORING` and `is_superseded` is `get_monitoring_state() == SUPERSEDED`. -/
structure Call where
  transmissions : List Transmission
  talkgroup : Int
  call_num : Int := 0
  freq : ℚ := 0
  signal : ℚ := 0
  noise : ℚ := 0
  recorder_num : Int := 0
  source_num : Int := 0
  encrypted : Bool := false
  emergency : Bool := false
  priority : Int := 0
  tdma_slot : Int := 0
  phase2_tdma : Bool := false
  is_analog : Bool := false
  talkgroup_display : String := ""
  start_time_ms : Int := 0
  capture_dir : String := ""
  short_name : String := ""
  is_monitoring : Bool := false
  is_superseded : Bool := false

/-- Modelled from the spec: `class Talkgroup` is declared outside `src/`; the four fields are
those `create_call_data` copies. -/
structure Talkgroup where
  tag : String
  alpha_tag : String
  description : String
  group : String

/-- The part of `System` read by `create_call_data`, `create_base_filename` and
`conclude_call`: `get_min_tx_duration()`, `get_transmission_archive()`,
`find_unit_tag(source)`, `get_audio_archive()`, `get_call_log()`, `get_compress_wav()`,
`get_upload_script()`, `get_sys_num()`, `get_short_name()`, `find_talkgroup(tg)` (a null
result is `none`), `get_min_duration()`, `get_filename_format()`. -/
structure System where
  min_tx_duration : ℚ
  transmission_archive : Bool
  find_unit_tag : Int → String
  audio_archive : Bool := false
  call_log : Bool := false
  compress_wav : Bool := false
  upload_script : String := ""
  sys_num : Int := 0
  short_name : String := ""
  find_talkgroup : Int → Option Talkgroup := fun _ => none
  min_duration : ℚ := 0
  filename_format : String := ""

/-- Source expression `std::max<std::int64_t>(0, t.stop_time_ms - t.start_time_ms)`. -/
def seg_ms (t : Transmission) : Int := max 0 (t.stop_time_ms - t.start_time_ms)

/-- Source expression `seg_ms / 1000.0`. -/
def seg_len_s (t : Transmission) : ℚ := (seg_ms t : ℚ) / 1000

/-- The variables of the aggregation loop: `call_info`, the locals `playable_pos_s`,
`audio_sum_ms`, `have_any`, `min_start_ms`, `max_stop_ms`, and the files deleted by
`std::remove`. While the iterator walks `call_info.transmission_list`, the field
`transmission_list` holds the visited elements that were not erased. -/
structure LoopState where
  call_info : Call_Data_t
  playable_pos_s : ℚ
  audio_sum_ms : Int
  have_any : Bool
  min_start_ms : Int
  max_stop_ms : Int
  removed_files : List String

/-- The state before the loop (the block "Static metadata"): `status = INITIAL`,
`retry_attempt = 0`, `min_transmissions_removed = 0`, `color_code = 0`, empty source and error
lists, zero counters, the values copied from the call and the system, the talkgroup texts
(cleared when `find_talkgroup` finds nothing) and the audio type. -/
def loop_init (call : Call) (sys : System) : LoopState :=
  { call_info :=
      { transmission_list := [], transmission_source_list := [],
        transmission_error_list := [], transmission_archive := sys.transmission_archive,
        talkgroup := call.talkgroup, error_count := 0, spike_count := 0,
        min_transmissions_removed := 0, color_code := 0, start_time_ms := 0,
        stop_time_ms := 0, start_time := 0, stop_time := 0, call_length_ms := 0, length := 0,
        status := Call_Data_Status.INITIAL, retry_attempt := 0, call_num := call.call_num,
        audio_archive := sys.audio_archive, call_log := sys.call_log,
        compress_wav := sys.compress_wav, upload_script := sys.upload_script,
        freq := call.freq, signal := call.signal, noise := call.noise,
        recorder_num := call.recorder_num, source_num := call.source_num,
        encrypted := call.encrypted, emergency := call.emergency, priority := call.priority,
        tdma_slot := call.tdma_slot, sys_num := sys.sys_num, short_name := sys.short_name,
        talkgroup_display := call.talkgroup_display,
        talkgroup_tag := ((sys.find_talkgroup call.talkgroup).map (fun tg => tg.tag)).getD "",
        talkgroup_alpha_tag :=
          ((sys.find_talkgroup call.talkgroup).map (fun tg => tg.alpha_tag)).getD "",
        talkgroup_description :=
          ((sys.find_talkgroup call.talkgroup).map (fun tg => tg.description)).getD "",
        talkgroup_group :=
          ((sys.find_talkgroup call.talkgroup).map (fun tg => tg.group)).getD "",
        audio_type := if call.is_analog then "analog"
          else if call.phase2_tdma then "digital tdma" else "digital" },
    playable_pos_s := 0, audio_sum_ms := 0, have_any := false, min_start_ms := 0,
    max_stop_ms := 0, removed_files := [] }

/-- One iteration of the `for` loop of `create_call_data` on transmission `t`;
`checkIfFile` tells which files exist. -/
def loop_body (sys : System) (checkIfFile : String → Bool) (st : LoopState)
    (t : Transmission) : LoopState :=
  let ci := st.call_info
  if seg_len_s t < sys.min_tx_duration then
    if !ci.transmission_archive then
      let removed := if checkIfFile t.filename then st.removed_files ++ [t.filename]
        else st.removed_files
      let ci1 := { ci with min_transmissions_removed := ci.min_transmissions_removed + 1 }
      { st with call_info := ci1, removed_files := removed }
    else st
  else
    let min_start := if !st.have_any then t.start_time_ms
      else if t.start_time_ms < st.min_start_ms then t.start_time_ms else st.min_start_ms
    let max_stop := if !st.have_any then t.stop_time_ms
      else if t.stop_time_ms > st.max_stop_ms then t.stop_time_ms else st.max_stop_ms
    let tag := sys.find_unit_tag t.source
    let color := if ci.color_code = -1 ∧ t.color_code ≠ -1 then t.color_code else ci.color_code
    let tg := if ci.talkgroup ≠ t.talkgroup then t.talkgroup else ci.talkgroup
    let call_source : Call_Source :=
      { source := t.source, time := t.start_time, position := st.playable_pos_s,
        emergency := false, signal_system := "", tag := tag }
    let call_error : Call_Error :=
      { time := t.start_time, position := st.playable_pos_s, total_len := seg_len_s t,
        error_count := t.error_count, spike_count := t.spike_count }
    let ci1 : Call_Data_t :=
      { ci with
        transmission_list := ci.transmission_list ++ [t],
        color_code := color,
        talkgroup := tg,
        transmission_source_list := ci.transmission_source_list ++ [call_source],
        transmission_error_list := ci.transmission_error_list ++ [call_error],
        error_count := ci.error_count + t.error_count,
        spike_count := ci.spike_count + t.spike_count }
    { st with
      call_info := ci1,
      have_any := true,
      min_start_ms := min_start,
      max_stop_ms := max_stop,
      playable_pos_s := st.playable_pos_s + seg_len_s t,
      audio_sum_ms := st.audio_sum_ms + seg_ms t }

/-- The whole loop over `call->get_transmissions()`. -/
def aggregate (call : Call) (sys : System) (checkIfFile : String → Bool) : LoopState :=
  call.transmissions.foldl (loop_body sys checkIfFile) (loop_init call sys)

/-- The block "Finalize aggregate timing"; `(time_t)(x / 1000)` is integer division
truncating toward zero. -/
def finalize (st : LoopState) : Call_Data_t :=
  let ci := st.call_info
  if st.have_any then
    { ci with
      start_time_ms := st.min_start_ms,
      stop_time_ms := st.max_stop_ms,
      start_time := Int.tdiv st.min_start_ms 1000,
      stop_time := Int.tdiv st.max_stop_ms 1000,
      call_length_ms := st.audio_sum_ms,
      length := (st.audio_sum_ms : ℚ) / 1000 }
  else
    { ci with
      length := 0, start_time_ms := 0, stop_time_ms := 0, start_time := 0, stop_time := 0,
      call_length_ms := 0 }

/-- Source function `Call_Concluder::create_call_data`, restricted to the aggregate fields
(`create_base_filename` afterwards only fills in file names). -/
def create_call_data (call : Call) (sys : System) (checkIfFile : String → Bool) :
    Call_Data_t :=
  finalize (aggregate call sys checkIfFile)

/-- The transmissions that pass the minimum-duration filter: those whose canonical length is
not below `min_tx_duration`, in the original order. -/
def retained (sys : System) (ts : List Transmission) : List Transmission :=
  ts.filter (fun t => !decide (seg_len_s t < sys.min_tx_duration))

/-- The loop invariant linking the locals to the kept transmissions. -/
def LoopInv (st : LoopState) : Prop :=
  st.audio_sum_ms = (st.call_info.transmission_list.map seg_ms).sum ∧
  (st.have_any = true ↔ st.call_info.transmission_list ≠ []) ∧
  st.playable_pos_s = (st.audio_sum_ms : ℚ) / 1000

/-- A transmission with the given millisecond stamps, source 1, talkgroup 100. -/
def tx_at (start_ms stop_ms : Int) (file : String) : Transmission :=
  { source := 1, start_time := Int.tdiv start_ms 1000, stop_time := Int.tdiv stop_ms 1000,
    start_time_ms := start_ms, stop_time_ms := stop_ms, error_count := 0, spike_count := 0,
    color_code := -1, talkgroup := 100, filename := file }

/-- A system with `min_tx_duration = 1.0`, no transmission archive, no unit tags. -/
def sys_min1 : System :=
  { min_tx_duration := 1, transmission_archive := false, find_unit_tag := fun _ => "" }

/-- Scenario: a 0.3 s transmission followed by a 2.0 s transmission. -/
def call_short_long : Call :=
  { transmissions := [tx_at 1000 1300 "a.wav", tx_at 2000 4000 "b.wav"], talkgroup := 100 }

/-- A call whose only transmission lasts 0.3 s. -/
def call_short_only : Call :=
  { transmissions := [tx_at 1000 1300 "a.wav"], talkgroup := 100 }

/-- The loop invariant for the wall-clock window: once a transmission is kept, `min_start_ms`
and `max_stop_ms` are the least start and the greatest stop among the kept transmissions. -/
def SpanInv (st : LoopState) : Prop :=
  st.have_any = true →
    (∀ t ∈ st.call_info.transmission_list,
      st.min_start_ms ≤ t.start_time_ms ∧ t.stop_time_ms ≤ st.max_stop_ms) ∧
    (∃ t ∈ st.call_info.transmission_list, st.min_start_ms = t.start_time_ms) ∧
    (∃ t ∈ st.call_info.transmission_list, st.max_stop_ms = t.stop_time_ms)

/-- The loop invariant for the playable sum: it is not negative and, once a transmission is
kept, it fits into the window `[min_start_ms, max_stop_ms]`. -/
def DomInv (st : LoopState) : Prop :=
  0 ≤ st.audio_sum_ms ∧ (st.have_any = true → st.min_start_ms + st.audio_sum_ms ≤ st.max_stop_ms)

/-- Transmissions that follow one another in time: each one stops no later than every later
one starts. -/
def Sequential (ts : List Transmission) : Prop :=
  ts.Pairwise (fun a b => a.stop_time_ms ≤ b.start_time_ms)

/-- Two overlapping transmissions of 2.0 s each: `[0, 2000]` and `[1000, 3000]` ms. -/
def call_overlap : Call :=
  { transmissions := [tx_at 0 2000 "a.wav", tx_at 1000 3000 "b.wav"], talkgroup := 100 }

instance (ts : List Transmission) : Decidable (Sequential ts) := by
  unfold Sequential
  infer_instance

/-- Two transmissions in sequence with a pause between them: `[0, 2000]` and `[2500, 4000]`
ms. -/
def call_sequential : Call :=
  { transmissions := [tx_at 0 2000 "a.wav", tx_at 2500 4000 "b.wav"], talkgroup := 100 }
/-- The loop invariant for the playable timeline: the source and error lists have one record
per kept transmission, in order, each at the playable position where its transmission
begins. -/
def TimelineInv (st : LoopState) : Prop :=
  st.call_info.transmission_source_list.length = st.call_info.transmission_list.length ∧
  st.call_info.transmission_error_list.length = st.call_info.transmission_list.length ∧
  st.playable_pos_s = ((st.call_info.transmission_list).map seg_len_s).sum ∧
  ∀ k t, st.call_info.transmission_list[k]? = some t →
    ∃ s e, st.call_info.transmission_source_list[k]? = some s ∧
      st.call_info.transmission_error_list[k]? = some e ∧
      s.position = (((st.call_info.transmission_list).take k).map seg_len_s).sum ∧
      e.position = (((st.call_info.transmission_list).take k).map seg_len_s).sum ∧
      e.total_len = seg_len_s t ∧ s.source = t.source ∧ s.time = t.start_time ∧
      e.time = t.start_time ∧ e.error_count = t.error_count ∧ e.spike_count = t.spike_count

/-- A call whose only transmission lasts 2.0 s and carries color code 5. -/
def call_color5 : Call :=
  { transmissions := [{ tx_at 0 2000 "a.wav" with color_code := 5 }], talkgroup := 100 }

/-! ## The JSON sidecar (`create_call_json`) -/

/-- Source expression `round(x * 100.0) / 100.0`: rounding to 2 decimal places. -/
def round2 (x : ℚ) : ℚ := (SmartnetParser.cround (x * 100) : ℚ) / 100

/-- The `freqList` element built from `transmission_error_list[i]`. -/
def freq_entry (e : Call_Error) : Freq_Entry :=
  { time := e.time, pos := round2 e.position, len := e.total_len,
    error_count := e.error_count, spike_count := e.spike_count }

/-- The `srcList` element for index `i`: the fields of `transmission_source_list[i]`, with
`pos` read from `transmission_error_list[i].position`. The vector subscript has no bounds
check: the result is `none` when `i` is not an index of the list it reads. -/
def src_entry (call_info : Call_Data_t) (i : Nat) : Option Src_Entry :=
  match call_info.transmission_source_list[i]?, call_info.transmission_error_list[i]? with
  | some s, some e =>
    some { src := s.source, time := s.time, pos := round2 e.position,
           emergency := if s.emergency then 1 else 0, signal_system := s.signal_system,
           tag := s.tag }
  | _, _ => none

/-- The object `json_data` of `create_call_json`: `call_length` is
`int(std::round(call_info.length))`; `freqList` has one element per error record and `srcList`
one element per index of `transmission_source_list`. -/
def json_data (call_info : Call_Data_t) : Option Call_Json :=
  match (List.range call_info.transmission_source_list.length).mapM (src_entry call_info) with
  | none => none
  | some srcs =>
    some { start_time := call_info.start_time, stop_time := call_info.stop_time,
           start_time_ms := call_info.start_time_ms, stop_time_ms := call_info.stop_time_ms,
           call_length := SmartnetParser.cround call_info.length,
           call_length_ms := call_info.call_length_ms, talkgroup := call_info.talkgroup,
           color_code := call_info.color_code,
           freqList := call_info.transmission_error_list.map freq_entry, srcList := srcs }

/-! ## Files and external effects -/

/-- What the concluder does to the outside world, in the order it happens. -/
inductive Effect where
  | combine_wav (files : String) (target_filename : String)
  | write_json (status_filename : String)
  | convert_media (filename : String) (converted : String)
  | upload_script (shell_command : String)
  | plugman_call_end (call_num : Int)
  | copy_file (transmission_file : String) (target_file : String)
  | remove (path : String)
  | create_directories (path : String)
deriving DecidableEq

/-- The outside world seen by the concluder: the regular files that exist, the effects
performed so far, and whether `copy_file` has thrown inside `remove_call_files`. That
exception ends `remove_call_files` at once and nothing in the concluder catches it; the
callers of `remove_call_files` carry the flag along in the world they hand on. -/
structure World where
  files : List String
  log : List Effect
  thrown : Bool := false
deriving DecidableEq

/-- Source function `checkIfFile`: the path exists and is a regular file. -/
def checkIfFile (w : World) (filePath : String) : Bool := decide (filePath ∈ w.files)

/-- Source statement `if (checkIfFile(p)) std::remove(p.c_str())`. -/
def remove_if_file (w : World) (p : String) : World :=
  if checkIfFile w p then
    { w with files := w.files.filter (fun q => decide (q ≠ p)),
             log := w.log ++ [Effect.remove p] }
  else w

/-- Source expression `fs::path(p).filename()`: the part of `p` after its last `/`. -/
def path_filename (p : String) : String :=
  String.mk (p.data.reverse.takeWhile (fun c => decide (c ≠ Char.ofNat 47))).reverse

/-- Source expression `fs::path(p).replace_filename(f)`: `p` up to and including its last
`/`, followed by `f`. -/
def replace_filename (p f : String) : String :=
  String.mk ((p.data.reverse.dropWhile (fun c => decide (c ≠ Char.ofNat 47))).reverse ++ f.data)

/-- The `target_file` of the archive loop: `call_info.filename` with its file name replaced
by the file name of the transmission file, which puts the copy in the capture directory. -/
def target_file (call_info : Call_Data_t) (t : Transmission) : String :=
  replace_filename call_info.filename (path_filename t.filename)

/-- Library function `copy_file(transmission_file, target_file)`, called without options: it
creates `dst`, and it throws `filesystem_error` when `dst` exists already (`none`). The
directory of `dst` is the one `create_base_filename` has created for the call. -/
def copy_file (w : World) (src dst : String) : Option World :=
  if checkIfFile w dst then none
  else some { w with files := w.files ++ [dst], log := w.log ++ [Effect.copy_file src dst] }

/-- The archive loop of `remove_call_files`: every transmission file that exists is copied
to its `target_file`. The second component tells that `copy_file` has thrown; the exception
ends the loop at once, with the copies made so far in place. -/
def archive_transmissions (call_info : Call_Data_t) : List Transmission → World → World × Bool
  | [], w => (w, false)
  | t :: rest, w =>
    if checkIfFile w t.filename then
      match copy_file w t.filename (target_file call_info t) with
      | none => (w, true)
      | some w1 => archive_transmissions call_info rest w1
    else archive_transmissions call_info rest w

/-- The loop "remove the transmission files from the temp directory". -/
def remove_transmissions (call_info : Call_Data_t) (w : World) : World :=
  call_info.transmission_list.foldl (fun w1 t => remove_if_file w1 t.filename) w

/-- Source function `remove_call_files(call_info, plugin_failure)`. When `copy_file` throws
in the archive loop the exception leaves the function: nothing is removed, and the world is
the one at the throw, with `thrown` set. -/
def remove_call_files (w : World) (call_info : Call_Data_t) (plugin_failure : Bool) : World :=
  let r : World × Bool :=
    if call_info.audio_archive || (plugin_failure && call_info.archive_files_on_failure) then
      let c := if call_info.transmission_archive then
          archive_transmissions call_info call_info.transmission_list w
        else (w, false)
      if c.2 then c else (remove_transmissions call_info c.1, false)
    else
      let wa := remove_if_file w call_info.filename
      let wb := remove_if_file wa call_info.converted
      (remove_transmissions call_info wb, false)
  if r.2 then { r.1 with thrown := true }
  else if !call_info.call_log && !(plugin_failure && call_info.archive_files_on_failure) then
    remove_if_file r.1 call_info.status_filename
  else r.1

/-- Source function `create_call_json`: builds `json_data`, stores it in
`call_info.call_json`, and writes the status file; `json_opens` tells whether
`std::ofstream json_file(call_info.status_filename)` opens. The third component is the return
value: 0 after writing, 1 when the file cannot be created. -/
def create_call_json (w : World) (json_opens : Bool) (call_info : Call_Data_t) :
    Option (World × Call_Data_t × Int) :=
  match json_data call_info with
  | none => none
  | some j =>
    let ci := { call_info with call_json := some j }
    if json_opens then
      let fs := if checkIfFile w ci.status_filename then w.files
        else w.files ++ [ci.status_filename]
      some ({ w with files := fs, log := w.log ++ [Effect.write_json ci.status_filename] },
        ci, 0)
    else some (w, ci, 1)

/-! ## The worker (`upload_call_worker`) -/

/-- The answers of the outside world to one run of the worker: whether the JSON file opens,
the return values of `combine_wav` and `convert_media` (-1 when the shell command fails, the
length of the command otherwise), and the plugin hook `plugman_call_end`. -/
structure WorkerEnv where
  json_opens : Bool
  combine_wav : Int
  convert_media : Int
  plugman_call_end : Call_Data_t → Int

/-- The string `files` of `upload_call_worker`: the quoted names of the transmission files
that exist. -/
def sox_files (w : World) (call_info : Call_Data_t) : String :=
  call_info.transmission_list.foldl
    (fun acc t => if checkIfFile w t.filename then acc ++ "'" ++ t.filename ++ "' " else acc) ""

/-- The end of `upload_call_worker`: `plugman_call_end`, then `remove_call_files` and
`SUCCESS` when the hook returns 0, `RETRY` otherwise. -/
def worker_finish (env : WorkerEnv) (w : World) (call_info : Call_Data_t) :
    World × Call_Data_t :=
  let w1 := { w with log := w.log ++ [Effect.plugman_call_end call_info.call_num] }
  if env.plugman_call_end call_info = 0 then
    (remove_call_files w1 call_info false, { call_info with status := Call_Data_Status.SUCCESS })
  else (w1, { call_info with status := Call_Data_Status.RETRY })

/-- Source function `upload_call_worker`. A successful `combine_wav` or `convert_media`
creates its target file. -/
def upload_call_worker (env : WorkerEnv) (w : World) (call_info : Call_Data_t) :
    Option (World × Call_Data_t) :=
  if call_info.status = Call_Data_Status.INITIAL then
    let files := sox_files w call_info
    let w1 : World :=
      { w with
        files := if env.combine_wav < 0 ∨ checkIfFile w call_info.filename then w.files
          else w.files ++ [call_info.filename],
        log := w.log ++ [Effect.combine_wav files call_info.filename] }
    match create_call_json w1 env.json_opens call_info with
    | none => none
    | some (w2, ci, result) =>
      if result < 0 then some (w2, { ci with status := Call_Data_Status.FAILED })
      else
        let w3 : World :=
          if ci.compress_wav then
            { w2 with
              files := if env.convert_media < 0 ∨ checkIfFile w2 ci.converted then w2.files
                else w2.files ++ [ci.converted],
              log := w2.log ++ [Effect.convert_media ci.filename ci.converted] }
          else w2
        if ci.compress_wav ∧ env.convert_media < 0 then
          some (w3, { ci with status := Call_Data_Status.FAILED })
        else
          let w4 : World :=
            if ci.upload_script.length ≠ 0 then
              { w3 with log := w3.log ++ [Effect.upload_script
                  (ci.upload_script ++ " '" ++ ci.filename ++ "' '" ++ ci.status_filename ++
                    "' '" ++ ci.converted ++ "'")] }
            else w3
          some (worker_finish env w4 ci)
  else some (worker_finish env w call_info)

/-! ## The supervisor (`manage_call_data_workers`) -/

/-- Constant `Call_Concluder::MAX_RETRY`. -/
def MAX_RETRY : Int := 2

/-- A `std::future<Call_Data_t>` started by `std::async(upload_call_worker, call_info)`: still
running on `call_info`, or ready with the value the worker returned. -/
inductive Future where
  | running (call_info : Call_Data_t)
  | ready (call_info : Call_Data_t)
deriving DecidableEq

/-- The call a future belongs to. -/
def Future.call_num : Future → Int
  | Future.running ci => ci.call_num
  | Future.ready ci => ci.call_num

/-- The static members `call_data_workers` and `retry_call_list`, the outside world, and the
number of calls of `rand()` made so far. -/
structure Supervisor where
  call_data_workers : List Future
  retry_call_list : List Call_Data_t
  world : World
  rand_calls : Nat
deriving DecidableEq

/-- One iteration of the first loop of `manage_call_data_workers` on the future `fut`; the
field `call_data_workers` of `acc` holds the visited futures that were not erased. All reads
of `time(0)` during one call return `now`; `rand n` is the value of the `n`-th call of
`rand()`. The shift `1 << retry_attempt` is `2 ^ retry_attempt` (the count is at most
`MAX_RETRY` here, and it is not negative for a call that started with `retry_attempt = 0`). -/
def reap_worker (now : Int) (rand : Nat → Nat) (acc : Supervisor) (fut : Future) :
    Supervisor :=
  match fut with
  | Future.running _ => { acc with call_data_workers := acc.call_data_workers ++ [fut] }
  | Future.ready call_info =>
    if call_info.status = Call_Data_Status.RETRY then
      let ci := { call_info with retry_attempt := call_info.retry_attempt + 1 }
      if ci.retry_attempt > MAX_RETRY then
        { acc with world := remove_call_files acc.world ci true }
      else
        let jitter : Int := ((rand acc.rand_calls % 10 : Nat) : Int)
        let backoff : Int := ((2 : Int) ^ ci.retry_attempt.toNat) * 60 + jitter
        let ci1 := { ci with process_call_time := now + backoff }
        { acc with retry_call_list := acc.retry_call_list ++ [ci1],
                   rand_calls := acc.rand_calls + 1 }
    else acc

/-- Source function `Call_Concluder::manage_call_data_workers`: the first loop reaps the ready
futures, the second loop starts a worker for every retry-list entry whose time has come. -/
def manage_call_data_workers (now : Int) (rand : Nat → Nat) (s : Supervisor) : Supervisor :=
  let s1 := s.call_data_workers.foldl (reap_worker now rand) { s with call_data_workers := [] }
  let due := s1.retry_call_list.filter (fun ci => decide (ci.process_call_time ≤ now))
  let waiting := s1.retry_call_list.filter (fun ci => !decide (ci.process_call_time ≤ now))
  { s1 with call_data_workers := s1.call_data_workers ++ due.map Future.running,
            retry_call_list := waiting }

/-- The copies recorded in the log of `w`, in order. -/
def copies (w : World) : List Effect :=
  w.log.filter (fun e => match e with
    | Effect.copy_file _ _ => true
    | _ => false)

/-- The paths `remove_call_files` passes to `std::remove` (when they exist): the combined
wav and the converted file unless the audio is kept, every transmission file, and the status
file unless the call log is kept. -/
def removed_paths (call_info : Call_Data_t) (plugin_failure : Bool) : List String :=
  (if call_info.audio_archive || (plugin_failure && call_info.archive_files_on_failure) then []
    else [call_info.filename, call_info.converted]) ++
  call_info.transmission_list.map (fun t => t.filename) ++
  (if !call_info.call_log && !(plugin_failure && call_info.archive_files_on_failure) then
    [call_info.status_filename] else [])

/-- A concluded call number 7 with two transmissions of 2.0 s and 1.5 s, all policy flags
off, and the three file names of the call. -/
def call7 : Call_Data_t :=
  { transmission_list := [tx_at 0 2000 "t1.wav", tx_at 2500 4000 "t2.wav"],
    transmission_source_list := [], transmission_error_list := [],
    transmission_archive := false, talkgroup := 100, error_count := 0, spike_count := 0,
    min_transmissions_removed := 0, color_code := 0, start_time_ms := 0, stop_time_ms := 4000,
    start_time := 0, stop_time := 4, call_length_ms := 3500, length := 7 / 2,
    call_num := 7, upload_script := "up.sh", filename := "c.wav", status_filename := "c.json",
    converted := "c.m4a" }

/-- A world in which the two transmission files and the three files of `call7` exist. -/
def world7 : World :=
  { files := ["t1.wav", "t2.wav", "c.wav", "c.m4a", "c.json"], log := [] }

/-- The call `call7` with only `audio_archive` set. -/
def call7_audio : Call_Data_t := { call7 with audio_archive := true }

/-- The call `call7` with only `archive_files_on_failure` set. -/
def call7_failure : Call_Data_t := { call7 with archive_files_on_failure := true }

/-- A call whose only transmission lasts 1200 ms. -/
def call_1200 : Call :=
  { transmissions := [tx_at 0 1200 "a.wav"], talkgroup := 100 }

/-- An outside world where the status file cannot be created, the shell commands succeed and
the plugin hook returns 0. -/
def env_no_json : WorkerEnv :=
  { json_opens := false, combine_wav := 10, convert_media := 10, plugman_call_end := fun _ => 0 }

/-- An outside world where everything works except the plugin hook, which returns 1. -/
def env_fail : WorkerEnv :=
  { json_opens := true, combine_wav := 10, convert_media := 10, plugman_call_end := fun _ => 1 }

/-- A sequence of values of `rand()`: 13, 14, 15, ... -/
def rand0 (n : Nat) : Nat := 13 + n

/-- The call `call7` as returned by a worker whose plugin hook failed. -/
def call7_retry : Call_Data_t := { call7 with status := Call_Data_Status.RETRY }

/-- The supervisor holding one ready future, the RETRY result `call7_retry`. -/
def sup_retry : Supervisor :=
  { call_data_workers := [Future.ready call7_retry], retry_call_list := [], world := world7,
    rand_calls := 0 }

/-- The character `{`. -/
def LBRACE : Char := Char.ofNat 123

/-- The character `}`. -/
def RBRACE : Char := Char.ofNat 125

/-- The nine characters of the `switch` of `sanitize_token`:
`/`, `\`, `:`, `*`, `?`, `"`, `<`, `>`, `|`. -/
def unsafe_chars : List Char :=
  [Char.ofNat 47, Char.ofNat 92, Char.ofNat 58, Char.ofNat 42, Char.ofNat 63, Char.ofNat 34,
   Char.ofNat 60, Char.ofNat 62, Char.ofNat 124]

/-- One step of the loop of `sanitize_token`: the character appended for `c`. -/
def sanitize_char (c : Char) : Char :=
  if c ∈ unsafe_chars then Char.ofNat 95 else c

/-- Source function `sanitize_token`. -/
def sanitize_token (str : String) : String :=
  String.mk (str.data.map sanitize_char)

/-- The fields of `struct tm` that the ISO formats read: `tm_year` counts from 1900 and
`tm_mon` from 0. -/
structure Tm where
  tm_year : Int
  tm_mon : Int
  tm_mday : Int
  tm_hour : Int
  tm_min : Int
  tm_sec : Int
deriving DecidableEq

/-- The C library functions the formatter calls: `localtime` and `gmtime` (a null result is
`none`) and the text `strftime` produces for a format and a broken-down time when the buffer
is large enough. -/
structure Libc where
  localtime : Int → Option Tm
  gmtime : Int → Option Tm
  strftime : List Char → Tm → List Char

/-- A natural number in decimal, left-padded with zeros to `width` digits (`%03d`, `%02d`). -/
def pad_digits (width : Nat) (n : Nat) : List Char :=
  let ds := (Nat.toDigits 10 n)
  List.replicate (width - ds.length) (Char.ofNat 48) ++ ds

/-- The pre-processing loop of `format_time_custom`: each `%f` becomes the milliseconds,
clamped to `0..999` and printed with `%03d`. -/
def replace_ms (ms : Int) : List Char → List Char
  | [] => []
  | [c] => [c]
  | c :: d :: rest =>
    if c = Char.ofNat 37 ∧ d = Char.ofNat 102 then
      pad_digits 3 (max 0 (min ms 999)).toNat ++ replace_ms ms rest
    else c :: replace_ms ms (d :: rest)

/-- The largest buffer the loop of `format_time_custom` tries: it starts from `b` and doubles
while the size is at most 65536; `fuel` bounds the number of doublings. -/
def largest_buffer : Nat → Nat → Nat
  | 0, b => b
  | fuel + 1, b => if 2 * b ≤ 65536 then largest_buffer fuel (2 * b) else b

/-- Source function `format_time_custom`: the empty string for a null `tm` or an empty format;
otherwise the output of `strftime` on the pre-processed format, when it is not empty and fits
(with its terminating zero) into the largest buffer tried, and the empty string when it does
not. -/
def format_time_custom (libc : Libc) (fmt : List Char) (tm_val : Option Tm) (ms : Int) :
    List Char :=
  match tm_val with
  | none => []
  | some tm =>
    if fmt.isEmpty then []
    else
      let processed := replace_ms ms fmt
      let buffer_size := max 64 (processed.length * 2)
      let output := libc.strftime processed tm
      if buffer_size ≤ 65536 ∧ 0 < output.length ∧
          output.length + 1 ≤ largest_buffer 17 buffer_size then output
      else []

/-- Rounding of `x` to an integer, halves to the even neighbour (the rounding of `printf`). -/
def round_half_even (x : ℚ) : Int :=
  let f := Rat.floor x
  let r := x - f
  if r < 1 / 2 then f else if 1 / 2 < r then f + 1 else if f % 2 = 0 then f else f + 1

/-- The text of `snprintf(buf, sizeof(buf), "%.Nf", x)` for `N = digits` (a value that fits
the buffer of 32 bytes). -/
def fmt_fixed (digits : Nat) (x : ℚ) : List Char :=
  let m := (round_half_even (x * 10 ^ digits)).natAbs
  let sign := if x < 0 then [Char.ofNat 45] else []
  let int_part := Nat.toDigits 10 (m / 10 ^ digits)
  if digits = 0 then sign ++ int_part
  else sign ++ int_part ++ [Char.ofNat 46] ++ pad_digits digits (m % 10 ^ digits)

/-- Source expression `std::to_string(n)` for an integer. -/
def to_string (n : Int) : List Char := (toString n).data

/-- The chain of tests on `token` in `expand_filename_format`: the text appended to `result`
for the token between the braces. -/
def expand_token (libc : Libc) (call_info : Call_Data_t) (start_time : Int)
    (token : List Char) : List Char :=
  if token = "talkgroup".data then to_string call_info.talkgroup
  else if token = "talkgroup_tag".data then (sanitize_token call_info.talkgroup_tag).data
  else if token = "talkgroup_alpha_tag".data then
    (sanitize_token call_info.talkgroup_alpha_tag).data
  else if token = "talkgroup_description".data then
    (sanitize_token call_info.talkgroup_description).data
  else if token = "talkgroup_group".data then (sanitize_token call_info.talkgroup_group).data
  else if token = "talkgroup_display".data then
    (sanitize_token call_info.talkgroup_display).data
  else if token = "short_name".data then (sanitize_token call_info.short_name).data
  else if token = "freq".data then fmt_fixed 0 call_info.freq
  else if token = "freq_mhz".data then fmt_fixed 4 (call_info.freq / 1000000)
  else if token = "call_num".data then to_string call_info.call_num
  else if token = "tdma_slot".data then
    (if call_info.tdma_slot ≠ -1 then to_string call_info.tdma_slot else [])
  else if token = "sys_num".data then to_string call_info.sys_num
  else if token = "epoch".data then to_string start_time
  else if token = "source_num".data then to_string call_info.source_num
  else if token = "recorder_num".data then to_string call_info.recorder_num
  else if token = "audio_type".data then (sanitize_token call_info.audio_type).data
  else if token = "emergency".data then to_string (if call_info.emergency then 1 else 0)
  else if token = "encrypted".data then to_string (if call_info.encrypted then 1 else 0)
  else if token = "priority".data then to_string call_info.priority
  else if token = "signal".data then to_string (SmartnetParser.ctrunc call_info.signal)
  else if token = "noise".data then to_string (SmartnetParser.ctrunc call_info.noise)
  else if token = "color_code".data then to_string call_info.color_code
  else if token.length > 5 ∧ token.take 5 = "time:".data then
    let fmt := token.drop 5
    let ltm := libc.localtime start_time
    if fmt = "iso".data then format_time_custom libc "%Y-%m-%dT%H:%M:%S".data ltm 0
    else if fmt = "iso_ms".data then format_time_custom libc "%Y-%m-%dT%H:%M:%S.%f".data ltm 0
    else format_time_custom libc fmt ltm 0
  else if token.length > 6 ∧ token.take 6 = "ztime:".data then
    let fmt := token.drop 6
    let gtm := libc.gmtime start_time
    if fmt = "iso".data then format_time_custom libc "%Y-%m-%dT%H:%M:%SZ".data gtm 0
    else if fmt = "iso_ms".data then format_time_custom libc "%Y-%m-%dT%H:%M:%S.%fZ".data gtm 0
    else format_time_custom libc fmt gtm 0
  else [LBRACE] ++ token ++ [RBRACE]

/-- Source expression `format.find('}', i)` followed by `substr`: the text up to the first
`}` of `rest` (the token) and the text behind that `}`; `none` when there is no `}`. -/
def find_close : List Char → Option (List Char × List Char)
  | [] => none
  | c :: rest =>
    if c = RBRACE then some ([], rest)
    else (find_close rest).map (fun p => (c :: p.1, p.2))

/-- The `while` loop of `expand_filename_format` on the part of `format` from index `i` on:
the text appended to `result` from there. Every iteration moves `i` forward, so `fuel` equal
to the length of that part is enough. -/
def expand_loop (libc : Libc) (call_info : Call_Data_t) (start_time : Int) :
    Nat → List Char → List Char
  | 0, _ => []
  | _ + 1, [] => []
  | fuel + 1, c :: rest =>
    if c = LBRACE then
      match find_close rest with
      | none => c :: expand_loop libc call_info start_time fuel rest
      | some (token, after) =>
        expand_token libc call_info start_time token ++
          expand_loop libc call_info start_time fuel after
    else c :: expand_loop libc call_info start_time fuel rest

/-- Source function `expand_filename_format`. -/
def expand_filename_format (libc : Libc) (format : String) (call_info : Call_Data_t)
    (start_time : Int) : String :=
  String.mk (expand_loop libc call_info start_time format.length format.data)

/-- Model of the C library function `gmtime`: the broken-down UTC time of `t` seconds since
the epoch (proleptic Gregorian calendar, days counted from 0000-03-01). -/
def gmtime_utc (t : Int) : Tm :=
  let days := t / 86400
  let secs := t % 86400
  let z := days + 719468
  let era := z / 146097
  let doe := z - era * 146097
  let yoe := (doe - doe / 1460 + doe / 36524 - doe / 146096) / 365
  let doy := doe - (365 * yoe + yoe / 4 - yoe / 100)
  let mp := (5 * doy + 2) / 153
  let d := doy - (153 * mp + 2) / 5 + 1
  let m := if mp < 10 then mp + 3 else mp - 9
  let y := yoe + era * 400 + (if m ≤ 2 then 1 else 0)
  { tm_year := y - 1900, tm_mon := m - 1, tm_mday := d, tm_hour := secs / 3600,
    tm_min := secs % 3600 / 60, tm_sec := secs % 60 }

/-- Model of the C library function `strftime` for the conversions `%Y`, `%m`, `%d`, `%H`,
`%M`, `%S` and `%%`; every other character is copied. -/
def strftime_iso (tm : Tm) : List Char → List Char
  | [] => []
  | [c] => [c]
  | c :: d :: rest =>
    if c = Char.ofNat 37 then
      if d = 'Y' then to_string (1900 + tm.tm_year) ++ strftime_iso tm rest
      else if d = 'm' then pad_digits 2 (tm.tm_mon + 1).toNat ++ strftime_iso tm rest
      else if d = 'd' then pad_digits 2 tm.tm_mday.toNat ++ strftime_iso tm rest
      else if d = 'H' then pad_digits 2 tm.tm_hour.toNat ++ strftime_iso tm rest
      else if d = 'M' then pad_digits 2 tm.tm_min.toNat ++ strftime_iso tm rest
      else if d = 'S' then pad_digits 2 tm.tm_sec.toNat ++ strftime_iso tm rest
      else if d = Char.ofNat 37 then d :: strftime_iso tm rest
      else c :: strftime_iso tm (d :: rest)
    else c :: strftime_iso tm (d :: rest)

/-- The C library with the time zone pinned to UTC: `localtime` and `gmtime` agree. -/
def libc_utc : Libc :=
  { localtime := fun t => some (gmtime_utc t), gmtime := fun t => some (gmtime_utc t),
    strftime := fun fmt tm => strftime_iso tm fmt }

/-- Scenario 8: `short_name = "PD"`, `talkgroup = 101`, `freq = 851012500`. -/
def call_pd : Call_Data_t :=
  { call7 with short_name := "PD", talkgroup := 101, freq := 851012500 }

/-- The template of scenario 8: `{short_name}/{talkgroup}/{time:iso}-{freq_mhz}`. -/
def template8 : String :=
  "\x7bshort_name\x7d/\x7btalkgroup\x7d/\x7btime:iso\x7d-\x7bfreq_mhz\x7d"

/-- The loop of `expand_filename_format` with the fuel it is called with. -/
def expand_chars (libc : Libc) (call_info : Call_Data_t) (start_time : Int)
    (format : List Char) : List Char :=
  expand_loop libc call_info start_time format.length format

/-- The 22 field tokens of `expand_filename_format`. -/
def token_names : List (List Char) :=
  ["talkgroup".data, "talkgroup_tag".data, "talkgroup_alpha_tag".data,
   "talkgroup_description".data, "talkgroup_group".data, "talkgroup_display".data,
   "short_name".data, "freq".data, "freq_mhz".data, "call_num".data, "tdma_slot".data,
   "sys_num".data, "epoch".data, "source_num".data, "recorder_num".data, "audio_type".data,
   "emergency".data, "encrypted".data, "priority".data, "signal".data, "noise".data,
   "color_code".data]

/-- A supported token: one of the 22 field tokens, or `time:` or `ztime:` followed by a
format that is not empty. -/
def supported (token : List Char) : Prop :=
  token ∈ token_names ∨ (token.length > 5 ∧ token.take 5 = "time:".data) ∨
    (token.length > 6 ∧ token.take 6 = "ztime:".data)

instance (token : List Char) : Decidable (supported token) := by
  unfold supported
  infer_instance

/-- Every `{` in `a` is followed by a `}` inside `a`. -/
def Closed (a : List Char) : Prop :=
  ∀ pre post, a = pre ++ LBRACE :: post → RBRACE ∈ post

/-- A piece of a template as the loop of `expand_filename_format` cuts it: one character
copied as it is, or the text between a `{` and the first `}` behind it. -/
inductive Piece where
  | literal (c : Char)
  | token (name : List Char)
deriving DecidableEq

/-- The pieces the loop of `expand_filename_format` cuts the template into (the same
iterations as `expand_loop`, without the call). -/
def parse_loop : Nat → List Char → List Piece
  | 0, _ => []
  | _ + 1, [] => []
  | fuel + 1, c :: rest =>
    if c = LBRACE then
      match find_close rest with
      | none => Piece.literal c :: parse_loop fuel rest
      | some (token, after) => Piece.token token :: parse_loop fuel after
    else Piece.literal c :: parse_loop fuel rest

/-- The text the loop appends for one piece. -/
def render (libc : Libc) (call_info : Call_Data_t) (start_time : Int) : Piece → List Char
  | Piece.literal c => [c]
  | Piece.token name => expand_token libc call_info start_time name

/-- The call `call_info` with its seven string fields replaced. -/
def with_strings (call_info : Call_Data_t) (tag alpha description group display short_name
    audio_type : String) : Call_Data_t :=
  { call_info with
    talkgroup_tag := tag, talkgroup_alpha_tag := alpha, talkgroup_description := description,
    talkgroup_group := group, talkgroup_display := display, short_name := short_name,
    audio_type := audio_type }

/-- The pieces of a template. -/
def parse_template (format : String) : List Piece :=
  parse_loop format.length format.data

/-- A call whose string fields contain path separators and other unsafe characters. -/
def call_slashes : Call_Data_t :=
  with_strings call_pd "a/b" "c\\d" "e:f" "g*h" "i?j" "../PD" "k|l"

/-! ## File names and dispatch (`create_base_filename`, `conclude_call`) -/

/-- The part of `Config` read by `create_call_data`. -/
structure Config where
  filename_format : String := ""
  archive_files_on_failure : Bool := false

/-- The `operator/` of `boost::filesystem::path` for a relative right-hand side: a separator
is inserted unless the left-hand side is empty or already ends with one. -/
def path_join (a b : String) : String :=
  if a = "" then b
  else if a.data.getLast? = some (Char.ofNat 47) then a ++ b
  else a ++ "/" ++ b

/-- Source expression `filepath.parent_path()`: the path in front of its last separator. -/
def parent_path (p : String) : String :=
  String.mk ((p.data.reverse.dropWhile (fun c => decide (c ≠ Char.ofNat 47))).drop 1).reverse

/-- Source function `Call_Concluder::create_base_filename`; `none` is the legacy layout
reading a null result of `localtime`. The integer divisions truncate toward zero; the
directories are created in the world. -/
def create_base_filename (libc : Libc) (call : Call) (call_info : Call_Data_t) (sys : System)
    (config : Config) (w : World) : Option (Call_Data_t × World) :=
  let start_ms := call.start_time_ms
  let work_start_time := Int.tdiv start_ms 1000
  let capture_dir := call.capture_dir
  let filename_format :=
    if sys.filename_format ≠ "" then sys.filename_format else config.filename_format
  let named : Option (String × String) :=
    if filename_format = "" then
      match libc.localtime work_start_time with
      | none => none
      | some ltm =>
        let base_path :=
          path_join (path_join (path_join (path_join call.capture_dir call.short_name)
            (String.mk (to_string (1900 + ltm.tm_year)))) (String.mk (to_string (1 + ltm.tm_mon))))
            (String.mk (to_string ltm.tm_mday))
        let sec := Int.tdiv start_ms 1000
        let milli := Int.tmod start_ms 1000
        let ts := String.mk (to_string sec) ++ "." ++ String.mk (pad_digits 3 milli.toNat)
        let stem := base_path ++ "/" ++ String.mk (to_string call.talkgroup) ++ "-" ++ ts ++ "_" ++
          String.mk (to_string (SmartnetParser.cround call.freq))
        if call.tdma_slot = -1 then some (stem, base_path)
        else some (stem ++ "." ++ String.mk (to_string call.tdma_slot), base_path)
    else
      let expanded := expand_filename_format libc filename_format call_info work_start_time
      let base_filename := capture_dir ++ "/" ++ expanded
      some (base_filename, parent_path base_filename)
  match named with
  | none => none
  | some (base_filename, dir) =>
    let suffix := "-call_" ++ String.mk (to_string call.call_num)
    some ({ call_info with
            filename := base_filename ++ suffix ++ ".wav",
            status_filename := base_filename ++ suffix ++ ".json",
            converted := base_filename ++ suffix ++ ".m4a" },
          { w with log := w.log ++ [Effect.create_directories dir] })

/-- Source function `Call_Concluder::create_call_data` in full: the aggregate fields of
`create_call_data`, the files of the dropped transmissions removed from the world, then the
last two statements, `create_base_filename` and the copy of `archive_files_on_failure`. -/
def create_call_data_files (libc : Libc) (call : Call) (sys : System) (config : Config)
    (w : World) : Option (Call_Data_t × World) :=
  let st := aggregate call sys (checkIfFile w)
  let w1 := st.removed_files.foldl remove_if_file w
  match create_base_filename libc call (finalize st) sys config w1 with
  | none => none
  | some (call_info, w2) =>
    some ({ call_info with archive_files_on_failure := config.archive_files_on_failure }, w2)

/-- Source function `Call_Concluder::conclude_call`; `json_opens` tells whether the status
file can be created. A dispatched call is a new running future at the end of
`call_data_workers`. -/
def conclude_call (libc : Libc) (json_opens : Bool) (call : Call) (sys : System)
    (config : Config) (s : Supervisor) : Option Supervisor :=
  match create_call_data_files libc call sys config s.world with
  | none => none
  | some (call_info, w) =>
    if call.is_monitoring ∧ call.is_superseded then
      some { s with world := remove_call_files w call_info false }
    else if call_info.encrypted then
      if call_info.transmission_list.length > 0 ∨ call_info.min_transmissions_removed > 0 then
        match create_call_json w json_opens call_info with
        | none => none
        | some (w1, ci1, _) => some { s with world := remove_call_files w1 ci1 false }
      else some { s with world := remove_call_files w call_info false }
    else if call_info.transmission_list.length = 0 ∧
        call_info.min_transmissions_removed = 0 then
      some { s with world := w }
    else if call_info.transmission_list.length = 0 ∧
        call_info.min_transmissions_removed > 0 then
      some { s with world := w }
    else if call_info.length ≤ sys.min_duration then
      some { s with world := remove_call_files w call_info false }
    else
      some { s with world := w,
                    call_data_workers := s.call_data_workers ++ [Future.running call_info] }

/-- The number of status files written so far. -/
def json_writes (w : World) : Nat :=
  w.log.countP (fun e => match e with
    | Effect.write_json _ => true
    | _ => false)

/-- The dispatch condition of `conclude_call`: the call is not superseded, not encrypted,
retains at least one transmission and its playable length exceeds `min_duration`. -/
def dispatch_condition (call : Call) (sys : System) (w : World) : Prop :=
  ¬ (call.is_monitoring = true ∧ call.is_superseded = true) ∧ call.encrypted = false ∧
  retained sys call.transmissions ≠ [] ∧
  (create_call_data call sys (checkIfFile w)).length > sys.min_duration

/-- An encrypted call with one transmission of 2.0 s that has been superseded. -/
def call_encrypted_superseded : Call :=
  { transmissions := [tx_at 0 2000 "a.wav"], talkgroup := 100, encrypted := true,
    is_monitoring := true, is_superseded := true }

/-- An encrypted call with one transmission of 2.0 s. -/
def call_encrypted : Call :=
  { transmissions := [tx_at 0 2000 "a.wav"], talkgroup := 100, encrypted := true }

/-- A supervisor with nothing to do, in a world where the transmission file exists. -/
def sup_idle : Supervisor :=
  { call_data_workers := [], retry_call_list := [],
    world := { files := ["a.wav", "b.wav"], log := [] }, rand_calls := 0 }

/-! ## The life of a call under `manage_call_data_workers` -/

/-- The record a future was started with, or the record it returned. -/
def Future.call_info : Future → Call_Data_t
  | Future.running ci => ci
  | Future.ready ci => ci

/-- Some of the running workers come to an end: the future at position `i` becomes ready with
the value `upload_call_worker` returns in the outside world `envs[i]`, when `envs[i]` is
given; the other futures are left as they are. -/
def finish_some : List (Option WorkerEnv) → List Future → World →
    Option (List Future × World)
  | _, [], w => some ([], w)
  | [], fut :: rest, w => some (fut :: rest, w)
  | none :: envs, fut :: rest, w =>
    (finish_some envs rest w).map (fun r => (fut :: r.1, r.2))
  | some _ :: envs, Future.ready ci :: rest, w =>
    (finish_some envs rest w).map (fun r => (Future.ready ci :: r.1, r.2))
  | some env :: envs, Future.running ci :: rest, w =>
    match upload_call_worker env w ci with
    | none => none
    | some (w1, ci1) =>
      (finish_some envs rest w1).map (fun r => (Future.ready ci1 :: r.1, r.2))

/-- The records the second loop of `manage_call_data_workers` passes to
`std::async(upload_call_worker, call_info)`, in order. -/
def started (now : Int) (rand : Nat → Nat) (s : Supervisor) : List Call_Data_t :=
  (s.call_data_workers.foldl (reap_worker now rand)
    { s with call_data_workers := [] }).retry_call_list.filter
    (fun ci => decide (ci.process_call_time ≤ now))

/-- What can happen to the supervisor: some running workers finish, each in an outside world
of its own; `manage_call_data_workers` runs at time `now`; `conclude_call` hands another call
to a worker. -/
inductive Event where
  | finish (envs : List (Option WorkerEnv))
  | manage (now : Int)
  | conclude (call_info : Call_Data_t)

/-- One event, on the supervisor and the number of times call `c` has been handed to
`upload_call_worker` so far. Call numbers are unique, so `conclude_call` on another call does
not hand over a record with call number `c`. -/
def step (c : Int) (rand : Nat → Nat) : Event → Supervisor × Nat → Option (Supervisor × Nat)
  | Event.finish envs, (s, h) =>
    (finish_some envs s.call_data_workers s.world).map
      (fun r => ({ s with call_data_workers := r.1, world := r.2 }, h))
  | Event.manage now, (s, h) =>
    some (manage_call_data_workers now rand s,
      h + (started now rand s).countP (fun ci => decide (ci.call_num = c)))
  | Event.conclude call_info, (s, h) =>
    if call_info.call_num = c then none
    else some ({ s with call_data_workers :=
      s.call_data_workers ++ [Future.running call_info] }, h)

/-- A sequence of events. -/
def run (c : Int) (rand : Nat → Nat) : List Event → Supervisor × Nat → Option (Supervisor × Nat)
  | [], p => some p
  | e :: rest, p =>
    match step c rand e p with
    | none => none
    | some p1 => run c rand rest p1

/-- The supervisor after `conclude_call` has handed `call_info` to a worker. -/
def dispatched (s : Supervisor) (call_info : Call_Data_t) : Supervisor :=
  { s with call_data_workers := s.call_data_workers ++ [Future.running call_info] }

/-- A supervisor with nothing to do, in the world of `call7`. -/
def sup_empty : Supervisor :=
  { call_data_workers := [], retry_call_list := [], world := world7, rand_calls := 0 }

/-- The life of call 7 when the plugin hook fails every time: the worker finishes, the call
waits in the retry list and is started again, three times over. -/
def life7 : List Event :=
  [Event.finish [some env_fail], Event.manage 1000, Event.manage 2000,
   Event.finish [some env_fail], Event.manage 2000, Event.manage 3000,
   Event.finish [some env_fail], Event.manage 3000]

/-! ## Scenarios for the archive loop -/

/-- The transmissions the archive loop of `remove_call_files` copies when no copy fails:
those whose file exists, when the audio is kept and `transmission_archive` is set. -/
def archived (w : World) (call_info : Call_Data_t) (plugin_failure : Bool) :
    List Transmission :=
  if (call_info.audio_archive || (plugin_failure && call_info.archive_files_on_failure)) &&
      call_info.transmission_archive then
    call_info.transmission_list.filter (fun t => checkIfFile w t.filename)
  else []

/-- The call `call7` with `audio_archive` and `transmission_archive` set, its transmission
files in the temporary directory `tmp` and its own files in the capture directory `cap`. -/
def call_archive : Call_Data_t :=
  { call7 with
    audio_archive := true, transmission_archive := true,
    transmission_list := [tx_at 0 2000 "tmp/t1.wav", tx_at 2500 4000 "tmp/t2.wav"],
    filename := "cap/c.wav", status_filename := "cap/c.json", converted := "cap/c.m4a" }

/-- A world in which the files of `call_archive` exist. -/
def world_archive : World :=
  { files := ["tmp/t1.wav", "tmp/t2.wav", "cap/c.wav", "cap/c.m4a", "cap/c.json"], log := [] }

/-- The world `world_archive` with a file `cap/t2.wav` in the capture directory already. -/
def world_occupied : World :=
  { files := ["tmp/t1.wav", "tmp/t2.wav", "cap/c.wav", "cap/c.m4a", "cap/c.json",
      "cap/t2.wav"], log := [] }

end CallConcluder

namespace SmartnetParser

/-- A full queue on `sys800` that starts with two reset markers, followed by four words that
are not reset markers: the channel word of scenario 2, an idle, an unknown word, a `0x308`
header. -/
def double_reset_state : ParserState :=
  state_with [reset800, reset800, grant_chan800, idle800, unknown800, grant_hdr800]

/-- A system on the rebanded 800 MHz bandplan. -/
def sys800_reband : System :=
  { bandplan := "800_reband", bandplan_base := 0, bandplan_high := 0, bandplan_spacing := 0,
    bandplan_offset := 0, sys_num := 0 }

/-- The arm result exists (no read of an empty deque) and satisfies `P`. -/
def ArmSafe (P : ArmOut → Prop) (r : Option ArmOut) : Prop :=
  ∃ out, r = some out ∧ P out

/-- At most one message is emitted. -/
def OneMessage (out : ArmOut) : Prop :=
  out.messages.length ≤ 1

/-- No word of the queue is a reset marker. -/
def NoMarker (q : List OSW) : Prop := ∀ w ∈ q, w.cmd ≠ OSW_QUEUE_RESET_CMD

/-- The queue of an arm result holds no reset marker. -/
def QueueClean (out : ArmOut) : Prop := NoMarker out.state.osw_q

/-- The opcode in the body of an OSW message has 10 bits, as every word of the control
channel has (`cmd` is a 10-bit field of the word; the two body bytes hold it). -/
def wire_opcode (m : Message) : Prop :=
  match m.body with
  | _ :: _ :: _ :: b3 :: b4 :: _ => ((b3 <<< 8) ||| b4) < 1024
  | _ => True

/-- The parser states that arise from the constructor state through `parse_message`, fed
with messages whose opcode has 10 bits. -/
inductive WireReachable (sys : System) : ParserState → Prop where
  | init : WireReachable sys ParserState.init
  | message (s : ParserState) (t : Int) (m : Message)
      (out : List TrunkMessage × ParserState) :
      WireReachable sys s → wire_opcode m → parse_message sys t (some m) s = some out →
      WireReachable sys out.2

/-! # Theorems -/

/-! ## Bandplan facts -/

theorem details_sys800 :
    get_bandplan_details sys800 = ⟨"800", false, false, false, false⟩ := by decide

theorem not_obt_of_800_900 (sys : System) (h : is_800_900 sys) : is_obt_system sys = false := by
  unfold is_obt_system
  rcases h with h | h <;> rw [h] <;> decide

theorem is_chan_308_false (sys : System) (h : is_800_900 sys) (is_tx : Bool) :
    is_chan sys 0x308 is_tx = false := by
  unfold is_chan
  rcases h with h | h <;> simp [h]

theorem wf_ch_rx (sys : System) (w : OSW) (h : wf_osw sys w) :
    w.ch_rx = is_chan sys w.cmd false := by
  unfold wf_osw at h
  rw [h]; rfl

theorem wf_ch_tx (sys : System) (w : OSW) (h : wf_osw sys w) :
    w.ch_tx = is_chan sys w.cmd true := by
  unfold wf_osw at h
  rw [h]; rfl

theorem wf_mk_osw (sys : System) (addr grp cmd : Nat) (ts : ℚ) :
    wf_osw sys (mk_osw sys addr grp cmd ts) := by
  unfold wf_osw mk_osw
  by_cases hg : grp = 0 <;> simp [hg]

/-- On an OBT bandplan the RX and TX channel ranges are disjoint. -/
theorem is_chan_rx_tx_disjoint (sys : System) (chan : Int)
    (hobt : is_obt_system sys = true) (hrx : is_chan sys chan false = true) :
    is_chan sys chan true = false := by
  unfold is_obt_system at hobt
  have hb : (get_bandplan_details sys).band = "OBT" := by simpa using hobt
  unfold is_chan at hrx ⊢
  simp [hb] at hrx ⊢
  intros
  exact hrx.2.1

/-! ## The pass on a full queue -/

theorem resync_plain (w : OSW) (q : List OSW) (b : Bool) (qr : OSW)
    (hw : w.cmd ≠ OSW_QUEUE_RESET_CMD) : resync w q b qr = .proceed w q b qr := by
  unfold resync
  rw [if_neg hw]

theorem resync_single (r w : OSW) (q : List OSW) (b : Bool) (qr : OSW)
    (hr : r.cmd = OSW_QUEUE_RESET_CMD) (hw : w.cmd ≠ OSW_QUEUE_RESET_CMD)
    (hlen : q.length = 4) : resync r (w :: q) b qr = .proceed w q true r := by
  unfold resync
  rw [if_pos hr]
  have h4 : q.length = OSW_QUEUE_SIZE - 2 := by rw [hlen]; rfl
  simp only [if_pos h4]
  exact resync_plain w q true r hw

/-- A full queue whose head is not a reset marker: the pass is the recognition chain on that
head, with the reset flag clear. -/
theorem process_osws_plain_head (sys : System) (t : Int) (s : ParserState) (w : OSW)
    (q : List OSW) (hq : s.osw_q = w :: q) (hlen : q.length = 5)
    (hw : w.cmd ≠ OSW_QUEUE_RESET_CMD) :
    process_osws sys t s =
      (recognise sys t { s with osw_q := q } w).map
        (fun out => ⟨out.messages, out.state, out.is_unknown_osw, false⟩) := by
  unfold process_osws
  have h1 : s.osw_q.isEmpty = false := by rw [hq]; rfl
  have h2 : ¬ s.osw_q.length < OSW_QUEUE_SIZE := by
    rw [hq]; simp [hlen, OSW_QUEUE_SIZE]
  rw [h1, if_neg (by simp), if_neg h2, hq]
  simp only [resync_plain w q false default hw]
  cases recognise sys t { s with osw_q := q } w with
  | none => rfl
  | some out => simp

/-- A full queue with a single leading reset marker: the pass is the recognition chain on
the word behind the marker, and the marker is pushed back when that word is unknown. -/
theorem process_osws_reset_head (sys : System) (t : Int) (s : ParserState) (r w : OSW)
    (q : List OSW) (hq : s.osw_q = r :: w :: q) (hlen : q.length = 4)
    (hr : r.cmd = OSW_QUEUE_RESET_CMD) (hw : w.cmd ≠ OSW_QUEUE_RESET_CMD) :
    process_osws sys t s =
      (recognise sys t { s with osw_q := q } w).map
        (fun out =>
          if out.is_unknown_osw then
            ⟨out.messages, { out.state with osw_q := r :: out.state.osw_q }, true, true⟩
          else ⟨out.messages, out.state, false, true⟩) := by
  unfold process_osws
  have h1 : s.osw_q.isEmpty = false := by rw [hq]; rfl
  have h2 : ¬ s.osw_q.length < OSW_QUEUE_SIZE := by
    rw [hq]; simp [hlen, OSW_QUEUE_SIZE]
  rw [h1, if_neg (by simp), if_neg h2, hq]
  simp only [resync_single r w q false default hr hw hlen]
  cases recognise sys t { s with osw_q := q } w with
  | none => rfl
  | some out =>
    cases hu : out.is_unknown_osw <;> simp [hu]

/-! ## Recognition arms -/

theorem update_voice_frequency_osw_q (s : ParserState) (ts f : ℚ) (tg : Nat) (a m : Int) :
    (update_voice_frequency s ts f tg a m).osw_q = s.osw_q := by
  unfold update_voice_frequency update_talkgroups
  split <;> rfl

/-- A head with `cmd = 0x308` that is no channel goes to the `0x308` arm outside OBT. -/
theorem recognise_308 (sys : System) (t : Int) (s : ParserState) (w : OSW)
    (hobt : is_obt_system sys = false) (hch : w.ch_rx = false) (hcmd : w.cmd = 0x308) :
    recognise sys t s w = arm_308 sys t s w := by
  unfold recognise
  simp [hobt, hch, hcmd]

/-- A head with `ch_rx` and `grp` that does not enter the OBT arm is a voice update. -/
theorem recognise_update (sys : System) (t : Int) (s : ParserState) (w : OSW)
    (hobt : ¬ (is_obt_system sys = true ∧ w.ch_tx = true))
    (hrx : w.ch_rx = true) (hgrp : w.grp = true) :
    recognise sys t s w =
      some ⟨[create_trunk_message sys s .UPDATE (w.f_rx * 1000000) w.addr 0
              (tgid_encrypted w.addr) (tgid_emergency w.addr)],
            update_voice_frequency s w.ts w.f_rx w.addr (-1) (-1), false⟩ := by
  unfold recognise
  rw [if_neg hobt, if_pos ⟨hrx, hgrp⟩]

/-- The analog grant branch of the `0x308` arm. -/
theorem arm_308_grant (sys : System) (t : Int) (s : ParserState) (osw2 osw1 : OSW)
    (q : List OSW) (hq : s.osw_q = osw1 :: q)
    (hrx : osw1.ch_rx = true) (hgrp : osw1.grp = true) (ha1 : osw1.addr ≠ 0)
    (ha2 : osw2.addr ≠ 0) :
    arm_308 sys t s osw2 =
      some ⟨[create_trunk_message sys { s with osw_q := q } .GRANT (osw1.f_rx * 1000000)
              osw1.addr osw2.addr (tgid_encrypted osw1.addr) (tgid_emergency osw1.addr)],
            update_voice_frequency { s with osw_q := q } osw1.ts osw1.f_rx osw1.addr osw2.addr 0,
            false⟩ := by
  unfold arm_308
  rw [hq]
  simp only []
  rw [if_neg (by simp [hgrp]), if_pos ⟨hrx, hgrp, ha1, ha2⟩]

theorem is_chan_308_nat (sys : System) (h : is_800_900 sys) (w : OSW) (hcmd : w.cmd = 0x308)
    (is_tx : Bool) : is_chan sys w.cmd is_tx = false := by
  rw [hcmd]
  exact is_chan_308_false sys h is_tx

theorem recognise_unknown (sys : System) (t : Int) (s : ParserState) (w : OSW)
    (h : matches_no_arm sys w) :
    recognise sys t s w = some ⟨[], { s with osw_q := w :: s.osw_q }, true⟩ := by
  obtain ⟨h1, h2, h3, h4, h5, h6, h7, h8, h9, h10, h11, h12, h13, h14, h15⟩ := h
  unfold recognise
  rw [if_neg h1, if_neg h2, if_neg h3, if_neg h4, if_neg h5, if_neg h6, if_neg h7, if_neg h8,
    if_neg h9, if_neg h10, if_neg h11, if_neg h12, if_neg h13, if_neg h14, if_neg h15]

/-! ## Claims -/

/-- C1. Analog group GRANT: on an 800/900-family bandplan, a full queue of enqueued words
whose head has `cmd = 0x308` and whose next word has `ch_rx`, `grp`, a nonzero address and
follows a head with a nonzero address makes `process_osws` emit exactly one GRANT with
talkgroup `osw1.addr`, source `osw2.addr` and frequency `osw1.f_rx * 10^6`, and leaves in the
queue exactly the four words behind the pair, in order. -/
theorem analog_group_grant (sys : System) (t : Int) (s : ParserState) (osw2 osw1 : OSW)
    (rest : List OSW) (hband : is_800_900 sys)
    (hq : s.osw_q = osw2 :: osw1 :: rest) (hlen : rest.length = 4)
    (hwf : ∀ w ∈ s.osw_q, wf_osw sys w) (hcmd : osw2.cmd = 0x308)
    (hrx : osw1.ch_rx = true) (hgrp : osw1.grp = true)
    (ha1 : osw1.addr ≠ 0) (ha2 : osw2.addr ≠ 0) :
    ∃ r m, process_osws sys t s = some r ∧ r.messages = [m] ∧
      m.message_type = MessageType.GRANT ∧ m.talkgroup = osw1.addr ∧ m.source = osw2.addr ∧
      m.freq = osw1.f_rx * 10 ^ 6 ∧ r.state.osw_q = rest := by
  have hch : osw2.ch_rx = false := by
    rw [wf_ch_rx sys osw2 (hwf osw2 (by rw [hq]; simp))]
    exact is_chan_308_nat sys hband osw2 hcmd false
  have hnr : osw2.cmd ≠ OSW_QUEUE_RESET_CMD := by rw [hcmd]; decide
  rw [process_osws_plain_head sys t s osw2 (osw1 :: rest) hq (by simp [hlen]) hnr,
    recognise_308 sys t _ osw2 (not_obt_of_800_900 sys hband) hch hcmd,
    arm_308_grant sys t _ osw2 osw1 rest rfl hrx hgrp ha1 ha2]
  refine ⟨_, _, rfl, rfl, rfl, rfl, rfl, ?_, ?_⟩
  · show osw1.f_rx * 1000000 = osw1.f_rx * 10 ^ 6
    norm_num
  · simp [update_voice_frequency_osw_q]

theorem analog_group_grant_witness :
    ∃ r m, process_osws sys800 0
        (state_with [grant_hdr800, grant_chan800, idle800, idle800, idle800, idle800]) = some r ∧
      r.messages = [m] ∧ m.message_type = MessageType.GRANT ∧
      m.talkgroup = grant_chan800.addr ∧ m.source = grant_hdr800.addr ∧
      m.freq = grant_chan800.f_rx * 10 ^ 6 ∧
      r.state.osw_q = [idle800, idle800, idle800, idle800] :=
  analog_group_grant sys800 0 _ grant_hdr800 grant_chan800 [idle800, idle800, idle800, idle800]
    (Or.inl (by decide)) rfl rfl
    (by
      intro w hw
      simp only [state_with, List.mem_cons, List.mem_singleton, List.not_mem_nil, or_false] at hw
      rcases hw with rfl | rfl | rfl | rfl | rfl | rfl <;> exact wf_mk_osw _ _ _ _ _)
    rfl (by decide) (by decide) (by decide) (by decide)

/-- C5. One-word voice UPDATE: on every bandplan, a full queue whose head is an enqueued word
that is not a reset marker and has `ch_rx` and `grp` set makes `process_osws` emit exactly
one UPDATE with talkgroup `head.addr`, source 0 and frequency `head.f_rx * 10^6`, and
removes exactly the head from the queue. -/
theorem voice_update_one_word (sys : System) (t : Int) (s : ParserState) (head : OSW)
    (rest : List OSW) (hq : s.osw_q = head :: rest) (hlen : rest.length = 5)
    (hwf : wf_osw sys head) (hnr : head.cmd ≠ OSW_QUEUE_RESET_CMD)
    (hrx : head.ch_rx = true) (hgrp : head.grp = true) :
    ∃ r m, process_osws sys t s = some r ∧ r.messages = [m] ∧
      m.message_type = MessageType.UPDATE ∧ m.talkgroup = head.addr ∧ m.source = 0 ∧
      m.freq = head.f_rx * 10 ^ 6 ∧ r.state.osw_q = rest := by
  have hobt : ¬ (is_obt_system sys = true ∧ head.ch_tx = true) := by
    rintro ⟨h1, h2⟩
    rw [wf_ch_tx sys head hwf,
      is_chan_rx_tx_disjoint sys head.cmd h1 (by rw [← wf_ch_rx sys head hwf]; exact hrx)] at h2
    exact Bool.false_ne_true h2
  rw [process_osws_plain_head sys t s head rest hq hlen hnr,
    recognise_update sys t _ head hobt hrx hgrp]
  refine ⟨_, _, rfl, rfl, rfl, rfl, rfl, ?_, ?_⟩
  · show head.f_rx * 1000000 = head.f_rx * 10 ^ 6
    norm_num
  · simp [update_voice_frequency_osw_q]

theorem voice_update_one_word_witness :
    ∃ r m, process_osws sys800 0
        (state_with [grant_chan800, idle800, idle800, idle800, idle800, idle800]) = some r ∧
      r.messages = [m] ∧ m.message_type = MessageType.UPDATE ∧
      m.talkgroup = grant_chan800.addr ∧ m.source = 0 ∧
      m.freq = grant_chan800.f_rx * 10 ^ 6 ∧
      r.state.osw_q = [idle800, idle800, idle800, idle800, idle800] :=
  voice_update_one_word sys800 0 _ grant_chan800 [idle800, idle800, idle800, idle800, idle800]
    rfl rfl (wf_mk_osw _ _ _ _ _) (by decide) (by decide) (by decide)

/-- C6. Gating rule: while the queue holds fewer than `OSW_QUEUE_SIZE = 6` words,
`process_osws` returns no message and the whole parser state (queue, talkgroup,
voice-frequency, patch, adjacent-site and alt-CC tables, `rx_sys_id`, `rx_cc_freq`) is
unchanged. -/
theorem process_osws_gated (sys : System) (t : Int) (s : ParserState)
    (h : s.osw_q.length < 6) :
    ∃ r, process_osws sys t s = some r ∧ r.messages = [] ∧ r.state = s := by
  unfold process_osws
  by_cases he : s.osw_q.isEmpty = true
  · rw [if_pos he]; exact ⟨_, rfl, rfl, rfl⟩
  · rw [if_neg he, if_pos (by simpa [OSW_QUEUE_SIZE] using h)]; exact ⟨_, rfl, rfl, rfl⟩

theorem process_osws_gated_witness :
    ∃ r, process_osws sys800 0
        (state_with [grant_hdr800, grant_chan800, idle800, idle800, idle800]) = some r ∧
      r.messages = [] ∧
      r.state = state_with [grant_hdr800, grant_chan800, idle800, idle800, idle800] :=
  process_osws_gated sys800 0 _ (by decide)

/-- C9. Unknown word leaves state unchanged: on a full queue whose head, or whose first word
behind a single leading reset marker, fails every test of the recognition chain,
`process_osws` emits nothing, sets the unknown flag and returns the parser state it was given:
every table and the queue (reset marker included) are as before the pass. -/
theorem unknown_word_state_unchanged (sys : System) (t : Int) (s : ParserState) (w : OSW)
    (pre rest : List OSW) (hq : s.osw_q = pre ++ w :: rest) (hfull : s.osw_q.length = 6)
    (hpre : pre = [] ∨ ∃ r, pre = [r] ∧ r.cmd = OSW_QUEUE_RESET_CMD)
    (hw : w.cmd ≠ OSW_QUEUE_RESET_CMD) (h : matches_no_arm sys w) :
    process_osws sys t s = some ⟨[], s, true, decide (pre ≠ [])⟩ := by
  rcases hpre with rfl | ⟨r, rfl, hr⟩
  · have hlen : rest.length = 5 := by rw [hq] at hfull; simpa using hfull
    rw [process_osws_plain_head sys t s w rest hq hlen hw, recognise_unknown sys t _ w h]
    cases s
    simp at hq
    subst hq
    simp
  · have hlen : rest.length = 4 := by rw [hq] at hfull; simpa using hfull
    rw [process_osws_reset_head sys t s r w rest hq hlen hr hw, recognise_unknown sys t _ w h]
    cases s
    simp at hq
    subst hq
    simp

theorem unknown_word_state_unchanged_witness :
    process_osws sys800 0
        (state_with [reset800, unknown800, idle800, idle800, idle800, idle800]) =
      some ⟨[], state_with [reset800, unknown800, idle800, idle800, idle800, idle800], true,
        decide ([reset800] ≠ [])⟩ :=
  unknown_word_state_unchanged sys800 0 _ unknown800 [reset800]
    [idle800, idle800, idle800, idle800] rfl rfl (Or.inr ⟨reset800, rfl, rfl⟩)
    (by decide) (by decide)

/-! ## Properties of every arm -/

theorem ArmAll_ite (P : ArmOut → Prop) (c : Prop) [Decidable c] (a b : Option ArmOut)
    (ha : c → ArmAll P a) (hb : ¬ c → ArmAll P b) : ArmAll P (if c then a else b) := by
  by_cases h : c
  · rw [if_pos h]; exact ha h
  · rw [if_neg h]; exact hb h

theorem ArmAll_none (P : ArmOut → Prop) : ArmAll P none := by
  intro out h; cases h

theorem ArmAll_some (P : ArmOut → Prop) (x : ArmOut) (h : P x) : ArmAll P (some x) := by
  intro out ho; cases ho; exact h

theorem EncodedFrom_nil (q0 : List OSW) (st : ParserState) (u : Bool) :
    EncodedFrom q0 ⟨[], st, u⟩ := by
  intro m hm; cases hm

theorem EncodedFrom_msg (sys : System) (q0 : List OSW) (s1 st : ParserState) (u : Bool)
    (ty : MessageType) (hty : ty = .GRANT ∨ ty = .UPDATE) (w : OSW) (src : Nat)
    (hw : w ∈ q0) :
    EncodedFrom q0 ⟨[create_trunk_message sys s1 ty (w.f_rx * 1000000) w.addr src
      (tgid_encrypted w.addr) (tgid_emergency w.addr)], st, u⟩ := by
  intro m hm
  rw [List.mem_singleton] at hm
  subst hm
  exact ⟨w, hw, rfl, rfl, rfl, rfl, hty⟩

theorem arm_321_encoded (sys : System) (s : ParserState) (osw2 : OSW) (q0 : List OSW)
    (hsub : ∀ w ∈ s.osw_q, w ∈ q0) : ArmAll (EncodedFrom q0) (arm_321 sys s osw2) := by
  unfold arm_321
  split
  · exact ArmAll_none _
  · rename_i osw1 q1 heq
    simp only []
    repeat' first
      | (apply ArmAll_ite <;> intro _)
      | exact ArmAll_none _
      | exact ArmAll_some _ _ (EncodedFrom_nil _ _ _)
      | exact ArmAll_some _ _ (EncodedFrom_msg sys q0 _ _ _ _ (Or.inl rfl) osw1 _
          (hsub _ (by rw [heq]; simp)))
      | split

theorem arm_308_30b_encoded (sys : System) (t : Int) (s : ParserState) (osw2 osw1 : OSW)
    (q1 q0 : List OSW) : ArmAll (EncodedFrom q0) (arm_308_30b sys t s osw2 osw1 q1) := by
  unfold arm_308_30b
  simp only []
  repeat' first
    | (apply ArmAll_ite <;> intro _)
    | exact ArmAll_none _
    | exact ArmAll_some _ _ (EncodedFrom_nil _ _ _)
    | split

theorem arm_308_encoded (sys : System) (t : Int) (s : ParserState) (osw2 : OSW)
    (q0 : List OSW) (hsub : ∀ w ∈ s.osw_q, w ∈ q0) :
    ArmAll (EncodedFrom q0) (arm_308 sys t s osw2) := by
  unfold arm_308
  split
  · exact ArmAll_some _ _ (EncodedFrom_nil _ _ _)
  · rename_i osw1 q1 heq
    simp only []
    repeat' first
      | (apply ArmAll_ite <;> intro _)
      | exact ArmAll_none _
      | exact ArmAll_some _ _ (EncodedFrom_nil _ _ _)
      | exact arm_308_30b_encoded _ _ _ _ _ _ _
      | exact ArmAll_some _ _ (EncodedFrom_msg sys q0 _ _ _ _ (Or.inl rfl) osw1 _
          (hsub _ (by rw [heq]; simp)))
      | split

theorem arm_obt_encoded (sys : System) (s : ParserState) (osw2 : OSW) (q0 : List OSW)
    (hsub : ∀ w ∈ s.osw_q, w ∈ q0) : ArmAll (EncodedFrom q0) (arm_obt sys s osw2) := by
  unfold arm_obt
  split
  · exact ArmAll_some _ _ (EncodedFrom_nil _ _ _)
  · rename_i osw1 q1 heq
    simp only []
    repeat' first
      | (apply ArmAll_ite <;> intro _)
      | exact ArmAll_none _
      | exact ArmAll_some _ _ (EncodedFrom_nil _ _ _)
      | exact ArmAll_some _ _ (EncodedFrom_msg sys q0 _ _ _ _ (Or.inl rfl) osw1 _
          (hsub _ (by rw [heq]; simp)))
      | split

theorem recognise_encoded (sys : System) (t : Int) (s : ParserState) (osw2 : OSW)
    (q0 : List OSW) (hsub : ∀ w ∈ s.osw_q, w ∈ q0) (h2 : osw2 ∈ q0) :
    ArmAll (EncodedFrom q0) (recognise sys t s osw2) := by
  unfold recognise
  simp only []
  repeat' first
    | (apply ArmAll_ite <;> intro _)
    | exact ArmAll_some _ _ (EncodedFrom_nil _ _ _)
    | exact arm_obt_encoded _ _ _ _ hsub
    | exact arm_308_encoded _ _ _ _ _ hsub
    | exact arm_321_encoded _ _ _ _ hsub
    | exact ArmAll_some _ _ (EncodedFrom_msg sys q0 _ _ _ _ (Or.inr rfl) osw2 _ h2)

/-- The words the reset loop hands on are words of the queue it started from. -/
theorem resync_proceed_mem (q : List OSW) :
    ∀ (front : OSW) (b : Bool) (qr osw2 : OSW) (q1 : List OSW) (b1 : Bool) (qr1 : OSW),
      resync front q b qr = .proceed osw2 q1 b1 qr1 →
      osw2 ∈ front :: q ∧ ∀ w ∈ q1, w ∈ front :: q := by
  induction q with
  | nil =>
    intro front b qr osw2 q1 b1 qr1 h
    unfold resync at h
    split at h <;> cases h <;> simp
  | cons nxt rest ih =>
    intro front b qr osw2 q1 b1 qr1 h
    unfold resync at h
    split at h
    · simp only [] at h
      split at h
      · obtain ⟨h1, h2⟩ := ih nxt true front osw2 q1 b1 qr1 h
        exact ⟨List.mem_cons_of_mem _ h1, fun w hw => List.mem_cons_of_mem _ (h2 w hw)⟩
      · cases h
    · cases h
      exact ⟨List.mem_cons_self _ _, fun w hw => List.mem_cons_of_mem _ hw⟩

/-! ## GRANT encoding -/

/-- The flag `(dst_tgid & 0x8) >> 3` is bit 3 of the raw talkgroup. -/
theorem tgid_encrypted_eq_testBit (n : Nat) : tgid_encrypted n = n.testBit 3 := by
  have hy : (n &&& 0x8) >>> 3 = (n.testBit 3).toNat := by
    apply Nat.eq_of_testBit_eq
    intro j
    rw [Nat.testBit_shiftRight, Nat.testBit_and]
    have h8 : (0x8 : Nat) = 2 ^ 3 := by norm_num
    rw [h8, Nat.testBit_two_pow]
    cases j with
    | zero => cases h : n.testBit 3 <;> simp [h]
    | succ k =>
      have h1 : Nat.testBit 1 (k + 1) = false := by
        have h2 := @Nat.testBit_two_pow 0 (k + 1)
        simpa using h2
      cases h : n.testBit 3 <;> simp [h, h1]
  unfold tgid_encrypted
  rw [hy]
  cases n.testBit 3 <;> rfl

theorem tgid_emergency_iff (n : Nat) :
    tgid_emergency n = true ↔ (n &&& 7 = 2 ∨ n &&& 7 = 4 ∨ n &&& 7 = 5) := by
  unfold tgid_emergency
  simp [Bool.or_eq_true, or_assoc]

/-- Every message a pass emits is the GRANT/UPDATE encoding of a word of the queue. -/
theorem process_osws_encoded (sys : System) (t : Int) (s : ParserState) (r : PassResult)
    (h : process_osws sys t s = some r) : ∀ m ∈ r.messages, ∃ w ∈ s.osw_q, encodes w m := by
  unfold process_osws at h
  split at h
  · cases h; intro m hm; cases hm
  split at h
  · cases h; intro m hm; cases hm
  split at h
  · cases h; intro m hm; cases hm
  rename_i front q heq
  split at h
  · cases h; intro m hm; cases hm
  rename_i osw2 q1 b1 qr1 hres
  obtain ⟨hm2, hsub⟩ := resync_proceed_mem q front false default osw2 q1 b1 qr1 hres
  have henc := recognise_encoded sys t { s with osw_q := q1 } osw2 s.osw_q
    (by intro w hw; rw [heq]; exact hsub w hw) (by rw [heq]; exact hm2)
  split at h
  · cases h
  rename_i out hout
  have ho := henc out hout
  split at h <;> cases h <;> exact ho

/-! ## Scenario 2 -/

theorem grant_chan800_f_rx : grant_chan800.f_rx = 851.0125 := by
  have hc : is_chan sys800 ((0 : Nat) : Int) false = true := by decide
  simp only [grant_chan800, mk_osw, hc, if_true]
  simp [get_freq, get_freq_raw, details_sys800, cround]
  norm_num [Rat.floor_def']

theorem scenario2_message :
    create_trunk_message sys800
        (state_with [idle800, idle800, idle800, idle800]) .GRANT
        (grant_chan800.f_rx * 1000000) grant_chan800.addr grant_hdr800.addr
        (tgid_encrypted grant_chan800.addr) (tgid_emergency grant_chan800.addr) =
      scenario2_emitted := by
  rw [grant_chan800_f_rx]
  have h1 : tgid_encrypted grant_chan800.addr = false := by decide
  have h2 : tgid_emergency grant_chan800.addr = true := by decide
  rw [h1, h2]
  simp only [create_trunk_message, scenario2_emitted, scenario2_expected, state_with,
    ParserState.init, TGID_DEFAULT_PRIO, sys800, grant_chan800, grant_hdr800, mk_osw]
  norm_num

/-- The pass on scenario 2, evaluated. -/
theorem scenario2_pass :
    process_osws sys800 0 scenario2_state =
      some ⟨[scenario2_emitted],
        update_voice_frequency (state_with [idle800, idle800, idle800, idle800])
          grant_chan800.ts grant_chan800.f_rx grant_chan800.addr grant_hdr800.addr 0,
        false, false⟩ := by
  have hband : is_800_900 sys800 := Or.inl (by decide)
  rw [process_osws_plain_head sys800 0 scenario2_state grant_hdr800
      [grant_chan800, idle800, idle800, idle800, idle800] rfl rfl (by decide),
    recognise_308 sys800 0 _ grant_hdr800 (not_obt_of_800_900 sys800 hband) (by decide) rfl,
    arm_308_grant sys800 0 _ grant_hdr800 grant_chan800 [idle800, idle800, idle800, idle800]
      rfl (by decide) (by decide) (by decide) (by decide)]
  simp only [Option.map_some']
  rw [← scenario2_message]
  rfl

/-- C2. GRANT encoding: every message a pass of `process_osws` emits is a GRANT or an UPDATE
built from one word of the queue, the channel word carrying the talkgroup: its talkgroup is
the raw address of that word, unmodified (so the low 4 bits are kept), its frequency is that
word's `f_rx * 10^6`, `encrypted` is bit 3 of the raw address, and `emergency` holds exactly
when `raw & 7` is 2, 4 or 5. This covers the analog (0x308), digital (0x321) and OBT
grants and the one-word update. -/
theorem grant_update_encoding (sys : System) (t : Int) (s : ParserState) (r : PassResult)
    (h : process_osws sys t s = some r) :
    ∀ m ∈ r.messages, ∃ w ∈ s.osw_q,
      (m.message_type = MessageType.GRANT ∨ m.message_type = MessageType.UPDATE) ∧
      m.talkgroup = w.addr ∧ m.talkgroup &&& 0xF = w.addr &&& 0xF ∧
      m.freq = w.f_rx * 10 ^ 6 ∧ m.encrypted = w.addr.testBit 3 ∧
      (m.emergency = true ↔ (w.addr &&& 7 = 2 ∨ w.addr &&& 7 = 4 ∨ w.addr &&& 7 = 5)) := by
  intro m hm
  obtain ⟨w, hw, htg, hf, he, hem, hty⟩ := process_osws_encoded sys t s r h m hm
  refine ⟨w, hw, hty, htg, by rw [htg], ?_, ?_, ?_⟩
  · rw [hf]; norm_num
  · rw [he, tgid_encrypted_eq_testBit]
  · rw [hem]; exact tgid_emergency_iff w.addr

theorem grant_update_encoding_witness :
    ∃ w ∈ scenario2_state.osw_q,
      (scenario2_emitted.message_type = MessageType.GRANT ∨
        scenario2_emitted.message_type = MessageType.UPDATE) ∧
      scenario2_emitted.talkgroup = w.addr ∧
      scenario2_emitted.talkgroup &&& 0xF = w.addr &&& 0xF ∧
      scenario2_emitted.freq = w.f_rx * 10 ^ 6 ∧
      scenario2_emitted.encrypted = w.addr.testBit 3 ∧
      (scenario2_emitted.emergency = true ↔
        (w.addr &&& 7 = 2 ∨ w.addr &&& 7 = 4 ∨ w.addr &&& 7 = 5)) :=
  grant_update_encoding sys800 0 scenario2_state _ scenario2_pass scenario2_emitted
    (List.mem_singleton.mpr rfl)

/-- C3, as stated, fails: on scenario 2 the pass does not emit a GRANT with frequency
851012500, talkgroup 0x1234, source 0x2BCD, `encrypted = false` and `emergency = false`. -/
theorem scenario2_expected_flags_fail :
    ¬ ∃ r m, process_osws sys800 0 scenario2_state = some r ∧ r.messages = [m] ∧
      m.message_type = MessageType.GRANT ∧ m.freq = 851012500 ∧ m.talkgroup = 0x1234 ∧
      m.source = 0x2BCD ∧ m.encrypted = false ∧ m.emergency = false := by
  rintro ⟨r, m, hr, hm, -, -, -, -, -, hem⟩
  rw [scenario2_pass] at hr
  cases hr
  simp only [List.cons.injEq, and_true] at hm
  subst hm
  revert hem
  decide

/-- C3, amended. On the 800 standard bandplan the full queue with head
`OSW(addr=0x2BCD, grp=1, cmd=0x308)`, then `OSW(addr=0x1234, grp=1, cmd=channel 0)` and idle
padding makes `process_osws` emit exactly one message: type GRANT, frequency 851012500,
talkgroup 0x1234, source 0x2BCD, `encrypted = false` and `emergency = true`
(`0x1234 & 7 = 4`). -/
theorem scenario2_grant_flags :
    ∃ r m, process_osws sys800 0 scenario2_state = some r ∧ r.messages = [m] ∧
      m.message_type = MessageType.GRANT ∧ m.freq = 851012500 ∧ m.talkgroup = 0x1234 ∧
      m.source = 0x2BCD ∧ m.encrypted = false ∧ m.emergency = true :=
  ⟨_, scenario2_emitted, scenario2_pass, rfl, rfl, rfl, rfl, rfl, rfl, rfl⟩

/-! ## Feeding words: scenario 3 -/

theorem feed_all_append (sys : System) (a b : List (Nat × Nat × Nat)) :
    ∀ (s : ParserState) (rs : List PassResult) (s1 : ParserState)
      (rs2 : List PassResult) (s2 : ParserState),
      feed_all sys s a = some (rs, s1) → feed_all sys s1 b = some (rs2, s2) →
      feed_all sys s (a ++ b) = some (rs ++ rs2, s2) := by
  induction a with
  | nil =>
    intro s rs s1 rs2 s2 h1 h2
    simp only [feed_all, Option.some.injEq, Prod.mk.injEq] at h1
    obtain ⟨rfl, rfl⟩ := h1
    simpa using h2
  | cons w ws ih =>
    intro s rs s1 rs2 s2 h1 h2
    simp only [feed_all, List.cons_append, List.append_eq] at h1 ⊢
    cases hf : feed_one sys s w with
    | none => rw [hf] at h1; cases h1
    | some r =>
      rw [hf] at h1
      simp only [] at h1 ⊢
      cases hrest : feed_all sys r.state ws with
      | none => rw [hrest] at h1; cases h1
      | some p =>
        obtain ⟨rs3, s3⟩ := p
        rw [hrest] at h1
        simp only [Option.some.injEq, Prod.mk.injEq] at h1
        obtain ⟨rfl, rfl⟩ := h1
        rw [ih r.state rs3 s3 rs2 s2 hrest h2]
        rfl

/-- An idle head that is no channel is consumed without effect outside OBT. -/
theorem recognise_idle (sys : System) (t : Int) (s : ParserState) (w : OSW)
    (hobt : is_obt_system sys = false) (hch : w.ch_rx = false) (hcmd : w.cmd = 0x2F8)
    (hg : w.grp = false) : recognise sys t s w = some ⟨[], s, false⟩ := by
  unfold recognise
  simp [hobt, hch, hcmd, hg]

/-- With five idles queued on `sys800`, one more idle is absorbed: the pass emits nothing,
sets no flag and returns the state it started from. -/
theorem feed_one_idle (s : ParserState)
    (hq : s.osw_q = [idle800, idle800, idle800, idle800, idle800]) :
    feed_one sys800 s raw_idle = some ⟨[], s, false, false⟩ := by
  have hband : is_800_900 sys800 := Or.inl (by decide)
  unfold feed_one
  rw [process_osws_plain_head sys800 0 _ idle800 [idle800, idle800, idle800, idle800, idle800]
      (by simp [enqueue, push_bounded, hq, OSW_QUEUE_SIZE, idle800, raw_idle]) rfl (by decide),
    recognise_idle sys800 0 _ idle800 (not_obt_of_800_900 sys800 hband) (by decide) rfl
      (by decide)]
  cases s
  simp only [] at hq
  subst hq
  rfl

theorem feed_all_idles (n : Nat) (s : ParserState)
    (hq : s.osw_q = [idle800, idle800, idle800, idle800, idle800]) :
    ∃ rs, feed_all sys800 s (List.replicate n raw_idle) = some (rs, s) ∧
      ∀ r ∈ rs, r.messages = [] ∧ r.is_unknown_osw = false := by
  induction n with
  | zero => exact ⟨[], rfl, by simp⟩
  | succ k ih =>
    obtain ⟨rs, h1, h2⟩ := ih
    refine ⟨⟨[], s, false, false⟩ :: rs, ?_, ?_⟩
    · simp only [List.replicate_succ, feed_all, feed_one_idle s hq, h1]
    · intro r hr
      rcases List.mem_cons.mp hr with rfl | hr
      · exact ⟨rfl, rfl⟩
      · exact h2 r hr

/-- The first eight passes of scenario 3 (header, idle, channel word, five idles), evaluated:
messages and unknown flag of each pass and the queue left behind. -/
theorem scenario3_prefix :
    (feed_all sys800 ParserState.init (scenario3_words 5)).map
        (fun p => (p.1.map (fun r => (r.messages, r.is_unknown_osw)), p.2.osw_q)) =
      some ([([], false), ([], false), ([], false), ([], false), ([], false), ([], false),
          ([], false), ([scenario3_update], false)],
        [idle800, idle800, idle800, idle800, idle800]) := by
  decide!

theorem scenario3_rev_eval :
    (feed_all sys800 ParserState.init (scenario3_words_rev 8)).map
        (fun p => all_messages p.1) = some [scenario3_update] := by
  decide!

theorem scenario3_eval :
    (feed_all sys800 ParserState.init (scenario3_words 8)).map
        (fun p => all_messages p.1) = some [scenario3_update] := by
  decide!

theorem all_messages_of_map (rs : List PassResult) :
    all_messages rs =
      ((rs.map (fun r => (r.messages, r.is_unknown_osw))).map Prod.fst).flatten := by
  induction rs with
  | nil => rfl
  | cons r rs ih =>
    simp only [all_messages, List.flatMap_cons, List.map_cons, List.flatten_cons] at ih ⊢
    rw [ih]

theorem all_messages_append (a b : List PassResult) :
    all_messages (a ++ b) = all_messages a ++ all_messages b := by
  simp [all_messages]

theorem all_messages_nil_of_forall (rs : List PassResult)
    (h : ∀ r ∈ rs, r.messages = [] ∧ r.is_unknown_osw = false) : all_messages rs = [] := by
  induction rs with
  | nil => rfl
  | cons r rs ih =>
    simp only [all_messages, List.flatMap_cons] at ih ⊢
    rw [(h r (List.mem_cons_self _ _)).1, ih (fun x hx => h x (List.mem_cons_of_mem _ hx))]
    rfl

/-- C4, as stated, fails: with the scenario-2 grant words separated by one idle and followed
by eight idles, in queue order (header first) as well as in the order of the spec text
(channel word first), the passes do not emit the GRANT (talkgroup 0x1234, source 0x2BCD,
frequency 851012500) exactly once: they emit no GRANT at all. -/
theorem scenario3_grant_not_emitted :
    (¬ ∃ rs s1, feed_all sys800 ParserState.init (scenario3_words 8) = some (rs, s1) ∧
      ((all_messages rs).filter (fun m => decide (m.message_type = MessageType.GRANT ∧
        m.talkgroup = 0x1234 ∧ m.source = 0x2BCD ∧ m.freq = 851012500))).length = 1 ∧
      ∀ r ∈ rs, r.is_unknown_osw = false) ∧
    (¬ ∃ rs s1, feed_all sys800 ParserState.init (scenario3_words_rev 8) = some (rs, s1) ∧
      ((all_messages rs).filter (fun m => decide (m.message_type = MessageType.GRANT ∧
        m.talkgroup = 0x1234 ∧ m.source = 0x2BCD ∧ m.freq = 851012500))).length = 1 ∧
      ∀ r ∈ rs, r.is_unknown_osw = false) := by
  constructor
  · rintro ⟨rs, s1, h, hc, -⟩
    have he := scenario3_eval
    rw [h] at he
    simp only [Option.map_some', Option.some.injEq] at he
    rw [he] at hc
    revert hc
    decide!
  · rintro ⟨rs, s1, h, hc, -⟩
    have he := scenario3_rev_eval
    rw [h] at he
    simp only [Option.map_some', Option.some.injEq] at he
    rw [he] at hc
    revert hc
    decide!

/-- C4, amended. When the two words of the scenario-2 grant are separated by a single idle
(header `0x308`, idle, channel word) and followed by at least five idles, the successive
passes emit exactly one message in total, the UPDATE of the channel word (talkgroup 0x1234,
source 0, frequency 851012500), hence no GRANT, and no pass sets the unknown-OSW flag: the
header and the idle are consumed together as a two-word system idle. -/
theorem scenario3_update_only (n : Nat) :
    ∃ rs s1, feed_all sys800 ParserState.init (scenario3_words (5 + n)) = some (rs, s1) ∧
      all_messages rs = [scenario3_update] ∧
      scenario3_update.message_type = MessageType.UPDATE ∧
      scenario3_update.talkgroup = 0x1234 ∧ scenario3_update.source = 0 ∧
      scenario3_update.freq = 851012500 ∧
      (∀ m ∈ all_messages rs, m.message_type ≠ MessageType.GRANT) ∧
      ∀ r ∈ rs, r.is_unknown_osw = false := by
  have hp := scenario3_prefix
  cases h0 : feed_all sys800 ParserState.init (scenario3_words 5) with
  | none => rw [h0] at hp; cases hp
  | some p =>
    obtain ⟨rs0, s0⟩ := p
    rw [h0] at hp
    simp only [Option.map_some', Option.some.injEq, Prod.mk.injEq] at hp
    obtain ⟨hmap, hq⟩ := hp
    obtain ⟨rs1, h1, hidle⟩ := feed_all_idles n s0 hq
    have hw : scenario3_words (5 + n) = scenario3_words 5 ++ List.replicate n raw_idle := by
      simp [scenario3_words, List.replicate_add]
    have hmsgs : all_messages (rs0 ++ rs1) = [scenario3_update] := by
      rw [all_messages_append, all_messages_nil_of_forall rs1 hidle, all_messages_of_map,
        hmap]
      rfl
    refine ⟨rs0 ++ rs1, s0, ?_, hmsgs, rfl, rfl, rfl, rfl, ?_, ?_⟩
    · rw [hw]
      exact feed_all_append sys800 _ _ _ rs0 s0 rs1 s0 h0 h1
    · intro m hm
      rw [hmsgs, List.mem_singleton] at hm
      subst hm
      decide
    · intro r hr
      rcases List.mem_append.mp hr with hr | hr
      · have hmem := List.mem_map_of_mem (fun r => (r.messages, r.is_unknown_osw)) hr
        rw [hmap] at hmem
        simp only [List.mem_cons, Prod.mk.injEq, List.mem_singleton, List.not_mem_nil,
          or_false] at hmem
        rcases hmem with h | h | h | h | h | h | h | h <;> exact h.2
      · exact (hidle r hr).2

/-! ## The bad-OSW gate and the reset marker -/

/-- The masked type `type() & 0xffff` is never negative, so it never equals
`M_SMARTNET_BAD_OSW` or `M_SMARTNET_TIMEOUT`. -/
theorem masked_type_ne_bad_osw (ty : Int) :
    ty % 65536 ≠ M_SMARTNET_BAD_OSW ∧ ty % 65536 ≠ M_SMARTNET_TIMEOUT := by
  have h : 0 ≤ ty % 65536 := Int.emod_nonneg ty (by norm_num)
  unfold M_SMARTNET_BAD_OSW M_SMARTNET_TIMEOUT
  constructor <;> omega

/-- C8, the code at the failing input: the protocol-2 message with low type bits `0xFFFE`
(`M_SMARTNET_BAD_OSW` as a 16-bit value) leaves a queue of two idles as it is; the queue is
not cleared and no reset marker is enqueued. -/
theorem bad_osw_ignored :
    bad_osw_msg.type / 65536 = 2 ∧
    (parse_message sys800 0 (some bad_osw_msg) (state_with [idle800, idle800])).map
        (fun p => (p.1, p.2.osw_q)) = some ([], [idle800, idle800]) := by
  decide!

/-- The overflow rule of `enqueue` on a queue that holds a reset marker (a word with cmd
`0xFFE`, which no 10-bit opcode of the control channel is, and which the dead `BAD_OSW`
branch of `parse_message` never enqueues): after the words `RESET, x, idle, idle, idle, idle`
(`x` unknown) the sixth pass sees the marker and the unknown word and pushes both back; the
seventh word then overflows the full queue, `enqueue` drops the marker, and the seventh pass
meets the same unknown word with `is_queue_reset = false`. -/
theorem reset_marker_dropped_by_enqueue :
    (feed_all sys800 ParserState.init reset_then_unknown_words).map
        (fun p => (p.1.map (fun r => (r.is_unknown_osw, r.is_queue_reset,
          r.state.osw_q.map (fun w => w.cmd))))) =
      some [(false, false, [0xFFE]), (false, false, [0xFFE, 0x3ff]),
        (false, false, [0xFFE, 0x3ff, 0x2f8]), (false, false, [0xFFE, 0x3ff, 0x2f8, 0x2f8]),
        (false, false, [0xFFE, 0x3ff, 0x2f8, 0x2f8, 0x2f8]),
        (true, true, [0xFFE, 0x3ff, 0x2f8, 0x2f8, 0x2f8, 0x2f8]),
        (true, false, [0x3ff, 0x2f8, 0x2f8, 0x2f8, 0x2f8, 0x2f8])] := by
  decide!

/-! ## The queue never grows beyond its capacity -/

theorem arm_321_queue (sys : System) (s : ParserState) (osw2 : OSW) (n : Nat)
    (hn : s.osw_q.length + 1 ≤ n) : ArmAll (QueueLe n) (arm_321 sys s osw2) := by
  unfold arm_321
  split
  · exact ArmAll_none _
  · rename_i osw1 q1 heq
    rw [heq] at hn
    simp only []
    repeat' first
      | (apply ArmAll_ite <;> intro _)
      | exact ArmAll_none _
      | (apply ArmAll_some; unfold QueueLe; try simp only [List.length_cons] at hn
         simp [update_voice_frequency_osw_q, add_adjacent_site, add_alternate_cc_freq]; omega)
      | split

theorem arm_308_30b_queue (sys : System) (t : Int) (s : ParserState) (osw2 osw1 : OSW)
    (q1 : List OSW) (n : Nat) (hn : q1.length + 2 ≤ n) :
    ArmAll (QueueLe n) (arm_308_30b sys t s osw2 osw1 q1) := by
  unfold arm_308_30b
  cases q1 with
  | nil => exact ArmAll_none _
  | cons first qa =>
    simp only [List.length_cons] at hn ⊢
    by_cases hc : first.cmd = 0x2f8 ∧ (!first.grp) = true
    · rw [if_pos hc]
      cases qa with
      | nil => exact ArmAll_none _
      | cons nxt qb =>
        simp only [List.length_cons] at hn ⊢
        repeat' first
          | (apply ArmAll_ite <;> intro _)
          | (apply ArmAll_some; unfold QueueLe
             simp [add_alternate_cc_freq]; omega)
    · rw [if_neg hc]
      simp only []
      repeat' first
        | (apply ArmAll_ite <;> intro _)
        | (apply ArmAll_some; unfold QueueLe
           simp [add_alternate_cc_freq]; omega)

theorem arm_308_queue (sys : System) (t : Int) (s : ParserState) (osw2 : OSW) (n : Nat)
    (hn : s.osw_q.length + 1 ≤ n) : ArmAll (QueueLe n) (arm_308 sys t s osw2) := by
  unfold arm_308
  split
  · apply ArmAll_some; unfold QueueLe; simp; omega
  · rename_i osw1 q1 heq
    rw [heq] at hn
    simp only [List.length_cons] at hn
    simp only []
    repeat' first
      | (apply ArmAll_ite <;> intro _)
      | exact ArmAll_none _
      | exact arm_308_30b_queue _ _ _ _ _ _ _ (by omega)
      | (apply ArmAll_some; unfold QueueLe; try simp only [List.length_cons] at hn
         simp [update_voice_frequency_osw_q]; omega)
      | split

theorem arm_obt_queue (sys : System) (s : ParserState) (osw2 : OSW) (n : Nat)
    (hn : s.osw_q.length + 1 ≤ n) : ArmAll (QueueLe n) (arm_obt sys s osw2) := by
  unfold arm_obt
  split
  · apply ArmAll_some
    show s.osw_q.length ≤ n
    omega
  · rename_i osw1 q1 heq
    rw [heq] at hn
    simp only [List.length_cons] at hn
    simp only []
    repeat' first
      | (apply ArmAll_ite <;> intro _)
      | exact ArmAll_none _
      | (apply ArmAll_some; unfold QueueLe; try simp only [List.length_cons] at hn
         simp [update_voice_frequency_osw_q, add_adjacent_site, add_alternate_cc_freq]; omega)
      | split

/-- The recognition chain leaves at most one word more than the queue behind the head. -/
theorem recognise_queue (sys : System) (t : Int) (s : ParserState) (osw2 : OSW) (n : Nat)
    (hn : s.osw_q.length + 1 ≤ n) : ArmAll (QueueLe n) (recognise sys t s osw2) := by
  unfold recognise
  simp only []
  repeat' first
    | (apply ArmAll_ite <;> intro _)
    | exact arm_obt_queue _ _ _ _ hn
    | exact arm_308_queue _ _ _ _ _ hn
    | exact arm_321_queue _ _ _ _ hn
    | (apply ArmAll_some; unfold QueueLe
       simp [update_voice_frequency_osw_q]; omega)

theorem resync_length (q : List OSW) :
    ∀ (front : OSW) (b : Bool) (qr : OSW),
      (∀ q1, resync front q b qr = .returned q1 → q1.length ≤ q.length) ∧
      (∀ osw2 q1 b1 qr1, resync front q b qr = .proceed osw2 q1 b1 qr1 →
        q1.length ≤ q.length ∧ (b1 = true → b = true ∨ q = [] ∨ q1.length + 1 ≤ q.length)) := by
  induction q with
  | nil =>
    intro front b qr
    unfold resync
    constructor
    · intro q1 h
      split at h <;> cases h
    · intro osw2 q1 b1 qr1 h
      split at h <;> cases h <;> simp
  | cons nxt rest ih =>
    intro front b qr
    obtain ⟨ih1, ih2⟩ := ih nxt true front
    unfold resync
    constructor
    · intro q1 h
      split at h
      · simp only [] at h
        split at h
        · have := ih1 q1 h
          simp only [List.length_cons]
          omega
        · cases h
          simp
      · cases h
    · intro osw2 q1 b1 qr1 h
      split at h
      · simp only [] at h
        split at h
        · obtain ⟨h1, -⟩ := ih2 osw2 q1 b1 qr1 h
          simp only [List.length_cons]
          exact ⟨by omega, fun _ => Or.inr (Or.inr (by omega))⟩
        · cases h
      · cases h
        exact ⟨le_refl _, fun hb => Or.inl hb⟩

/-- A pass never leaves more than six words in a queue that held at most six. -/
theorem process_osws_queue_le (sys : System) (t : Int) (s : ParserState) (r : PassResult)
    (h : process_osws sys t s = some r) (hs : s.osw_q.length ≤ 6) :
    r.state.osw_q.length ≤ 6 := by
  unfold process_osws at h
  split at h
  · cases h; exact hs
  split at h
  · cases h; exact hs
  split at h
  · cases h; exact hs
  rename_i front q heq
  rw [heq] at hs
  simp only [List.length_cons] at hs
  obtain ⟨hret, hpro⟩ := resync_length q front false default
  split at h
  · rename_i q1 hres
    cases h
    have := hret q1 hres
    show q1.length ≤ 6
    omega
  rename_i osw2 q1 b1 qr1 hres
  obtain ⟨hl, hb⟩ := hpro osw2 q1 b1 qr1 hres
  split at h
  · cases h
  rename_i out hout
  have ho : out.state.osw_q.length ≤ q1.length + 1 :=
    recognise_queue sys t { s with osw_q := q1 } osw2 (q1.length + 1) (le_refl _) out hout
  split at h
  · rename_i hc
    cases h
    show (qr1 :: out.state.osw_q).length ≤ 6
    simp only [List.length_cons]
    rcases hb hc.2 with h1 | h1 | h1
    · cases h1
    · subst h1
      simp only [List.length_nil] at hl
      omega
    · omega
  · cases h
    show out.state.osw_q.length ≤ 6
    omega

theorem enqueue_length_le (sys : System) (s : ParserState) (addr grp cmd : Nat) (ts : ℚ)
    (h : s.osw_q.length ≤ 6) : (enqueue sys s addr grp cmd ts).osw_q.length ≤ 6 := by
  unfold enqueue push_bounded
  simp only [OSW_QUEUE_SIZE]
  by_cases hc : s.osw_q.length ≥ 5 + 1
  · rw [if_pos hc]; simp; omega
  · rw [if_neg hc]; simp; omega

theorem parse_message_queue_le (sys : System) (t : Int) (msg : Option Message)
    (s : ParserState) (out : List TrunkMessage × ParserState)
    (h : parse_message sys t msg s = some out) (hs : s.osw_q.length ≤ 6) :
    out.2.osw_q.length ≤ 6 := by
  unfold parse_message at h
  split at h
  · cases h; exact hs
  rename_i m
  simp only [] at h
  split at h
  · cases h; exact hs
  split at h
  · cases h
  rename_i r hr
  have h1 : r.state.osw_q.length ≤ 6 := by
    refine process_osws_queue_le sys t _ r hr ?_
    split
    · exact hs
    split
    · exact enqueue_length_le sys _ _ _ _ _ (by simp)
    split
    · split
      · exact enqueue_length_le sys _ _ _ _ _ hs
      · exact hs
    · exact hs
  cases h
  simp only []
  split
  · exact h1
  · exact h1

/-- Every reachable parser state holds at most six words in its queue. -/
theorem reachable_queue_le (sys : System) (s : ParserState) (h : Reachable sys s) :
    s.osw_q.length ≤ 6 := by
  induction h with
  | init => simp [ParserState.init]
  | enqueue s addr grp cmd ts _ ih => exact enqueue_length_le sys s addr grp cmd ts ih
  | pass s t r _ hr ih => exact process_osws_queue_le sys t s r hr ih
  | message s t msg out _ hm ih => exact parse_message_queue_le sys t msg s out hm ih
  | update_voice_frequency s ts freq tgid srcaddr mode _ ih =>
    rw [update_voice_frequency_osw_q]; exact ih
  | update_talkgroups s ts frequency tgid srcaddr mode _ ih => exact ih
  | update_talkgroup s ts frequency tgid srcaddr mode _ ih => exact ih

/-- C7. Queue bound: in every reachable parser state, `enqueue` leaves at most 6 words in the
queue; when the queue already held 6, the result is the old queue without its front word
followed by the new word, so exactly the oldest word is dropped and the other five keep
their order; when it held fewer, the new word is appended and nothing is dropped. -/
theorem enqueue_bounded (sys : System) (s : ParserState) (hs : Reachable sys s)
    (addr grp cmd : Nat) (ts : ℚ) :
    (enqueue sys s addr grp cmd ts).osw_q.length ≤ 6 ∧
    (s.osw_q.length = 6 →
      (enqueue sys s addr grp cmd ts).osw_q = s.osw_q.tail ++ [mk_osw sys addr grp cmd ts]) ∧
    (s.osw_q.length < 6 →
      (enqueue sys s addr grp cmd ts).osw_q = s.osw_q ++ [mk_osw sys addr grp cmd ts]) := by
  refine ⟨enqueue_length_le sys s addr grp cmd ts (reachable_queue_le sys s hs), ?_, ?_⟩
  · intro h6
    unfold enqueue push_bounded
    simp only [OSW_QUEUE_SIZE]
    rw [if_pos (by omega)]
  · intro h6
    unfold enqueue push_bounded
    simp only [OSW_QUEUE_SIZE]
    rw [if_neg (by omega)]

theorem enqueue_bounded_witness :
    (enqueue sys800 scenario2_enqueued 0 0 0x2f8 0).osw_q.length ≤ 6 ∧
    (scenario2_enqueued.osw_q.length = 6 →
      (enqueue sys800 scenario2_enqueued 0 0 0x2f8 0).osw_q =
        scenario2_enqueued.osw_q.tail ++ [mk_osw sys800 0 0 0x2f8 0]) ∧
    (scenario2_enqueued.osw_q.length < 6 →
      (enqueue sys800 scenario2_enqueued 0 0 0x2f8 0).osw_q =
        scenario2_enqueued.osw_q ++ [mk_osw sys800 0 0 0x2f8 0]) :=
  enqueue_bounded sys800 scenario2_enqueued
    (Reachable.enqueue _ _ _ _ _ (Reachable.enqueue _ _ _ _ _ (Reachable.enqueue _ _ _ _ _
      (Reachable.enqueue _ _ _ _ _ (Reachable.enqueue _ _ _ _ _
        (Reachable.enqueue _ _ _ _ _ Reachable.init))))))
    0 0 0x2f8 0

end SmartnetParser

namespace SmartnetParser

/-! ## Idle behind a `0x308` head -/

theorem is_chan_2f8_false (sys : System) (h : is_800_900 sys) (w : OSW) (hcmd : w.cmd = 0x2f8)
    (is_tx : Bool) : is_chan sys w.cmd is_tx = false := by
  rw [hcmd]
  unfold is_chan
  rcases h with h | h <;> simp [h]

/-- The idle branch of the `0x308` arm when the word behind the idle is no continuation:
only that word is pushed back. -/
theorem arm_308_idle_not_found (sys : System) (t : Int) (s : ParserState)
    (osw2 osw1 osw0 : OSW) (q : List OSW) (hq : s.osw_q = osw1 :: osw0 :: q)
    (hrx : osw1.ch_rx = false) (h1 : osw1.cmd = 0x2f8) (h0 : osw0.cmd ∉ valid_cmds) :
    arm_308 sys t s osw2 = some ⟨[], { s with osw_q := osw0 :: q }, false⟩ := by
  unfold arm_308
  rw [hq]
  simp only []
  rw [if_neg (by simp [hrx]), if_neg (by simp [hrx]), if_neg (by simp [hrx]),
    if_neg (by simp [hrx]), if_pos h1]
  simp [h0]

/-- C12, as stated, fails: on the full queue `[0x308 header, idle, channel word, idle, idle,
idle]` (the third word's cmd 0 is none of the listed continuations) the pass does not leave
the queue as it was. -/
theorem idle_repair_nothing_pushed_back :
    ∃ r, process_osws sys800 0 scenario3_state = some r ∧
      r.state.osw_q ≠ scenario3_state.osw_q := by
  have h : (process_osws sys800 0 scenario3_state).map (fun r => r.state.osw_q) =
      some [grant_chan800, idle800, idle800, idle800] := by decide!
  cases hr : process_osws sys800 0 scenario3_state with
  | none => rw [hr] at h; cases h
  | some r =>
    rw [hr] at h
    simp only [Option.map_some', Option.some.injEq] at h
    refine ⟨r, rfl, ?_⟩
    rw [h]
    decide!

/-- C12, amended. On an 800/900-family bandplan, for every full queue of enqueued words whose
head has cmd 0x308, whose next word is an idle (cmd 0x2F8) and whose third word has a cmd
outside `valid_cmds`, `process_osws` consumes the head and the idle as a two-word system idle:
it emits nothing, sets no flag, changes no table and leaves the queue from the third word
on (only the third word is pushed back). -/
theorem idle_after_308_consumed (sys : System) (t : Int) (s : ParserState)
    (osw2 osw1 osw0 : OSW) (rest : List OSW) (hband : is_800_900 sys)
    (hq : s.osw_q = osw2 :: osw1 :: osw0 :: rest) (hlen : rest.length = 3)
    (hwf : ∀ w ∈ s.osw_q, wf_osw sys w) (h2 : osw2.cmd = 0x308) (h1 : osw1.cmd = 0x2f8)
    (h0 : osw0.cmd ∉ valid_cmds) :
    process_osws sys t s = some ⟨[], { s with osw_q := osw0 :: rest }, false, false⟩ := by
  have hch2 : osw2.ch_rx = false := by
    rw [wf_ch_rx sys osw2 (hwf osw2 (by rw [hq]; simp))]
    exact is_chan_308_nat sys hband osw2 h2 false
  have hch1 : osw1.ch_rx = false := by
    rw [wf_ch_rx sys osw1 (hwf osw1 (by rw [hq]; simp))]
    exact is_chan_2f8_false sys hband osw1 h1 false
  have hnr : osw2.cmd ≠ OSW_QUEUE_RESET_CMD := by rw [h2]; decide
  rw [process_osws_plain_head sys t s osw2 (osw1 :: osw0 :: rest) hq (by simp [hlen]) hnr,
    recognise_308 sys t _ osw2 (not_obt_of_800_900 sys hband) hch2 h2,
    arm_308_idle_not_found sys t _ osw2 osw1 osw0 rest rfl hch1 h1 h0]
  rfl

theorem idle_after_308_consumed_witness :
    process_osws sys800 0 scenario3_state =
      some ⟨[], { scenario3_state with osw_q := [grant_chan800, idle800, idle800, idle800] },
        false, false⟩ :=
  idle_after_308_consumed sys800 0 scenario3_state grant_hdr800 idle800 grant_chan800
    [idle800, idle800, idle800] (Or.inl (by decide)) rfl rfl
    (by
      intro w hw
      simp only [scenario3_state, state_with, List.mem_cons, List.mem_singleton,
        List.not_mem_nil, or_false] at hw
      rcases hw with rfl | rfl | rfl | rfl | rfl | rfl <;> exact wf_mk_osw _ _ _ _ _)
    rfl rfl (by decide)

end SmartnetParser

namespace SmartnetParser

/-! ## Putback in the multi-word arms -/

theorem arm_321_putback (sys : System) (s : ParserState) (osw2 : OSW) :
    ArmAll (PutbackOK s.osw_q) (arm_321 sys s osw2) := by
  unfold arm_321
  split
  · exact ArmAll_none _
  · rename_i osw1 q1 heq
    simp only []
    repeat' first
      | (apply ArmAll_ite <;> intro _)
      | exact ArmAll_none _
      | (apply ArmAll_some; intro hu; exact (Bool.false_ne_true hu).elim)
      | (apply ArmAll_some; intro _; left; exact heq.symm)
      | split

theorem arm_308_30b_putback (sys : System) (t : Int) (s : ParserState) (osw2 osw1 : OSW)
    (q1 q : List OSW) : ArmAll (PutbackOK q) (arm_308_30b sys t s osw2 osw1 q1) := by
  unfold arm_308_30b
  simp only []
  repeat' first
    | (apply ArmAll_ite <;> intro _)
    | exact ArmAll_none _
    | (apply ArmAll_some; intro hu; exact (Bool.false_ne_true hu).elim)
    | split

theorem arm_308_putback (sys : System) (t : Int) (s : ParserState) (osw2 : OSW) :
    ArmAll (PutbackOK s.osw_q) (arm_308 sys t s osw2) := by
  unfold arm_308
  split
  · apply ArmAll_some; intro hu; exact (Bool.false_ne_true hu).elim
  · rename_i osw1 q1 heq
    simp only []
    repeat' first
      | (apply ArmAll_ite <;> intro _)
      | exact ArmAll_none _
      | exact arm_308_30b_putback _ _ _ _ _ _ _
      | (apply ArmAll_some; intro hu; exact (Bool.false_ne_true hu).elim)
      | (apply ArmAll_some; intro _; left; exact heq.symm)
      | (apply ArmAll_some; intro _; right; refine ⟨_, _, heq, ?_, rfl⟩; assumption)
      | split

theorem arm_obt_putback (sys : System) (s : ParserState) (osw2 : OSW) :
    ArmAll (PutbackOK s.osw_q) (arm_obt sys s osw2) := by
  unfold arm_obt
  split
  · apply ArmAll_some; intro hu; exact (Bool.false_ne_true hu).elim
  · rename_i osw1 q1 heq
    simp only []
    repeat' first
      | (apply ArmAll_ite <;> intro _)
      | exact ArmAll_none _
      | (apply ArmAll_some; intro hu; exact (Bool.false_ne_true hu).elim)
      | (apply ArmAll_some; intro _; left; exact heq.symm)
      | (apply ArmAll_some; intro _; right; refine ⟨_, _, heq, ?_, rfl⟩; tauto)
      | split

theorem recognise_putback (sys : System) (t : Int) (s : ParserState) (osw2 : OSW)
    (harm : multiword_head sys osw2) :
    ArmAll (PutbackOK s.osw_q) (recognise sys t s osw2) := by
  unfold multiword_head at harm
  unfold recognise
  simp only []
  repeat' first
    | (apply ArmAll_ite <;> intro _)
    | exact arm_obt_putback _ _ _
    | exact arm_308_putback _ _ _ _
    | exact arm_321_putback _ _ _
    | (apply ArmAll_some; intro hu; exact (Bool.false_ne_true hu).elim)
    | (apply ArmAll_some; intro _; exfalso; rcases harm with h | h | h <;> contradiction)

/-- The pass on `putback320_state`, evaluated. -/
theorem putback320_pass :
    process_osws sys800 0 putback320_state =
      some ⟨[], state_with [unknown800, idle800, idle800, idle800], true, false⟩ := by
  decide!

/-- C11, as stated, fails: on the full queue `[0x308 header, 0x320 word, unknown word, idle,
idle, idle]` the pass sets the unknown flag inside the `0x308` arm, but the queue afterwards
is not the queue before without its head: the `0x320` word is gone too. -/
theorem putback_drops_320_word :
    multiword_head sys800 grant_hdr800 ∧
    ∃ r, process_osws sys800 0 putback320_state = some r ∧ r.is_unknown_osw = true ∧
      r.state.osw_q ≠ putback320_state.osw_q.tail := by
  refine ⟨Or.inr (Or.inl rfl), ?_⟩
  have h : (process_osws sys800 0 putback320_state).map
      (fun r => (r.is_unknown_osw, r.state.osw_q)) =
      some (true, [unknown800, idle800, idle800, idle800]) := by decide!
  cases hr : process_osws sys800 0 putback320_state with
  | none => rw [hr] at h; cases h
  | some r =>
    rw [hr] at h
    simp only [Option.map_some', Option.some.injEq, Prod.mk.injEq] at h
    refine ⟨r, rfl, h.1, ?_⟩
    rw [h.2]
    decide!

/-- C11, amended. Putback discipline: for every full queue whose head (or first word behind a
single leading reset marker) enters a multi-word arm (OBT arm, `0x308` or `0x321`), whenever
the pass sets the unknown-OSW flag, the queue after the pass is the queue before it with only
the head removed (the reset marker, if any, back in front), except that when the word
behind the head has cmd `0x320` (the three-word system-information sub-arms) that word is
consumed with the head and only the words behind it are put back. -/
theorem putback_discipline (sys : System) (t : Int) (s : ParserState) (w : OSW)
    (pre rest : List OSW) (r : PassResult) (hq : s.osw_q = pre ++ w :: rest)
    (hfull : s.osw_q.length = 6)
    (hpre : pre = [] ∨ ∃ m, pre = [m] ∧ m.cmd = OSW_QUEUE_RESET_CMD)
    (hw : w.cmd ≠ OSW_QUEUE_RESET_CMD) (harm : multiword_head sys w)
    (hr : process_osws sys t s = some r) (hu : r.is_unknown_osw = true) :
    r.state.osw_q = pre ++ rest ∨
      ∃ osw1 rest1, rest = osw1 :: rest1 ∧ osw1.cmd = 0x320 ∧ r.state.osw_q = pre ++ rest1 := by
  rcases hpre with rfl | ⟨m, rfl, hm⟩
  · have hlen : rest.length = 5 := by rw [hq] at hfull; simpa using hfull
    rw [process_osws_plain_head sys t s w rest hq hlen hw] at hr
    cases hrec : recognise sys t { s with osw_q := rest } w with
    | none => rw [hrec] at hr; cases hr
    | some out =>
      rw [hrec] at hr
      simp only [Option.map_some', Option.some.injEq] at hr
      subst hr
      have hp := recognise_putback sys t { s with osw_q := rest } w harm out hrec hu
      simpa using hp
  · have hlen : rest.length = 4 := by rw [hq] at hfull; simpa using hfull
    rw [process_osws_reset_head sys t s m w rest hq hlen hm hw] at hr
    cases hrec : recognise sys t { s with osw_q := rest } w with
    | none => rw [hrec] at hr; cases hr
    | some out =>
      rw [hrec] at hr
      simp only [Option.map_some', Option.some.injEq] at hr
      subst hr
      cases hou : out.is_unknown_osw with
      | false => simp [hou] at hu
      | true =>
        have hp := recognise_putback sys t { s with osw_q := rest } w harm out hrec hou
        rcases hp with hp | ⟨osw1, rest1, h1, h2, h3⟩
        · left
          simp only [hou, if_true]
          show m :: out.state.osw_q = [m] ++ rest
          rw [hp]
          rfl
        · right
          refine ⟨osw1, rest1, h1, h2, ?_⟩
          simp only [hou, if_true]
          show m :: out.state.osw_q = [m] ++ rest1
          rw [h3]
          rfl

theorem putback_discipline_witness :
    (PassResult.mk [] (state_with [unknown800, idle800, idle800, idle800]) true false).state.osw_q =
        [] ++ [sysinfo800, unknown800, idle800, idle800, idle800] ∨
      ∃ osw1 rest1, [sysinfo800, unknown800, idle800, idle800, idle800] = osw1 :: rest1 ∧
        osw1.cmd = 0x320 ∧
        (PassResult.mk [] (state_with [unknown800, idle800, idle800, idle800]) true
          false).state.osw_q = [] ++ rest1 :=
  putback_discipline sys800 0 putback320_state grant_hdr800 []
    [sysinfo800, unknown800, idle800, idle800, idle800]
    ⟨[], state_with [unknown800, idle800, idle800, idle800], true, false⟩ rfl rfl (Or.inl rfl)
    (by decide) (Or.inr (Or.inl rfl)) putback320_pass rfl

end SmartnetParser

namespace SmartnetParser

/-! ## Patch table and digital grant -/

/-- C13, the code at the failing input: on scenario 5 the head is a patch group and the pass
takes the `0x340` patch arm (no message, no unknown flag, both words consumed), the decoded
values are `tgid = 0xABC0` and `sub = 0x0100`, but the patch table is still empty after the
pass; `add_patch` with those values would have recorded the patch. -/
theorem patch_not_recorded :
    is_patch_group patch_hdr800.addr = true ∧
    (patch_word800.addr &&& 0xfff) <<< 4 = 0xABC0 ∧ patch_hdr800.addr &&& 0xfff0 = 0x0100 ∧
    (process_osws sys800 0 scenario5_state).map (fun r => (r.messages, r.is_unknown_osw)) =
      some ([], false) ∧
    (process_osws sys800 0 scenario5_state).map (fun r => r.state.osw_q) =
      some [idle800, idle800, idle800, idle800] ∧
    (process_osws sys800 0 scenario5_state).map (fun r => r.state.patches) = some [] ∧
    (add_patch scenario5_state 0 0xABC0 0x0100 3).patches = [(0xABC0, [(0x0100, (0, 3))])] :=
  ⟨by decide, by decide, by decide, by decide!, by decide!, by decide!, by decide!⟩

/-- C14, the code at the failing input: the digital grant (`0x321` header, channel word)
emits a GRANT with frequency 851012500 and talkgroup 0x1234 but leaves the talkgroup and
voice-frequency tables empty, whereas the analog grant of scenario 2 with the same channel
word stores frequency 851012500 and status 4 under key 0x1230. -/
theorem digital_grant_skips_tables :
    (process_osws sys800 0 digital_grant_state).map
        (fun r => r.messages.map (fun m => (m.message_type, m.freq, m.talkgroup))) =
      some [(MessageType.GRANT, 851012500, 0x1234)] ∧
    (process_osws sys800 0 digital_grant_state).map
        (fun r => (r.state.talkgroups, r.state.voice_frequencies)) = some ([], []) ∧
    (process_osws sys800 0 scenario2_state).map
        (fun r => r.messages.map (fun m => (m.message_type, m.freq, m.talkgroup))) =
      some [(MessageType.GRANT, 851012500, 0x1234)] ∧
    (process_osws sys800 0 scenario2_state).map
        (fun r => r.state.talkgroups.map (fun p => (p.1, p.2.frequency, p.2.status))) =
      some [(0x1230, 851012500, 4)] :=
  ⟨by decide!, by decide!, by decide!, by decide!⟩

end SmartnetParser

namespace SmartnetParser

/-! ## The association-list map -/

theorem smap_find_insert_self {V : Type} (m : List (Nat × V)) (k : Nat) (v : V) :
    smap_find (smap_insert m k v) k = some v := by
  induction m with
  | nil => simp [smap_insert, smap_find]
  | cons p rest ih =>
    obtain ⟨k1, v1⟩ := p
    unfold smap_insert
    by_cases h1 : k < k1
    · rw [if_pos h1]; simp [smap_find]
    · rw [if_neg h1]
      by_cases h2 : k = k1
      · rw [if_pos h2]; simp [smap_find]
      · rw [if_neg h2]
        unfold smap_find
        rw [if_neg h2]
        exact ih

theorem smap_find_insert_ne {V : Type} (m : List (Nat × V)) (k j : Nat) (v : V) (hj : j ≠ k) :
    smap_find (smap_insert m k v) j = smap_find m j := by
  induction m with
  | nil => simp [smap_insert, smap_find, hj]
  | cons p rest ih =>
    obtain ⟨k1, v1⟩ := p
    unfold smap_insert
    by_cases h1 : k < k1
    · rw [if_pos h1]
      conv_lhs => unfold smap_find
      rw [if_neg hj]
    · rw [if_neg h1]
      by_cases h2 : k = k1
      · rw [if_pos h2]
        subst h2
        conv_lhs => unfold smap_find
        conv_rhs => unfold smap_find
        rw [if_neg hj, if_neg hj]
      · rw [if_neg h2]
        conv_lhs => unfold smap_find
        conv_rhs => unfold smap_find
        by_cases h3 : j = k1
        · rw [if_pos h3, if_pos h3]
        · rw [if_neg h3, if_neg h3]
          exact ih

theorem mem_smap_insert {V : Type} (m : List (Nat × V)) (k : Nat) (v : V) (p : Nat × V)
    (h : p ∈ smap_insert m k v) : p = (k, v) ∨ p ∈ m := by
  induction m with
  | nil => simpa [smap_insert] using h
  | cons q rest ih =>
    obtain ⟨k1, v1⟩ := q
    unfold smap_insert at h
    by_cases h1 : k < k1
    · rw [if_pos h1] at h
      rcases List.mem_cons.mp h with h | h
      · exact Or.inl h
      · exact Or.inr h
    · rw [if_neg h1] at h
      by_cases h2 : k = k1
      · rw [if_pos h2] at h
        rcases List.mem_cons.mp h with h | h
        · exact Or.inl h
        · exact Or.inr (List.mem_cons_of_mem _ h)
      · rw [if_neg h2] at h
        rcases List.mem_cons.mp h with h | h
        · exact Or.inr (by rw [h]; exact List.mem_cons_self _ _)
        · rcases ih h with h | h
          · exact Or.inl h
          · exact Or.inr (List.mem_cons_of_mem _ h)

theorem smap_find_mem {V : Type} (m : List (Nat × V)) (k : Nat) (v : V)
    (h : smap_find m k = some v) : (k, v) ∈ m := by
  induction m with
  | nil => simp [smap_find] at h
  | cons q rest ih =>
    obtain ⟨k1, v1⟩ := q
    unfold smap_find at h
    by_cases h1 : k = k1
    · rw [if_pos h1] at h
      cases h
      rw [h1]
      exact List.mem_cons_self _ _
    · rw [if_neg h1] at h
      exact List.mem_cons_of_mem _ (ih h)

/-! ## `update_talkgroup` -/

/-- C16. Stale-update skip: when the talkgroup keyed `raw & 0xFFF0` already has an entry and
`ts` is less than that entry's `release_time`, `update_talkgroup` returns false and leaves the
table unchanged; in every other case it returns true, and the entry then stored under
`raw & 0xFFF0` has `time = ts`, `release_time = 0`, the given frequency and
`status = raw & 0xF`, with `srcaddr` and `mode` overwritten only when the supplied value is
non-negative (the other fields are those of the previous entry, or of a default entry when
there was none); entries under other keys are untouched. -/
theorem update_talkgroup_spec (tgs : List (Nat × TalkgroupInfo)) (ts : ℚ) (frequency : Int)
    (tgid : Nat) (srcaddr mode : Int) :
    (∀ ti, smap_find tgs (tgid &&& 0xfff0) = some ti → ts < ti.release_time →
      update_talkgroup tgs ts frequency tgid srcaddr mode = (false, tgs)) ∧
    (∀ old, (smap_find tgs (tgid &&& 0xfff0) = some old ∧ ¬ ts < old.release_time) ∨
        (smap_find tgs (tgid &&& 0xfff0) = none ∧ old = default_tgid (tgid &&& 0xfff0)) →
      (update_talkgroup tgs ts frequency tgid srcaddr mode).1 = true ∧
      (∃ e, smap_find (update_talkgroup tgs ts frequency tgid srcaddr mode).2
          (tgid &&& 0xfff0) = some e ∧ tg_assigned old ts frequency tgid srcaddr mode e) ∧
      ∀ j, j ≠ tgid &&& 0xfff0 →
        smap_find (update_talkgroup tgs ts frequency tgid srcaddr mode).2 j =
          smap_find tgs j) := by
  constructor
  · intro ti hfind hlt
    unfold update_talkgroup
    simp only [hfind, if_pos hlt]
  · intro old hold
    unfold update_talkgroup
    rcases hold with ⟨hfind, hnlt⟩ | ⟨hfind, rfl⟩
    · simp only [hfind, if_neg hnlt]
      refine ⟨trivial, ⟨_, smap_find_insert_self _ _ _, ?_⟩,
        fun j hj => smap_find_insert_ne _ _ _ _ hj⟩
      unfold tg_assigned
      by_cases hs : srcaddr ≥ 0 <;> by_cases hm : mode ≥ 0 <;> simp [hs, hm]
    · simp only [hfind]
      refine ⟨trivial, ⟨_, smap_find_insert_self _ _ _, ?_⟩,
        fun j hj => smap_find_insert_ne _ _ _ _ hj⟩
      unfold tg_assigned
      by_cases hs : srcaddr ≥ 0 <;> by_cases hm : mode ≥ 0 <;> simp [hs, hm]

theorem update_talkgroup_spec_witness :
    update_talkgroup released_table 5 851012500 0x1234 0x2BCD 0 = (false, released_table) ∧
    (update_talkgroup [] 5 851012500 0x1234 0x2BCD 0).1 = true ∧
    ∃ e, smap_find (update_talkgroup [] 5 851012500 0x1234 0x2BCD 0).2 (0x1234 &&& 0xfff0) =
        some e ∧
      tg_assigned (default_tgid (0x1234 &&& 0xfff0)) 5 851012500 0x1234 0x2BCD 0 e :=
  ⟨(update_talkgroup_spec released_table 5 851012500 0x1234 0x2BCD 0).1 released_entry
      (by decide!) (by decide!),
    ((update_talkgroup_spec [] 5 851012500 0x1234 0x2BCD 0).2
      (default_tgid (0x1234 &&& 0xfff0)) (Or.inr ⟨rfl, rfl⟩)).1,
    ((update_talkgroup_spec [] 5 851012500 0x1234 0x2BCD 0).2
      (default_tgid (0x1234 &&& 0xfff0)) (Or.inr ⟨rfl, rfl⟩)).2.1⟩

end SmartnetParser

namespace SmartnetParser

/-! ## Talkgroup keys -/

theorem base_key_ok (x : Nat) : (x &&& 0xfff0) &&& 0xF = 0 ∧ x &&& 0xfff0 ≤ 0xFFF0 := by
  constructor
  · rw [Nat.and_assoc]
    have h : (0xfff0 : Nat) &&& 0xF = 0 := by decide
    rw [h, Nat.and_zero]
  · exact Nat.and_le_right

theorem insert_keys (tgs : List (Nat × TalkgroupInfo)) (k : Nat) (e : TalkgroupInfo)
    (h : TalkgroupKeysOK tgs) (hk1 : k &&& 0xF = 0) (hk2 : k ≤ 0xFFF0) (he : e.tgid = k) :
    TalkgroupKeysOK (smap_insert tgs k e) := by
  intro p hp
  rcases mem_smap_insert _ _ _ _ hp with rfl | hp
  · exact ⟨hk1, hk2, he⟩
  · exact h p hp

theorem update_talkgroup_keys (tgs : List (Nat × TalkgroupInfo)) (ts : ℚ) (frequency : Int)
    (tgid : Nat) (srcaddr mode : Int) (h : TalkgroupKeysOK tgs) :
    TalkgroupKeysOK (update_talkgroup tgs ts frequency tgid srcaddr mode).2 := by
  have hk := base_key_ok tgid
  unfold update_talkgroup
  simp only []
  split
  · refine insert_keys _ _ _ h hk.1 hk.2 ?_
    by_cases hs : srcaddr ≥ 0 <;> by_cases hm : mode ≥ 0 <;> simp [hs, hm, default_tgid]
  · rename_i ti hfind
    have hti : ti.tgid = tgid &&& 0xfff0 := (h _ (smap_find_mem tgs _ ti hfind)).2.2
    by_cases hlt : ts < ti.release_time
    · rw [if_pos hlt]; exact h
    · rw [if_neg hlt]
      refine insert_keys _ _ _ h hk.1 hk.2 ?_
      by_cases hs : srcaddr ≥ 0 <;> by_cases hm : mode ≥ 0 <;> simp [hs, hm, hti]

theorem update_talkgroups_keys (s : ParserState) (ts : ℚ) (frequency : Int) (tgid : Nat)
    (srcaddr mode : Int) (h : TalkgroupKeysOK s.talkgroups) :
    TalkgroupKeysOK (update_talkgroups s ts frequency tgid srcaddr mode).talkgroups := by
  have hfold : ∀ (subs : List (Nat × (ℚ × Int))) (tgs : List (Nat × TalkgroupInfo)),
      TalkgroupKeysOK tgs →
      TalkgroupKeysOK (subs.foldl
        (fun tgs p => (update_talkgroup tgs ts frequency p.1 srcaddr mode).2) tgs) := by
    intro subs
    induction subs with
    | nil => intro tgs ht; exact ht
    | cons p rest ih =>
      intro tgs ht
      exact ih _ (update_talkgroup_keys tgs ts frequency p.1 srcaddr mode ht)
  have h1 := update_talkgroup_keys s.talkgroups ts frequency tgid srcaddr mode h
  unfold update_talkgroups
  cases smap_find s.patches tgid with
  | none => exact h1
  | some subs => exact hfold subs _ h1

theorem update_voice_frequency_keys (s : ParserState) (ts freq : ℚ) (tgid : Nat)
    (srcaddr mode : Int) (h : TalkgroupKeysOK s.talkgroups) :
    TalkgroupKeysOK (update_voice_frequency s ts freq tgid srcaddr mode).talkgroups := by
  unfold update_voice_frequency
  by_cases hf : freq = 0
  · rw [if_pos hf]; exact h
  · rw [if_neg hf]
    exact update_talkgroups_keys s ts _ tgid srcaddr mode h

theorem arm_321_keys (sys : System) (s : ParserState) (osw2 : OSW)
    (h : TalkgroupKeysOK s.talkgroups) : ArmAll KeysOK (arm_321 sys s osw2) := by
  unfold arm_321
  simp only []
  repeat' first
    | (apply ArmAll_ite <;> intro _)
    | exact ArmAll_none _
    | exact ArmAll_some _ _ h
    | split

theorem arm_308_30b_keys (sys : System) (t : Int) (s : ParserState) (osw2 osw1 : OSW)
    (q1 : List OSW) (h : TalkgroupKeysOK s.talkgroups) :
    ArmAll KeysOK (arm_308_30b sys t s osw2 osw1 q1) := by
  unfold arm_308_30b
  simp only []
  repeat' first
    | (apply ArmAll_ite <;> intro _)
    | exact ArmAll_none _
    | exact ArmAll_some _ _ h
    | split

theorem arm_308_keys (sys : System) (t : Int) (s : ParserState) (osw2 : OSW)
    (h : TalkgroupKeysOK s.talkgroups) : ArmAll KeysOK (arm_308 sys t s osw2) := by
  unfold arm_308
  simp only []
  repeat' first
    | (apply ArmAll_ite <;> intro _)
    | exact ArmAll_none _
    | exact arm_308_30b_keys _ _ _ _ _ _ h
    | exact ArmAll_some _ _ (update_voice_frequency_keys _ _ _ _ _ _ h)
    | exact ArmAll_some _ _ h
    | split

theorem arm_obt_keys (sys : System) (s : ParserState) (osw2 : OSW)
    (h : TalkgroupKeysOK s.talkgroups) : ArmAll KeysOK (arm_obt sys s osw2) := by
  unfold arm_obt
  simp only []
  repeat' first
    | (apply ArmAll_ite <;> intro _)
    | exact ArmAll_none _
    | exact ArmAll_some _ _ (update_voice_frequency_keys _ _ _ _ _ _ h)
    | exact ArmAll_some _ _ h
    | split

theorem recognise_keys (sys : System) (t : Int) (s : ParserState) (osw2 : OSW)
    (h : TalkgroupKeysOK s.talkgroups) : ArmAll KeysOK (recognise sys t s osw2) := by
  unfold recognise
  simp only []
  repeat' first
    | (apply ArmAll_ite <;> intro _)
    | exact arm_obt_keys _ _ _ h
    | exact arm_308_keys _ _ _ _ h
    | exact arm_321_keys _ _ _ h
    | exact ArmAll_some _ _ (update_voice_frequency_keys _ _ _ _ _ _ h)
    | exact ArmAll_some _ _ h

theorem process_osws_keys (sys : System) (t : Int) (s : ParserState) (r : PassResult)
    (hr : process_osws sys t s = some r) (h : TalkgroupKeysOK s.talkgroups) :
    TalkgroupKeysOK r.state.talkgroups := by
  unfold process_osws at hr
  split at hr
  · cases hr; exact h
  split at hr
  · cases hr; exact h
  split at hr
  · cases hr; exact h
  split at hr
  · cases hr; exact h
  rename_i osw2 q1 b1 qr1 hres
  split at hr
  · cases hr
  rename_i out hout
  have ho : TalkgroupKeysOK out.state.talkgroups :=
    recognise_keys sys t { s with osw_q := q1 } osw2 h out hout
  split at hr <;> cases hr <;> exact ho

theorem parse_message_keys (sys : System) (t : Int) (msg : Option Message) (s : ParserState)
    (out : List TrunkMessage × ParserState) (hm : parse_message sys t msg s = some out)
    (h : TalkgroupKeysOK s.talkgroups) : TalkgroupKeysOK out.2.talkgroups := by
  unfold parse_message at hm
  split at hm
  · cases hm; exact h
  simp only [] at hm
  split at hm
  · cases hm; exact h
  split at hm
  · cases hm
  rename_i r hr
  have h1 : TalkgroupKeysOK r.state.talkgroups := by
    refine process_osws_keys sys t _ r hr ?_
    split
    · exact h
    split
    · exact h
    split
    · split
      · exact h
      · exact h
    · exact h
  cases hm
  simp only []
  split
  · exact h1
  · exact h1

theorem reachable_keys (sys : System) (s : ParserState) (h : Reachable sys s) :
    TalkgroupKeysOK s.talkgroups := by
  induction h with
  | init => intro p hp; cases hp
  | enqueue s addr grp cmd ts _ ih => exact ih
  | pass s t r _ hr ih => exact process_osws_keys sys t s r hr ih
  | message s t msg out _ hm ih => exact parse_message_keys sys t msg s out hm ih
  | update_voice_frequency s ts freq tgid srcaddr mode _ ih =>
    exact update_voice_frequency_keys s ts freq tgid srcaddr mode ih
  | update_talkgroups s ts frequency tgid srcaddr mode _ ih =>
    exact update_talkgroups_keys s ts frequency tgid srcaddr mode ih
  | update_talkgroup s ts frequency tgid srcaddr mode _ ih =>
    exact update_talkgroup_keys s.talkgroups ts frequency tgid srcaddr mode ih

/-- C15. Talkgroup-key invariant: in every state reachable from a new parser by any sequence
of `enqueue`, `process_osws`, `parse_message` and update operations, every key `k` of the
talkgroup table has `k & 0xF = 0` and `0 <= k <= 0xFFF0`, and the entry stored under `k` has
`tgid = k` (for every pair of the table, hence for the entry a lookup of `k` returns). -/
theorem talkgroup_key_invariant (sys : System) (s : ParserState) (h : Reachable sys s)
    (k : Nat) (v : TalkgroupInfo)
    (hkv : (k, v) ∈ s.talkgroups ∨ smap_find s.talkgroups k = some v) :
    k &&& 0xF = 0 ∧ 0 ≤ k ∧ k ≤ 0xFFF0 ∧ v.tgid = k := by
  have hmem : (k, v) ∈ s.talkgroups := by
    rcases hkv with hkv | hkv
    · exact hkv
    · exact smap_find_mem _ _ _ hkv
  obtain ⟨h1, h2, h3⟩ := reachable_keys sys s h (k, v) hmem
  exact ⟨h1, Nat.zero_le k, h2, h3⟩

theorem talkgroup_key_invariant_witness :
    0x1230 &&& 0xF = 0 ∧ 0 ≤ 0x1230 ∧ 0x1230 ≤ 0xFFF0 ∧ one_talkgroup_entry.tgid = 0x1230 :=
  talkgroup_key_invariant sys800 one_talkgroup_state
    (Reachable.update_talkgroup _ 5 851012500 0x1234 0x2BCD 0 Reachable.init)
    0x1230 one_talkgroup_entry (Or.inr (by decide!))

end SmartnetParser

namespace SmartnetParser

/-! ## Expiry sweep -/

/-- The message `bad_osw_msg` handled at time 100 on `one_talkgroup_state`, evaluated. -/
theorem one_talkgroup_message :
    parse_message sys800 100 (some bad_osw_msg) one_talkgroup_state =
      some one_talkgroup_out := by
  decide!

/-- C17, as stated, fails: with one talkgroup entry last seen at time 5, the message handled
at time 100 runs the expiry sweep (`last_expiry_check` becomes 100) and the entry, older than
`100 - 3`, is still in the talkgroup table. -/
theorem talkgroup_survives_sweep :
    ∃ out, parse_message sys800 100 (some bad_osw_msg) one_talkgroup_state = some out ∧
      out.2.last_expiry_check = 100 ∧
      ∃ p ∈ out.2.talkgroups, p.2.time < 100 - TGID_EXPIRY_TIME := by
  have h : (parse_message sys800 100 (some bad_osw_msg) one_talkgroup_state).map
      (fun p => (p.2.last_expiry_check, p.2.talkgroups)) =
      some (100, [(0x1230, one_talkgroup_entry)]) := by decide!
  cases hr : parse_message sys800 100 (some bad_osw_msg) one_talkgroup_state with
  | none => rw [hr] at h; cases h
  | some out =>
    rw [hr] at h
    simp only [Option.map_some', Option.some.injEq, Prod.mk.injEq] at h
    refine ⟨out, rfl, h.1, (0x1230, one_talkgroup_entry), ?_, ?_⟩
    · rw [h.2]; exact List.mem_singleton.mpr rfl
    · decide!

/-- C17, amended. The periodic expiry sweep run by `parse_message` removes no talkgroup
entry: for every message of protocol 2 handled at any time `t`, the talkgroup table after
`parse_message` is the table the pass of `process_osws` left, whatever the last-seen times
of its entries (`expire_talkgroups` keeps the table as it is). -/
theorem sweep_keeps_talkgroups (sys : System) (t : Int) (m : Message) (s : ParserState)
    (out : List TrunkMessage × ParserState) (hproto : m.type / 65536 = 2)
    (h : parse_message sys t (some m) s = some out) :
    (∀ s1 t1, expire_talkgroups s1 t1 = s1) ∧
    ∃ s1 r, s1.talkgroups = s.talkgroups ∧ process_osws sys t s1 = some r ∧
      out.1 = r.messages ∧ out.2.talkgroups = r.state.talkgroups := by
  refine ⟨fun _ _ => rfl, ?_⟩
  unfold parse_message at h
  simp only [] at h
  rw [if_neg (by rw [hproto]; decide)] at h
  split at h
  · cases h
  rename_i r hr
  refine ⟨_, r, ?_, hr, ?_, ?_⟩
  · split
    · rfl
    split
    · rfl
    split
    · split <;> rfl
    · rfl
  · cases h; rfl
  · cases h
    simp only []
    split <;> rfl

theorem sweep_keeps_talkgroups_witness :
    (∀ s1 t1, expire_talkgroups s1 t1 = s1) ∧
    ∃ s1 r, s1.talkgroups = one_talkgroup_state.talkgroups ∧
      process_osws sys800 100 s1 = some r ∧
      one_talkgroup_out.1 = r.messages ∧ one_talkgroup_out.2.talkgroups = r.state.talkgroups :=
  sweep_keeps_talkgroups sys800 100 bad_osw_msg one_talkgroup_state one_talkgroup_out
    (by decide) one_talkgroup_message

end SmartnetParser

namespace SmartnetParser

/-! ## Frequencies of the 800 and 900 plans -/

theorem cround_intCast (z : Int) : cround (z : ℚ) = z := by
  have hfl : ∀ q : ℚ, Rat.floor q = ⌊q⌋ := fun q => (Rat.floor_def' q).trans Rat.floor_def.symm
  unfold cround
  by_cases h : (0 : ℚ) ≤ z
  · rw [if_pos h, hfl, Int.floor_eq_iff]
    constructor <;> linarith
  · rw [if_neg h, hfl]
    have h2 : ⌊-(z : ℚ) + 1 / 2⌋ = -z := by
      rw [Int.floor_eq_iff]
      push_cast
      constructor <;> linarith
    rw [h2, neg_neg]

/-- When the unrounded frequency is a whole number of units of `10^-5` MHz, the rounding of
`get_freq` changes nothing. -/
theorem get_freq_of_int (sys : System) (c : Int) (is_tx : Bool) (z : Int)
    (h : get_freq_raw sys c is_tx * 100000 = z) :
    get_freq sys c is_tx = get_freq_raw sys c is_tx := by
  unfold get_freq
  rw [h, cround_intCast, ← h]
  field_simp

theorem raw_800_int (sys : System) (c : Int) (hband : (get_bandplan_details sys).band = "800") :
    ∃ z : Int, get_freq_raw sys c false * 100000 = z := by
  unfold get_freq_raw
  generalize get_bandplan_details sys = d at hband ⊢
  obtain ⟨band, reb, intl, spl, shuf⟩ := d
  simp only at hband
  subst hband
  cases reb <;> cases intl <;> cases spl <;> cases shuf
  all_goals simp only [if_true, Bool.not_false, Bool.not_true, Bool.and_true, Bool.and_false,
    Bool.false_eq_true, if_false, false_and, Bool.true_and, Bool.and_self]
  all_goals try split_ifs
  all_goals first
    | (refine ⟨0, ?_⟩; rw [zero_mul]; exact Int.cast_zero.symm)
    | (refine ⟨85101250 + 2500 * c, ?_⟩; push_cast; ring_nf; done)
    | (refine ⟨85102500 + 2500 * (c - 0x1b8), ?_⟩; push_cast; ring_nf; done)
    | (refine ⟨85100000 + 2500 * c, ?_⟩; push_cast; ring_nf; done)
    | (refine ⟨86601250 + 2500 * (c - 0x258), ?_⟩; push_cast; ring_nf; done)
    | (refine ⟨86600000 + 2500 * (c - 0x2d0), ?_⟩; push_cast; ring_nf; done)
    | (refine ⟨86700000 + 2500 * (c - 0x32f), ?_⟩; push_cast; ring_nf; done)
    | (refine ⟨86742500 + 2500 * (c - 0x3c1), ?_⟩; push_cast; ring_nf; done)
    | (refine ⟨86897500, ?_⟩; norm_num)

theorem raw_tx_800 (sys : System) (c : Int) (hband : (get_bandplan_details sys).band = "800") :
    get_freq_raw sys c true =
      if get_freq_raw sys c false ≠ 0 then get_freq_raw sys c false - 45
      else get_freq_raw sys c false := by
  unfold get_freq_raw
  generalize get_bandplan_details sys = d at hband ⊢
  obtain ⟨band, reb, intl, spl, shuf⟩ := d
  simp only at hband
  subst hband
  simp only [if_true, true_and, Bool.false_eq_true, false_and, if_false]

theorem raw_900 (sys : System) (c : Int) (hband : (get_bandplan_details sys).band = "900") :
    get_freq_raw sys c false = 935.0125 + 0.0125 * (c : ℚ) ∧
    get_freq_raw sys c true =
      if 935.0125 + 0.0125 * (c : ℚ) ≠ 0 then 935.0125 + 0.0125 * (c : ℚ) - 39
      else 935.0125 + 0.0125 * (c : ℚ) := by
  unfold get_freq_raw
  generalize get_bandplan_details sys = d at hband ⊢
  obtain ⟨band, reb, intl, spl, shuf⟩ := d
  simp only at hband
  subst hband
  have h8 : ¬ ("900" = "800") := by decide
  simp only [h8, if_false, if_true, true_and, Bool.false_eq_true, false_and, and_self]

theorem get_freq_800_rx (sys : System) (c : Int)
    (hband : (get_bandplan_details sys).band = "800") :
    get_freq sys c false = get_freq_raw sys c false := by
  obtain ⟨z, hz⟩ := raw_800_int sys c hband
  exact get_freq_of_int sys c false z hz

theorem get_freq_800_tx (sys : System) (c : Int)
    (hband : (get_bandplan_details sys).band = "800") :
    get_freq sys c true = get_freq_raw sys c true := by
  obtain ⟨z, hz⟩ := raw_800_int sys c hband
  by_cases h0 : get_freq_raw sys c false = 0
  · refine get_freq_of_int sys c true 0 ?_
    rw [raw_tx_800 sys c hband, if_neg (by simpa using h0), h0]
    norm_num
  · refine get_freq_of_int sys c true (z - 4500000) ?_
    rw [raw_tx_800 sys c hband, if_pos h0]
    push_cast
    rw [← hz]
    ring

/-- C18. TX offset and scenario 1: on the 800 standard bandplan `get_freq(0,false) = 851.0125`
and `get_freq(0,true) = 806.0125`; on every bandplan of the 800 family and for every channel
`c` with `get_freq(c,false) != 0`, `get_freq(c,true) = get_freq(c,false) - 45`; and on the 900
bandplan, for every channel `c` with `get_freq(c,false) != 0`,
`get_freq(c,true) = get_freq(c,false) - 39` (exact decimal arithmetic; the rounding to 5
decimals changes none of these values). -/
theorem tx_offset (sys : System) (c : Int) :
    (get_freq sys800 0 false = 851.0125 ∧ get_freq sys800 0 true = 806.0125) ∧
    ((get_bandplan_details sys).band = "800" → get_freq sys c false ≠ 0 →
      get_freq sys c true = get_freq sys c false - 45) ∧
    ((get_bandplan_details sys).band = "900" → get_freq sys c false ≠ 0 →
      get_freq sys c true = get_freq sys c false - 39) := by
  refine ⟨⟨by decide!, by decide!⟩, ?_, ?_⟩
  · intro hband hne
    rw [get_freq_800_rx sys c hband] at hne ⊢
    rw [get_freq_800_tx sys c hband, raw_tx_800 sys c hband, if_pos hne]
  · intro hband hne
    obtain ⟨hrx, htx⟩ := raw_900 sys c hband
    have h1 : get_freq sys c false = get_freq_raw sys c false :=
      get_freq_of_int sys c false (93501250 + 1250 * c) (by rw [hrx]; push_cast; ring)
    have hpos : (935.0125 + 0.0125 * (c : ℚ)) ≠ 0 := by
      rw [h1, hrx] at hne
      exact hne
    rw [if_pos hpos] at htx
    have h2 : get_freq sys c true = get_freq_raw sys c true :=
      get_freq_of_int sys c true (93501250 + 1250 * c - 3900000)
        (by rw [htx]; push_cast; ring)
    rw [h1, h2, hrx, htx]

theorem tx_offset_witness :
    get_freq sys800 0 true = get_freq sys800 0 false - 45 ∧
    get_freq sys900 0 true = get_freq sys900 0 false - 39 :=
  ⟨(tx_offset sys800 0).2.1 (by decide) (by decide!),
    (tx_offset sys900 0).2.2 (by decide) (by decide!)⟩

end SmartnetParser

namespace SmartnetParser

/-! ## Injectivity on the 800 standard plan -/

theorem raw_std_units (sys : System) (c : Int)
    (hd : get_bandplan_details sys = ⟨"800", false, false, false, false⟩) :
    get_freq_raw sys c false = (std800_units c : ℚ) / 80 := by
  unfold get_freq_raw std800_units
  rw [hd]
  simp only [if_true, Bool.not_false, Bool.and_true, Bool.false_eq_true, if_false, false_and]
  split_ifs <;> push_cast <;> ring

theorem is_chan_std (sys : System) (c : Int)
    (hd : get_bandplan_details sys = ⟨"800", false, false, false, false⟩)
    (hc : is_chan sys c false = true) :
    0 ≤ c ∧ ((c ≥ 0x2d0 ∧ c ≤ 0x2f7) ∨ (c ≥ 0x32f ∧ c ≤ 0x33f) ∨ (c ≥ 0x3c1 ∧ c ≤ 0x3fe) ∨
      c = 0x3be ∨ c ≤ 0x2cf) := by
  unfold is_chan at hc
  rw [hd] at hc
  simp only [if_true, Bool.not_false, Bool.and_true, Bool.false_eq_true, false_and,
    if_false] at hc
  split_ifs at hc <;> omega

/-- C19. Bandplan round trip: on the 800 standard bandplan `get_freq(., false)` is injective
on legal channels: for all channels `c` and `d` with `is_chan(c,false)` and `is_chan(d,false)`,
`get_freq(c,false) = get_freq(d,false)` implies `c = d`, so the legal channel with a given
frequency is unique. -/
theorem get_freq_injective_800_standard (sys : System)
    (hd : get_bandplan_details sys = ⟨"800", false, false, false, false⟩) (c d : Int)
    (hc : is_chan sys c false = true) (hdc : is_chan sys d false = true)
    (h : get_freq sys c false = get_freq sys d false) : c = d := by
  have hband : (get_bandplan_details sys).band = "800" := by rw [hd]
  rw [get_freq_800_rx sys c hband, get_freq_800_rx sys d hband, raw_std_units sys c hd,
    raw_std_units sys d hd] at h
  have hu : std800_units c = std800_units d := by
    field_simp at h
    exact h
  obtain ⟨hc0, hcr⟩ := is_chan_std sys c hd hc
  obtain ⟨hd0, hdr⟩ := is_chan_std sys d hd hdc
  unfold std800_units at hu
  split_ifs at hu <;> omega

theorem get_freq_injective_800_standard_witness :
    is_chan sys800 0x2cf false = true ∧ (0x2cf : Int) = 0x2cf :=
  ⟨by decide,
    get_freq_injective_800_standard sys800 details_sys800 0x2cf 0x2cf (by decide) (by decide) rfl⟩

end SmartnetParser

namespace CallConcluder

/-! ## Playable length of `create_call_data` -/

theorem loop_init_inv (call : Call) (sys : System) : LoopInv (loop_init call sys) := by
  refine ⟨rfl, ?_, ?_⟩
  · simp [loop_init]
  · simp [loop_init]

theorem loop_body_list (sys : System) (f : String → Bool) (st : LoopState) (t : Transmission) :
    (loop_body sys f st t).call_info.transmission_list =
      st.call_info.transmission_list ++ retained sys [t] := by
  unfold loop_body retained
  by_cases h : seg_len_s t < sys.min_tx_duration
  · by_cases ha : st.call_info.transmission_archive = true <;> simp [h, ha]
  · simp [h]

theorem loop_body_inv (sys : System) (f : String → Bool) (st : LoopState) (t : Transmission)
    (h : LoopInv st) : LoopInv (loop_body sys f st t) := by
  obtain ⟨h1, h2, h3⟩ := h
  unfold loop_body
  by_cases hs : seg_len_s t < sys.min_tx_duration
  · by_cases ha : st.call_info.transmission_archive = true
    · simp only [hs, ha, if_true, Bool.not_true, Bool.false_eq_true, if_false]
      exact ⟨h1, h2, h3⟩
    · simp only [hs, ha, if_true, Bool.not_eq_true, Bool.not_false]
      exact ⟨h1, h2, h3⟩
  · simp only [hs, if_false]
    refine ⟨?_, ?_, ?_⟩
    · simp [h1]
    · simp
    · simp only [h3, seg_len_s]
      push_cast
      ring

theorem foldl_inv (sys : System) (f : String → Bool) (ts : List Transmission) :
    ∀ st : LoopState, LoopInv st → LoopInv (ts.foldl (loop_body sys f) st) := by
  induction ts with
  | nil => intro st h; exact h
  | cons t ts ih => intro st h; exact ih _ (loop_body_inv sys f st t h)

theorem foldl_list (sys : System) (f : String → Bool) (ts : List Transmission) :
    ∀ st : LoopState, (ts.foldl (loop_body sys f) st).call_info.transmission_list =
      st.call_info.transmission_list ++ retained sys ts := by
  induction ts with
  | nil => intro st; simp [retained]
  | cons t ts ih =>
    intro st
    rw [List.foldl_cons, ih, loop_body_list, List.append_assoc]
    congr 1
    unfold retained
    rw [← List.filter_append]
    rfl

theorem aggregate_inv (call : Call) (sys : System) (f : String → Bool) :
    LoopInv (aggregate call sys f) :=
  foldl_inv sys f call.transmissions _ (loop_init_inv call sys)

theorem aggregate_list (call : Call) (sys : System) (f : String → Bool) :
    (aggregate call sys f).call_info.transmission_list = retained sys call.transmissions := by
  unfold aggregate
  rw [foldl_list]
  rfl

theorem finalize_list (st : LoopState) :
    (finalize st).transmission_list = st.call_info.transmission_list := by
  unfold finalize
  split <;> rfl

/-- C20. Playable length: for every call and every `min_tx_duration`, the `CallData` produced
by `create_call_data` has `call_length_ms` equal to the sum of
`max(0, stop_time_ms - start_time_ms)` over the transmissions left in its `transmission_list`,
which are exactly the retained ones (those whose duration is not below `min_tx_duration`), and
`length = call_length_ms / 1000`; when no transmission is retained, `length`,
`call_length_ms`, the start and stop times and their millisecond variants are all zero. -/
theorem playable_length (call : Call) (sys : System) (checkIfFile : String → Bool) :
    (create_call_data call sys checkIfFile).transmission_list =
      retained sys call.transmissions ∧
    (create_call_data call sys checkIfFile).call_length_ms =
      (((create_call_data call sys checkIfFile).transmission_list).map seg_ms).sum ∧
    (create_call_data call sys checkIfFile).length =
      ((create_call_data call sys checkIfFile).call_length_ms : ℚ) / 1000 ∧
    ((create_call_data call sys checkIfFile).transmission_list = [] →
      (create_call_data call sys checkIfFile).length = 0 ∧
      (create_call_data call sys checkIfFile).call_length_ms = 0 ∧
      (create_call_data call sys checkIfFile).start_time = 0 ∧
      (create_call_data call sys checkIfFile).stop_time = 0 ∧
      (create_call_data call sys checkIfFile).start_time_ms = 0 ∧
      (create_call_data call sys checkIfFile).stop_time_ms = 0) := by
  obtain ⟨h1, h2, _⟩ := aggregate_inv call sys checkIfFile
  have hl := aggregate_list call sys checkIfFile
  unfold create_call_data
  rw [finalize_list]
  generalize aggregate call sys checkIfFile = st at h1 h2 hl
  unfold finalize
  by_cases hany : st.have_any = true
  · simp only [hany, if_true]
    refine ⟨hl, h1, trivial, ?_⟩
    intro hnil
    exact absurd hnil (h2.mp hany)
  · simp only [hany, if_false]
    have hnil : st.call_info.transmission_list = [] := by
      by_contra hne
      exact hany (h2.mpr hne)
    refine ⟨hl, ?_, ?_, ?_⟩
    · rw [hnil]
      rfl
    · norm_num
    · intro _
      exact ⟨rfl, rfl, rfl, rfl, rfl, rfl⟩

theorem playable_length_witness :
    (create_call_data call_short_long sys_min1 (fun _ => true)).call_length_ms = 2000 ∧
    (create_call_data call_short_long sys_min1 (fun _ => true)).length = 2 ∧
    (create_call_data call_short_only sys_min1 (fun _ => true)).transmission_list = [] ∧
    (create_call_data call_short_only sys_min1 (fun _ => true)).length = 0 ∧
    (create_call_data call_short_only sys_min1 (fun _ => true)).call_length_ms = 0 ∧
    (create_call_data call_short_only sys_min1 (fun _ => true)).start_time = 0 ∧
    (create_call_data call_short_only sys_min1 (fun _ => true)).stop_time = 0 ∧
    (create_call_data call_short_only sys_min1 (fun _ => true)).start_time_ms = 0 ∧
    (create_call_data call_short_only sys_min1 (fun _ => true)).stop_time_ms = 0 :=
  ⟨by decide!, by decide!, by decide!,
    (playable_length call_short_only sys_min1 (fun _ => true)).2.2.2 (by decide!)⟩

end CallConcluder

namespace CallConcluder

/-! ## The loop body, case by case -/

theorem loop_body_drop (sys : System) (f : String → Bool) (st : LoopState) (t : Transmission)
    (h : seg_len_s t < sys.min_tx_duration) :
    (loop_body sys f st t).have_any = st.have_any ∧
    (loop_body sys f st t).min_start_ms = st.min_start_ms ∧
    (loop_body sys f st t).max_stop_ms = st.max_stop_ms ∧
    (loop_body sys f st t).audio_sum_ms = st.audio_sum_ms ∧
    (loop_body sys f st t).playable_pos_s = st.playable_pos_s ∧
    (loop_body sys f st t).call_info.transmission_list = st.call_info.transmission_list ∧
    (loop_body sys f st t).call_info.transmission_source_list =
      st.call_info.transmission_source_list ∧
    (loop_body sys f st t).call_info.transmission_error_list =
      st.call_info.transmission_error_list ∧
    (loop_body sys f st t).call_info.color_code = st.call_info.color_code ∧
    (loop_body sys f st t).call_info.transmission_archive =
      st.call_info.transmission_archive ∧
    (loop_body sys f st t).call_info.min_transmissions_removed =
      if st.call_info.transmission_archive = true then st.call_info.min_transmissions_removed
      else st.call_info.min_transmissions_removed + 1 := by
  unfold loop_body
  by_cases ha : st.call_info.transmission_archive = true
  · simp [h, ha]
  · simp [h, ha]

theorem loop_body_keep (sys : System) (f : String → Bool) (st : LoopState) (t : Transmission)
    (h : ¬ seg_len_s t < sys.min_tx_duration) :
    (loop_body sys f st t).have_any = true ∧
    (loop_body sys f st t).min_start_ms =
      (if st.have_any = true then
        (if t.start_time_ms < st.min_start_ms then t.start_time_ms else st.min_start_ms)
       else t.start_time_ms) ∧
    (loop_body sys f st t).max_stop_ms =
      (if st.have_any = true then
        (if t.stop_time_ms > st.max_stop_ms then t.stop_time_ms else st.max_stop_ms)
       else t.stop_time_ms) ∧
    (loop_body sys f st t).audio_sum_ms = st.audio_sum_ms + seg_ms t ∧
    (loop_body sys f st t).playable_pos_s = st.playable_pos_s + seg_len_s t ∧
    (loop_body sys f st t).call_info.transmission_list =
      st.call_info.transmission_list ++ [t] ∧
    (loop_body sys f st t).call_info.transmission_source_list =
      st.call_info.transmission_source_list ++
        [{ source := t.source, time := t.start_time, position := st.playable_pos_s,
           emergency := false, signal_system := "", tag := sys.find_unit_tag t.source }] ∧
    (loop_body sys f st t).call_info.transmission_error_list =
      st.call_info.transmission_error_list ++
        [{ time := t.start_time, position := st.playable_pos_s, total_len := seg_len_s t,
           error_count := t.error_count, spike_count := t.spike_count }] ∧
    (loop_body sys f st t).call_info.color_code =
      (if st.call_info.color_code = -1 ∧ t.color_code ≠ -1 then t.color_code
       else st.call_info.color_code) ∧
    (loop_body sys f st t).call_info.transmission_archive =
      st.call_info.transmission_archive ∧
    (loop_body sys f st t).call_info.min_transmissions_removed =
      st.call_info.min_transmissions_removed := by
  unfold loop_body
  by_cases hh : st.have_any = true
  · simp [h, hh]
  · simp [h, hh]

theorem seg_ms_nonneg (t : Transmission) : 0 ≤ seg_ms t := by
  unfold seg_ms
  exact le_max_left _ _

theorem seg_ms_of_le (t : Transmission) (h : t.start_time_ms ≤ t.stop_time_ms) :
    seg_ms t = t.stop_time_ms - t.start_time_ms := by
  unfold seg_ms
  exact max_eq_right (by omega)

theorem retained_cons_keep (sys : System) (t : Transmission) (ts : List Transmission)
    (h : ¬ seg_len_s t < sys.min_tx_duration) : retained sys (t :: ts) = t :: retained sys ts := by
  unfold retained
  rw [List.filter_cons_of_pos]
  simp [h]

theorem retained_cons_drop (sys : System) (t : Transmission) (ts : List Transmission)
    (h : seg_len_s t < sys.min_tx_duration) : retained sys (t :: ts) = retained sys ts := by
  unfold retained
  rw [List.filter_cons_of_neg]
  simp [h]

theorem finalize_times (st : LoopState) :
    (finalize st).start_time_ms = (if st.have_any = true then st.min_start_ms else 0) ∧
    (finalize st).stop_time_ms = (if st.have_any = true then st.max_stop_ms else 0) ∧
    (finalize st).call_length_ms = (if st.have_any = true then st.audio_sum_ms else 0) := by
  unfold finalize
  by_cases h : st.have_any = true <;> simp [h]

theorem finalize_keeps (st : LoopState) :
    (finalize st).transmission_source_list = st.call_info.transmission_source_list ∧
    (finalize st).transmission_error_list = st.call_info.transmission_error_list ∧
    (finalize st).color_code = st.call_info.color_code ∧
    (finalize st).min_transmissions_removed = st.call_info.min_transmissions_removed := by
  unfold finalize
  by_cases h : st.have_any = true <;> simp [h]

/-! ## The wall-clock window -/

theorem loop_init_span (call : Call) (sys : System) : SpanInv (loop_init call sys) := by
  intro h
  simp [loop_init] at h

theorem loop_body_span (sys : System) (f : String → Bool) (st : LoopState) (t : Transmission)
    (hl : LoopInv st) (h : SpanInv st) : SpanInv (loop_body sys f st t) := by
  by_cases hs : seg_len_s t < sys.min_tx_duration
  · obtain ⟨h1, h2, h3, _, _, h6, _⟩ := loop_body_drop sys f st t hs
    unfold SpanInv
    rw [h1, h2, h3, h6]
    exact h
  · obtain ⟨_, h2, h3, _, _, h6, _⟩ := loop_body_keep sys f st t hs
    intro _
    rw [h2, h3, h6]
    by_cases hany : st.have_any = true
    · obtain ⟨hall, ⟨a, ha, hmin⟩, ⟨b, hb, hmax⟩⟩ := h hany
      rw [if_pos hany, if_pos hany]
      refine ⟨?_, ?_, ?_⟩
      · intro x hx
        rcases List.mem_append.mp hx with hx | hx
        · have := hall x hx
          split_ifs <;> omega
        · rw [List.mem_singleton.mp hx]
          split_ifs <;> omega
      · by_cases hlt : t.start_time_ms < st.min_start_ms
        · exact ⟨t, by simp, by rw [if_pos hlt]⟩
        · exact ⟨a, by simp [ha], by rw [if_neg hlt]; exact hmin⟩
      · by_cases hgt : t.stop_time_ms > st.max_stop_ms
        · exact ⟨t, by simp, by rw [if_pos hgt]⟩
        · exact ⟨b, by simp [hb], by rw [if_neg hgt]; exact hmax⟩
    · have hnil : st.call_info.transmission_list = [] := by
        by_contra hne
        exact hany (hl.2.1.mpr hne)
      rw [if_neg hany, if_neg hany, hnil]
      refine ⟨?_, ⟨t, by simp, rfl⟩, ⟨t, by simp, rfl⟩⟩
      intro x hx
      simp only [List.nil_append, List.mem_singleton] at hx
      rw [hx]
      exact ⟨le_refl _, le_refl _⟩

theorem foldl_span (sys : System) (f : String → Bool) (ts : List Transmission) :
    ∀ st : LoopState, LoopInv st → SpanInv st → SpanInv (ts.foldl (loop_body sys f) st) := by
  induction ts with
  | nil => intro st _ h; exact h
  | cons t ts ih =>
    intro st hl h
    exact ih _ (loop_body_inv sys f st t hl) (loop_body_span sys f st t hl h)

theorem aggregate_span (call : Call) (sys : System) (f : String → Bool) :
    SpanInv (aggregate call sys f) :=
  foldl_span sys f call.transmissions _ (loop_init_inv call sys) (loop_init_span call sys)

/-! ## The playable sum inside the window -/

theorem loop_init_dom (call : Call) (sys : System) : DomInv (loop_init call sys) := by
  refine ⟨?_, ?_⟩
  · simp [loop_init]
  · intro h
    simp [loop_init] at h

theorem loop_body_dom (sys : System) (f : String → Bool) (st : LoopState) (t : Transmission)
    (hl : LoopInv st) (hsp : SpanInv st) (h : DomInv st)
    (hseq : Sequential (st.call_info.transmission_list ++ retained sys [t]))
    (hwf : ∀ x ∈ retained sys [t], x.start_time_ms ≤ x.stop_time_ms) :
    DomInv (loop_body sys f st t) := by
  by_cases hs : seg_len_s t < sys.min_tx_duration
  · obtain ⟨h1, h2, h3, h4, _⟩ := loop_body_drop sys f st t hs
    unfold DomInv
    rw [h1, h2, h3, h4]
    exact h
  · obtain ⟨_, h2, h3, h4, _⟩ := loop_body_keep sys f st t hs
    rw [retained_cons_keep sys t [] hs] at hseq hwf
    have hret : retained sys [] = [] := rfl
    rw [hret] at hseq hwf
    have hwt : t.start_time_ms ≤ t.stop_time_ms := hwf t (by simp)
    have hseg := seg_ms_of_le t hwt
    unfold DomInv
    rw [h2, h3, h4]
    refine ⟨by have := seg_ms_nonneg t; have := h.1; omega, fun _ => ?_⟩
    by_cases hany : st.have_any = true
    · obtain ⟨_, _, ⟨b, hb, hmax⟩⟩ := hsp hany
      have hbt : b.stop_time_ms ≤ t.start_time_ms := by
        unfold Sequential at hseq
        rw [List.pairwise_append] at hseq
        exact hseq.2.2 b hb t (by simp)
      have hd := h.2 hany
      have h0 := h.1
      rw [if_pos hany, if_pos hany, hseg]
      split_ifs <;> omega
    · rw [if_neg hany, if_neg hany, hseg]
      have hnil : st.call_info.transmission_list = [] := by
        by_contra hne
        exact hany (hl.2.1.mpr hne)
      have hz : st.audio_sum_ms = 0 := by
        rw [hl.1, hnil]
        rfl
      omega

theorem foldl_dom (sys : System) (f : String → Bool) (ts : List Transmission) :
    ∀ st : LoopState, LoopInv st → SpanInv st → DomInv st →
      Sequential (st.call_info.transmission_list ++ retained sys ts) →
      (∀ x ∈ retained sys ts, x.start_time_ms ≤ x.stop_time_ms) →
      DomInv (ts.foldl (loop_body sys f) st) := by
  induction ts with
  | nil => intro st _ _ h _ _; exact h
  | cons t ts ih =>
    intro st hl hsp h hseq hwf
    have hsplit : retained sys (t :: ts) = retained sys [t] ++ retained sys ts := by
      unfold retained
      rw [← List.filter_append]
      rfl
    rw [hsplit, ← List.append_assoc] at hseq
    rw [hsplit] at hwf
    have hseq1 : Sequential (st.call_info.transmission_list ++ retained sys [t]) := by
      unfold Sequential at hseq ⊢
      exact (List.pairwise_append.mp hseq).1
    refine ih _ (loop_body_inv sys f st t hl) (loop_body_span sys f st t hl hsp)
      (loop_body_dom sys f st t hl hsp h hseq1
        (fun x hx => hwf x (List.mem_append_left _ hx))) ?_
      (fun x hx => hwf x (List.mem_append_right _ hx))
    rw [loop_body_list]
    exact hseq

theorem aggregate_dom (call : Call) (sys : System) (f : String → Bool)
    (hseq : Sequential (retained sys call.transmissions))
    (hwf : ∀ x ∈ retained sys call.transmissions, x.start_time_ms ≤ x.stop_time_ms) :
    DomInv (aggregate call sys f) :=
  foldl_dom sys f call.transmissions _ (loop_init_inv call sys) (loop_init_span call sys)
    (loop_init_dom call sys) hseq hwf

/-- C21, as stated, fails: for two overlapping transmissions of 2.0 s each, `[0, 2000]` and
`[1000, 3000]` ms, both retained with `min_tx_duration = 1.0`, the window is 3000 ms long and
the playable length is 4000 ms. -/
theorem overlap_exceeds_span :
    (create_call_data call_overlap sys_min1 (fun _ => true)).transmission_list =
      call_overlap.transmissions ∧
    (create_call_data call_overlap sys_min1 (fun _ => true)).start_time_ms = 0 ∧
    (create_call_data call_overlap sys_min1 (fun _ => true)).stop_time_ms = 3000 ∧
    (create_call_data call_overlap sys_min1 (fun _ => true)).call_length_ms = 4000 ∧
    ¬ ((create_call_data call_overlap sys_min1 (fun _ => true)).stop_time_ms -
        (create_call_data call_overlap sys_min1 (fun _ => true)).start_time_ms ≥
      (create_call_data call_overlap sys_min1 (fun _ => true)).call_length_ms) :=
  ⟨by decide!, by decide!, by decide!, by decide!, by decide!⟩

/-- C21, amended. For every `CallData` produced by `create_call_data` (any list of
transmissions, any `min_tx_duration`), when at least one transmission is retained
`start_time_ms` is the minimum start and `stop_time_ms` the maximum stop over the retained
transmissions; and when the retained transmissions follow one another in time (each stops no
later than every later one starts) and none stops before it starts, then
`stop_time_ms - start_time_ms >= call_length_ms`. -/
theorem span_dominates_sequential (call : Call) (sys : System) (checkIfFile : String → Bool) :
    (retained sys call.transmissions ≠ [] →
      (∀ t ∈ retained sys call.transmissions,
        (create_call_data call sys checkIfFile).start_time_ms ≤ t.start_time_ms ∧
        t.stop_time_ms ≤ (create_call_data call sys checkIfFile).stop_time_ms) ∧
      (∃ t ∈ retained sys call.transmissions,
        (create_call_data call sys checkIfFile).start_time_ms = t.start_time_ms) ∧
      (∃ t ∈ retained sys call.transmissions,
        (create_call_data call sys checkIfFile).stop_time_ms = t.stop_time_ms)) ∧
    (Sequential (retained sys call.transmissions) →
      (∀ t ∈ retained sys call.transmissions, t.start_time_ms ≤ t.stop_time_ms) →
      (create_call_data call sys checkIfFile).stop_time_ms -
          (create_call_data call sys checkIfFile).start_time_ms ≥
        (create_call_data call sys checkIfFile).call_length_ms) := by
  have hl := aggregate_inv call sys checkIfFile
  have hsp := aggregate_span call sys checkIfFile
  have hlist := aggregate_list call sys checkIfFile
  refine ⟨?_, ?_⟩
  · intro hne
    have hany : (aggregate call sys checkIfFile).have_any = true := by
      apply hl.2.1.mpr
      rw [hlist]
      exact hne
    have h := hsp hany
    rw [hlist] at h
    obtain ⟨h1, h2, _⟩ := finalize_times (aggregate call sys checkIfFile)
    unfold create_call_data
    rw [h1, h2, if_pos hany, if_pos hany]
    exact h
  · intro hseq hwf
    have hd := aggregate_dom call sys checkIfFile hseq hwf
    obtain ⟨h1, h2, h3⟩ := finalize_times (aggregate call sys checkIfFile)
    unfold create_call_data
    rw [h1, h2, h3]
    by_cases hany : (aggregate call sys checkIfFile).have_any = true
    · rw [if_pos hany, if_pos hany, if_pos hany]
      have := hd.2 hany
      omega
    · rw [if_neg hany, if_neg hany, if_neg hany]
      decide

theorem span_dominates_sequential_witness :
    (create_call_data call_sequential sys_min1 (fun _ => true)).stop_time_ms -
        (create_call_data call_sequential sys_min1 (fun _ => true)).start_time_ms ≥
      (create_call_data call_sequential sys_min1 (fun _ => true)).call_length_ms ∧
    ∃ t ∈ retained sys_min1 call_sequential.transmissions,
      (create_call_data call_sequential sys_min1 (fun _ => true)).start_time_ms =
        t.start_time_ms :=
  ⟨(span_dominates_sequential call_sequential sys_min1 (fun _ => true)).2
      (by decide!) (by decide!),
    ((span_dominates_sequential call_sequential sys_min1 (fun _ => true)).1 (by decide!)).2.1⟩

end CallConcluder

namespace CallConcluder

/-! ## The minimum-duration filter -/

theorem foldl_removed (sys : System) (f : String → Bool) (ts : List Transmission) :
    ∀ st : LoopState,
      (ts.foldl (loop_body sys f) st).call_info.transmission_archive =
        st.call_info.transmission_archive ∧
      (ts.foldl (loop_body sys f) st).call_info.min_transmissions_removed =
        if st.call_info.transmission_archive = true then
          st.call_info.min_transmissions_removed
        else st.call_info.min_transmissions_removed +
          ((ts.length : Int) - ((retained sys ts).length : Int)) := by
  induction ts with
  | nil =>
    intro st
    refine ⟨rfl, ?_⟩
    simp [retained]
  | cons t ts ih =>
    intro st
    obtain ⟨ih1, ih2⟩ := ih (loop_body sys f st t)
    rw [List.foldl_cons, ih1, ih2]
    by_cases hs : seg_len_s t < sys.min_tx_duration
    · obtain ⟨_, _, _, _, _, _, _, _, _, h10, h11⟩ := loop_body_drop sys f st t hs
      rw [h10, h11, retained_cons_drop sys t ts hs]
      refine ⟨rfl, ?_⟩
      split_ifs
      · rfl
      · simp only [List.length_cons]
        push_cast
        ring
    · obtain ⟨_, _, _, _, _, _, _, _, _, h10, h11⟩ := loop_body_keep sys f st t hs
      rw [h10, h11, retained_cons_keep sys t ts hs]
      refine ⟨rfl, ?_⟩
      split_ifs
      · rfl
      · simp only [List.length_cons]
        push_cast
        ring

theorem retained_eq_filter_ge (sys : System) (ts : List Transmission) :
    retained sys ts = ts.filter (fun t => decide (sys.min_tx_duration ≤ seg_len_s t)) := by
  unfold retained
  congr 1
  funext t
  by_cases h : seg_len_s t < sys.min_tx_duration
  · simp [h]
  · simp [h, not_lt.mp h]

/-- C22. Min-duration filter: the `transmission_list` of the `CallData` produced by
`create_call_data` is exactly the sub-sequence, in original order, of the input transmissions
whose duration (`stop_ms - start_ms` floored at 0, in seconds) is `>= min_tx_duration`;
`min_transmissions_removed` equals the number of dropped transmissions when
`transmission_archive` is false and 0 when it is true; in the scenario (0.3 s and 2.0 s with
minimum 1.0, no archive) one segment is retained, `length` is 2.0, one transmission is counted
as removed and its file is deleted. -/
theorem min_duration_filter (call : Call) (sys : System) (checkIfFile : String → Bool) :
    (create_call_data call sys checkIfFile).transmission_list =
      call.transmissions.filter (fun t => decide (sys.min_tx_duration ≤ seg_len_s t)) ∧
    (sys.transmission_archive = false →
      (create_call_data call sys checkIfFile).min_transmissions_removed =
        (call.transmissions.length : Int) -
          ((create_call_data call sys checkIfFile).transmission_list.length : Int)) ∧
    (sys.transmission_archive = true →
      (create_call_data call sys checkIfFile).min_transmissions_removed = 0) ∧
    ((create_call_data call_short_long sys_min1 (fun _ => true)).transmission_list =
        [tx_at 2000 4000 "b.wav"] ∧
      (create_call_data call_short_long sys_min1 (fun _ => true)).length = 2 ∧
      (create_call_data call_short_long sys_min1 (fun _ => true)).min_transmissions_removed = 1 ∧
      (aggregate call_short_long sys_min1 (fun _ => true)).removed_files = ["a.wav"]) := by
  have hlist : (create_call_data call sys checkIfFile).transmission_list =
      retained sys call.transmissions := by
    unfold create_call_data
    rw [finalize_list, aggregate_list]
  obtain ⟨_, hrem⟩ := foldl_removed sys checkIfFile call.transmissions (loop_init call sys)
  have hrem2 : (create_call_data call sys checkIfFile).min_transmissions_removed =
      if sys.transmission_archive = true then 0
      else (call.transmissions.length : Int) - ((retained sys call.transmissions).length : Int) := by
    unfold create_call_data
    rw [(finalize_keeps _).2.2.2]
    unfold aggregate
    rw [hrem]
    simp [loop_init]
  refine ⟨?_, ?_, ?_, ⟨by decide!, by decide!, by decide!, by decide!⟩⟩
  · rw [hlist, retained_eq_filter_ge]
  · intro ha
    rw [hrem2, hlist, if_neg (by rw [ha]; decide)]
  · intro ha
    rw [hrem2, if_pos ha]

theorem min_duration_filter_witness :
    (create_call_data call_short_long sys_min1 (fun _ => true)).min_transmissions_removed =
      (call_short_long.transmissions.length : Int) -
        ((create_call_data call_short_long sys_min1 (fun _ => true)).transmission_list.length :
          Int) ∧
    (create_call_data call_short_long { sys_min1 with transmission_archive := true }
      (fun _ => true)).min_transmissions_removed = 0 :=
  ⟨(min_duration_filter call_short_long sys_min1 (fun _ => true)).2.1 rfl,
    (min_duration_filter call_short_long { sys_min1 with transmission_archive := true }
      (fun _ => true)).2.2.1 rfl⟩

/-! ## The playable timeline -/

theorem loop_init_timeline (call : Call) (sys : System) : TimelineInv (loop_init call sys) := by
  refine ⟨rfl, rfl, ?_, ?_⟩
  · simp [loop_init]
  · intro k t h
    simp [loop_init] at h

theorem loop_body_timeline (sys : System) (f : String → Bool) (st : LoopState)
    (t : Transmission) (h : TimelineInv st) : TimelineInv (loop_body sys f st t) := by
  by_cases hs : seg_len_s t < sys.min_tx_duration
  · obtain ⟨_, _, _, _, h5, h6, h7, h8, _⟩ := loop_body_drop sys f st t hs
    unfold TimelineInv
    rw [h5, h6, h7, h8]
    exact h
  · obtain ⟨_, _, _, _, h5, h6, h7, h8, _⟩ := loop_body_keep sys f st t hs
    obtain ⟨i1, i2, i3, i4⟩ := h
    unfold TimelineInv
    rw [h5, h6, h7, h8]
    refine ⟨?_, ?_, ?_, ?_⟩
    · simp [i1]
    · simp [i2]
    · simp [i3]
    · intro k x hk
      rcases Nat.lt_trichotomy k st.call_info.transmission_list.length with hlt | heq | hgt
      · rw [List.getElem?_append_left hlt] at hk
        rw [List.getElem?_append_left (by rw [i1]; exact hlt),
          List.getElem?_append_left (by rw [i2]; exact hlt),
          List.take_append_of_le_length (le_of_lt hlt)]
        exact i4 k x hk
      · rw [List.getElem?_append_right (le_of_eq heq.symm)] at hk
        rw [List.getElem?_append_right (by rw [i1]; exact le_of_eq heq.symm),
          List.getElem?_append_right (by rw [i2]; exact le_of_eq heq.symm),
          List.take_append_of_le_length (le_of_eq heq)]
        rw [heq] at hk ⊢
        simp only [Nat.sub_self, List.getElem?_cons_zero, Option.some.injEq] at hk
        subst hk
        rw [i1, i2]
        simp only [Nat.sub_self, List.getElem?_cons_zero, List.take_length]
        exact ⟨_, _, rfl, rfl, i3, i3, rfl, rfl, rfl, rfl, rfl, rfl⟩
      · rw [List.getElem?_eq_none (by simp; omega)] at hk
        cases hk

theorem foldl_timeline (sys : System) (f : String → Bool) (ts : List Transmission) :
    ∀ st : LoopState, TimelineInv st → TimelineInv (ts.foldl (loop_body sys f) st) := by
  induction ts with
  | nil => intro st h; exact h
  | cons t ts ih => intro st h; exact ih _ (loop_body_timeline sys f st t h)

/-- C23. Playable timeline: in the `CallData` produced by `create_call_data`,
`transmission_source_list` and `transmission_error_list` each have exactly one record per
retained transmission, in order; the `k`-th source record and the `k`-th error record both have
position equal to the sum of the durations (seconds) of retained transmissions `0..k-1` (so the
first is 0), and the `k`-th error record has `total_len` equal to the `k`-th retained duration
(the records also carry the source, start time and error counts of that transmission). -/
theorem playable_timeline (call : Call) (sys : System) (checkIfFile : String → Bool) :
    (create_call_data call sys checkIfFile).transmission_list =
      retained sys call.transmissions ∧
    (create_call_data call sys checkIfFile).transmission_source_list.length =
      (retained sys call.transmissions).length ∧
    (create_call_data call sys checkIfFile).transmission_error_list.length =
      (retained sys call.transmissions).length ∧
    ∀ k t, (retained sys call.transmissions)[k]? = some t →
      ∃ s e, (create_call_data call sys checkIfFile).transmission_source_list[k]? = some s ∧
        (create_call_data call sys checkIfFile).transmission_error_list[k]? = some e ∧
        s.position = (((retained sys call.transmissions).take k).map seg_len_s).sum ∧
        e.position = (((retained sys call.transmissions).take k).map seg_len_s).sum ∧
        e.total_len = seg_len_s t ∧ s.source = t.source ∧ s.time = t.start_time ∧
        e.time = t.start_time ∧ e.error_count = t.error_count ∧
        e.spike_count = t.spike_count := by
  have h := foldl_timeline sys checkIfFile call.transmissions _ (loop_init_timeline call sys)
  have hlist := aggregate_list call sys checkIfFile
  obtain ⟨k1, k2, _, _⟩ := finalize_keeps (aggregate call sys checkIfFile)
  unfold create_call_data
  rw [finalize_list, k1, k2]
  unfold TimelineInv at h
  unfold aggregate at hlist k1 k2 ⊢
  rw [hlist] at h
  exact ⟨hlist, h.1, h.2.1, h.2.2.2⟩

theorem playable_timeline_witness :
    ∃ s e,
      (create_call_data call_sequential sys_min1 (fun _ => true)).transmission_source_list[1]? =
        some s ∧
      (create_call_data call_sequential sys_min1 (fun _ => true)).transmission_error_list[1]? =
        some e ∧
      s.position = (((retained sys_min1 call_sequential.transmissions).take 1).map
        seg_len_s).sum ∧
      e.position = (((retained sys_min1 call_sequential.transmissions).take 1).map
        seg_len_s).sum ∧
      e.total_len = seg_len_s (tx_at 2500 4000 "b.wav") ∧
      s.source = (tx_at 2500 4000 "b.wav").source ∧
      s.time = (tx_at 2500 4000 "b.wav").start_time ∧
      e.time = (tx_at 2500 4000 "b.wav").start_time ∧
      e.error_count = (tx_at 2500 4000 "b.wav").error_count ∧
      e.spike_count = (tx_at 2500 4000 "b.wav").spike_count :=
  (playable_timeline call_sequential sys_min1 (fun _ => true)).2.2.2 1
    (tx_at 2500 4000 "b.wav") (by decide!)

/-! ## The color code -/

theorem foldl_color (sys : System) (f : String → Bool) (ts : List Transmission) :
    ∀ st : LoopState, st.call_info.color_code = 0 →
      (ts.foldl (loop_body sys f) st).call_info.color_code = 0 := by
  induction ts with
  | nil => intro st h; exact h
  | cons t ts ih =>
    intro st h
    apply ih
    by_cases hs : seg_len_s t < sys.min_tx_duration
    · rw [(loop_body_drop sys f st t hs).2.2.2.2.2.2.2.2.1]
      exact h
    · rw [(loop_body_keep sys f st t hs).2.2.2.2.2.2.2.2.1, h]
      rfl

/-- C24, the code: the color code of the `CallData` produced by `create_call_data` is 0
for every call, because it starts at 0 and is replaced only while it equals -1; for a call
whose only transmission is retained and has color code 5, the result is 0 and not 5. -/
theorem color_code_never_adopted (call : Call) (sys : System) (checkIfFile : String → Bool) :
    (create_call_data call sys checkIfFile).color_code = 0 ∧
    ((create_call_data call_color5 sys_min1 (fun _ => true)).transmission_list.map
        (fun t => t.color_code) = [5] ∧
      (create_call_data call_color5 sys_min1 (fun _ => true)).color_code = 0) := by
  refine ⟨?_, by decide!, by decide!⟩
  unfold create_call_data
  rw [(finalize_keeps _).2.2.1]
  exact foldl_color sys checkIfFile call.transmissions _ rfl

end CallConcluder

namespace CallConcluder

/-! ## The JSON sidecar -/

/-- After `create_call_data` the source and error lists are aligned: they have the same
length and records with the same index have the same position. -/
theorem aligned_records (call : Call) (sys : System) (f : String → Bool) :
    (create_call_data call sys f).transmission_source_list.length =
      (create_call_data call sys f).transmission_error_list.length ∧
    ∀ (i : Nat) (s : Call_Source),
      (create_call_data call sys f).transmission_source_list[i]? = some s →
      ∃ e, (create_call_data call sys f).transmission_error_list[i]? = some e ∧
        e.position = s.position := by
  have h := foldl_timeline sys f call.transmissions _ (loop_init_timeline call sys)
  obtain ⟨k1, k2, _, _⟩ := finalize_keeps (aggregate call sys f)
  unfold create_call_data
  rw [k1, k2]
  unfold aggregate
  obtain ⟨h1, h2, _, h4⟩ := h
  refine ⟨by rw [h1, h2], ?_⟩
  intro i s hs
  have hi : i < (List.foldl (loop_body sys f) (loop_init call sys)
      call.transmissions).call_info.transmission_list.length := by
    rw [← h1]
    by_contra hn
    rw [List.getElem?_eq_none (by omega)] at hs
    cases hs
  obtain ⟨s1, e, hs1, he, hsp, hep, _⟩ := h4 i _ (List.getElem?_eq_getElem hi)
  rw [hs1] at hs
  cases hs
  exact ⟨e, he, by rw [hsp, hep]⟩

/-- So on the output of `create_call_data` the position that `src_entry` reads from the
error record is the position of the source record. -/
theorem src_entry_pos_aligned (call : Call) (sys : System) (f : String → Bool) (i : Nat) :
    (src_entry (create_call_data call sys f) i).map (fun e => e.pos) =
      ((create_call_data call sys f).transmission_source_list[i]?).map
        (fun s => round2 s.position) := by
  obtain ⟨_, h⟩ := aligned_records call sys f
  unfold src_entry
  cases hs : (create_call_data call sys f).transmission_source_list[i]? with
  | none => rfl
  | some s =>
    obtain ⟨e, he, hpos⟩ := h i s hs
    rw [he]
    simp [hpos]

/-- C26, the code at the failing input: for a call of 1200 ms (`length = 1.2`) the
`call_length` written by `create_call_json` is 1, the nearest whole second, while rounding up
gives 2; a length of 1.5 is written as 2. -/
theorem call_length_rounds_to_nearest :
    (create_call_data call_1200 sys_min1 (fun _ => true)).call_length_ms = 1200 ∧
    (create_call_data call_1200 sys_min1 (fun _ => true)).length = 1200 / 1000 ∧
    (json_data (create_call_data call_1200 sys_min1 (fun _ => true))).map
      (fun j => j.call_length) = some 1 ∧
    Int.ceil ((create_call_data call_1200 sys_min1 (fun _ => true)).length) = 2 ∧
    (json_data { call7 with length := 3 / 2 }).map (fun j => j.call_length) = some 2 :=
  ⟨by decide!, by decide!, by decide!, by decide!, by decide!⟩

/-! ## The worker -/

/-- C27, the code at the failing input: `create_call_json` returns 0 or 1, never a negative
value, so the test `result < 0` of `upload_call_worker` cannot succeed; when the status file
cannot be created the worker runs the upload script and the plugin hook and returns the call
with status `SUCCESS` (the hook returned 0), not `FAILED`. -/
theorem json_failure_not_fatal :
    (∀ w opens ci, (create_call_json w opens ci).map (fun r => decide (r.2.2 < 0)) ≠
      some true) ∧
    call7.status = Call_Data_Status.INITIAL ∧
    (create_call_json world7 false call7).map (fun r => r.2.2) = some 1 ∧
    (upload_call_worker env_no_json world7 call7).map (fun r => r.2.status) =
      some Call_Data_Status.SUCCESS ∧
    (upload_call_worker env_no_json world7 call7).map
        (fun r => r.1.log.filter (fun e => match e with
          | Effect.upload_script _ => true
          | Effect.plugman_call_end _ => true
          | Effect.write_json _ => true
          | _ => false)) =
      some [Effect.upload_script "up.sh 'c.wav' 'c.json' 'c.m4a'", Effect.plugman_call_end 7] := by
  refine ⟨?_, by decide, by decide!, by decide!, by decide!⟩
  intro w opens ci
  unfold create_call_json
  cases json_data ci with
  | none => simp
  | some j => cases opens <;> simp

end CallConcluder

namespace CallConcluder

/-! ## The supervisor -/

theorem reap_worker_retry_mono (now : Int) (rand : Nat → Nat) (acc : Supervisor) (fut : Future)
    (x : Call_Data_t) (hx : x ∈ acc.retry_call_list) :
    x ∈ (reap_worker now rand acc fut).retry_call_list := by
  unfold reap_worker
  cases fut with
  | running ci => exact hx
  | ready ci =>
    simp only []
    split_ifs
    · exact hx
    · exact List.mem_append_left _ hx
    · exact hx

theorem reap_foldl_retry_mono (now : Int) (rand : Nat → Nat) (futs : List Future) :
    ∀ (acc : Supervisor) (x : Call_Data_t), x ∈ acc.retry_call_list →
      x ∈ (futs.foldl (reap_worker now rand) acc).retry_call_list := by
  induction futs with
  | nil => intro acc x hx; exact hx
  | cons fut futs ih =>
    intro acc x hx
    exact ih _ x (reap_worker_retry_mono now rand acc fut x hx)

theorem reap_worker_retry (now : Int) (rand : Nat → Nat) (acc : Supervisor) (ci : Call_Data_t)
    (hst : ci.status = Call_Data_Status.RETRY) (hk : ci.retry_attempt + 1 ≤ MAX_RETRY) :
    { ci with
      retry_attempt := ci.retry_attempt + 1,
      process_call_time := now + ((2 : Int) ^ (ci.retry_attempt + 1).toNat * 60 +
        ((rand acc.rand_calls % 10 : Nat) : Int)) } ∈
      (reap_worker now rand acc (Future.ready ci)).retry_call_list := by
  unfold reap_worker
  simp only [hst, if_true]
  rw [if_neg (not_lt.mpr hk)]
  exact List.mem_append_right _ (List.mem_singleton.mpr rfl)

/-- C28. Retry backoff: when `manage_call_data_workers` reaps a RETRY result and the
incremented `retry_attempt` `k` is at least 1 and at most `MAX_RETRY` (`k` in {1, 2}), the
call is in the retry list afterwards with `retry_attempt = k` and `process_call_time - now`
in the closed interval `[2^k * 60, 2^k * 60 + 9]`, that is `[120, 129]` for `k = 1` and
`[240, 249]` for `k = 2`, for every value of the random jitter. -/
theorem retry_backoff (now : Int) (rand : Nat → Nat) (s : Supervisor) (pre post : List Future)
    (ci : Call_Data_t) (hw : s.call_data_workers = pre ++ Future.ready ci :: post)
    (hst : ci.status = Call_Data_Status.RETRY) (_hk1 : 1 ≤ ci.retry_attempt + 1)
    (hk2 : ci.retry_attempt + 1 ≤ MAX_RETRY) :
    ∃ ci1 ∈ (manage_call_data_workers now rand s).retry_call_list,
      (∃ j, ci1 = { ci with
        retry_attempt := ci.retry_attempt + 1,
        process_call_time := now + ((2 : Int) ^ (ci.retry_attempt + 1).toNat * 60 +
          ((rand j % 10 : Nat) : Int)) }) ∧
      ci1.retry_attempt = ci.retry_attempt + 1 ∧
      (2 : Int) ^ (ci.retry_attempt + 1).toNat * 60 ≤ ci1.process_call_time - now ∧
      ci1.process_call_time - now ≤ (2 : Int) ^ (ci.retry_attempt + 1).toNat * 60 + 9 ∧
      (ci.retry_attempt + 1 = 1 →
        120 ≤ ci1.process_call_time - now ∧ ci1.process_call_time - now ≤ 129) ∧
      (ci.retry_attempt + 1 = 2 →
        240 ≤ ci1.process_call_time - now ∧ ci1.process_call_time - now ≤ 249) := by
  let acc := pre.foldl (reap_worker now rand) { s with call_data_workers := [] }
  have hj : ((rand acc.rand_calls % 10 : Nat) : Int) < 10 := by
    have := Nat.mod_lt (rand acc.rand_calls) (by decide : 10 > 0)
    omega
  have hj0 : (0 : Int) ≤ ((rand acc.rand_calls % 10 : Nat) : Int) := Int.ofNat_nonneg _
  have hpow : (0 : Int) < (2 : Int) ^ (ci.retry_attempt + 1).toNat := by positivity
  refine ⟨_, ?_, ⟨acc.rand_calls, rfl⟩, rfl, ?_, ?_, ?_, ?_⟩
  · unfold manage_call_data_workers
    simp only [hw, List.foldl_append, List.foldl_cons]
    rw [List.mem_filter]
    refine ⟨reap_foldl_retry_mono now rand post _ _
      (reap_worker_retry now rand acc ci hst hk2), ?_⟩
    simp only [Bool.not_eq_true', decide_eq_false_iff_not, not_le]
    omega
  · simp only []
    omega
  · simp only []
    omega
  · intro h1
    have hp : (2 : Int) ^ (ci.retry_attempt + 1).toNat = 2 := by rw [h1]; rfl
    simp only [hp]
    omega
  · intro h2
    have hp : (2 : Int) ^ (ci.retry_attempt + 1).toNat = 4 := by rw [h2]; rfl
    simp only [hp]
    omega

theorem retry_backoff_witness :
    ∃ ci1 ∈ (manage_call_data_workers 1000 rand0 sup_retry).retry_call_list,
      (∃ j, ci1 = { call7_retry with
        retry_attempt := call7_retry.retry_attempt + 1,
        process_call_time := 1000 + ((2 : Int) ^ (call7_retry.retry_attempt + 1).toNat * 60 +
          ((rand0 j % 10 : Nat) : Int)) }) ∧
      ci1.retry_attempt = call7_retry.retry_attempt + 1 ∧
      (2 : Int) ^ (call7_retry.retry_attempt + 1).toNat * 60 ≤ ci1.process_call_time - 1000 ∧
      ci1.process_call_time - 1000 ≤
        (2 : Int) ^ (call7_retry.retry_attempt + 1).toNat * 60 + 9 ∧
      (call7_retry.retry_attempt + 1 = 1 →
        120 ≤ ci1.process_call_time - 1000 ∧ ci1.process_call_time - 1000 ≤ 129) ∧
      (call7_retry.retry_attempt + 1 = 2 →
        240 ≤ ci1.process_call_time - 1000 ∧ ci1.process_call_time - 1000 ≤ 249) :=
  retry_backoff 1000 rand0 sup_retry [] [] call7_retry rfl rfl (by decide) (by decide)

/-! ## Retry exhaustion -/

end CallConcluder

namespace CallConcluder

/-! ## The file policy of `remove_call_files` -/

theorem checkIfFile_remove_if_file (w : World) (p q : String) :
    checkIfFile (remove_if_file w p) q = (checkIfFile w q && decide (q ≠ p)) := by
  unfold remove_if_file checkIfFile
  by_cases hp : p ∈ w.files
  · by_cases hq : q ∈ w.files <;> by_cases hqp : q = p <;> simp [hp, hq, hqp, List.mem_filter]
  · by_cases hq : q ∈ w.files <;> by_cases hqp : q = p <;> simp [hp, hq, hqp]

theorem copies_remove_if_file (w : World) (p : String) :
    copies (remove_if_file w p) = copies w := by
  unfold remove_if_file copies
  by_cases hp : checkIfFile w p = true <;> simp [hp, List.filter_append]

theorem checkIfFile_remove_transmissions (ci : Call_Data_t) (w : World) (q : String) :
    checkIfFile (remove_transmissions ci w) q =
      (checkIfFile w q && decide (q ∉ ci.transmission_list.map (fun t => t.filename))) := by
  unfold remove_transmissions
  generalize ci.transmission_list = ts
  induction ts generalizing w with
  | nil => simp
  | cons t ts ih =>
    rw [List.foldl_cons, ih, checkIfFile_remove_if_file]
    by_cases h1 : checkIfFile w q = true <;> by_cases h2 : q = t.filename <;>
      simp [h1, h2]

theorem copies_remove_transmissions (ci : Call_Data_t) (w : World) :
    copies (remove_transmissions ci w) = copies w := by
  unfold remove_transmissions
  generalize ci.transmission_list = ts
  induction ts generalizing w with
  | nil => rfl
  | cons t ts ih => rw [List.foldl_cons, ih, copies_remove_if_file]

theorem thrown_remove_if_file (w : World) (p : String) :
    (remove_if_file w p).thrown = w.thrown := by
  unfold remove_if_file
  split <;> rfl

theorem thrown_remove_transmissions (ci : Call_Data_t) (w : World) :
    (remove_transmissions ci w).thrown = w.thrown := by
  unfold remove_transmissions
  generalize ci.transmission_list = ts
  induction ts generalizing w with
  | nil => rfl
  | cons t ts ih => rw [List.foldl_cons, ih, thrown_remove_if_file]

theorem takeWhile_dropWhile_nil (p : Char → Bool) (l : List Char) :
    (l.dropWhile p).takeWhile p = [] := by
  induction l with
  | nil => rfl
  | cons a l ih =>
    by_cases h : p a = true
    · rw [List.dropWhile_cons, if_pos h]
      exact ih
    · rw [List.dropWhile_cons, if_neg h, List.takeWhile_cons, if_neg h]

theorem takeWhile_all (p : Char → Bool) (l : List Char) :
    ∀ a ∈ l.takeWhile p, p a = true := by
  induction l with
  | nil => intro a ha; exact absurd ha (List.not_mem_nil _)
  | cons b l ih =>
    intro a ha
    by_cases h : p b = true
    · rw [List.takeWhile_cons, if_pos h] at ha
      rcases List.mem_cons.mp ha with h1 | h1
      · rw [h1]
        exact h
      · exact ih a h1
    · rw [List.takeWhile_cons, if_neg h] at ha
      exact absurd ha (List.not_mem_nil _)

/-- The file name of a path whose file name has been replaced is the replacement, when that
is itself a file name. -/
theorem path_filename_replace (p q : String) :
    path_filename (replace_filename p (path_filename q)) = path_filename q := by
  unfold path_filename replace_filename
  simp only [List.reverse_append, List.reverse_reverse]
  have hall : ∀ a ∈ q.data.reverse.takeWhile (fun c => decide (c ≠ Char.ofNat 47)),
      (fun c => decide (c ≠ Char.ofNat 47)) a = true :=
    takeWhile_all _ _
  rw [List.takeWhile_append_of_pos hall, takeWhile_dropWhile_nil, List.append_nil]

theorem checkIfFile_copy_file (w w1 : World) (a b q : String) (h : copy_file w a b = some w1) :
    checkIfFile w b = false ∧ w1.files = w.files ++ [b] ∧
    w1.log = w.log ++ [Effect.copy_file a b] ∧ w1.thrown = w.thrown ∧
    checkIfFile w1 q = (checkIfFile w q || decide (q = b)) := by
  unfold copy_file at h
  by_cases hb : checkIfFile w b = true
  · rw [if_pos hb] at h
    cases h
  · rw [if_neg hb] at h
    have h1 := Option.some.inj h
    subst h1
    refine ⟨by simpa using hb, rfl, rfl, rfl, ?_⟩
    unfold checkIfFile
    by_cases hq : q ∈ w.files <;> by_cases hqb : q = b <;> simp [hq, hqb]

theorem copy_file_none (w : World) (a b : String) (h : copy_file w a b = none) :
    checkIfFile w b = true := by
  unfold copy_file at h
  by_cases hb : checkIfFile w b = true
  · exact hb
  · rw [if_neg hb] at h
    cases h

/-- The archive loop only adds files and copy effects, whether it ends normally or not. -/
theorem archive_grows (ci : Call_Data_t) (ts : List Transmission) :
    ∀ w : World,
      (∀ q, checkIfFile w q = true → checkIfFile (archive_transmissions ci ts w).1 q = true) ∧
      (archive_transmissions ci ts w).1.thrown = w.thrown ∧
      (∃ cs : List (String × String), (archive_transmissions ci ts w).1.log =
        w.log ++ cs.map (fun c => Effect.copy_file c.1 c.2)) := by
  induction ts with
  | nil => intro w; exact ⟨fun _ h => h, rfl, [], by simp [archive_transmissions]⟩
  | cons t rest ih =>
    intro w
    unfold archive_transmissions
    by_cases ht : checkIfFile w t.filename = true
    · rw [if_pos ht]
      cases hc : copy_file w t.filename (target_file ci t) with
      | none => exact ⟨fun _ h => h, rfl, [], by simp⟩
      | some w1 =>
        obtain ⟨_, _, hlog, hthr, hchk⟩ := checkIfFile_copy_file w w1 _ _ "" hc
        obtain ⟨i1, i2, cs, i3⟩ := ih w1
        refine ⟨?_, ?_, (t.filename, target_file ci t) :: cs, ?_⟩
        · intro q hq
          apply i1
          rw [(checkIfFile_copy_file w w1 _ _ q hc).2.2.2.2, hq]
          rfl
        · show (archive_transmissions ci rest w1).1.thrown = w.thrown
          rw [i2, hthr]
        · show (archive_transmissions ci rest w1).1.log = _
          rw [i3, hlog]
          simp
    · rw [if_neg ht]
      exact ih w

/-- When the archive loop ends normally, no transmission file that existed at its start had
its target in place. -/
theorem archive_ok (ci : Call_Data_t) (ts : List Transmission) :
    ∀ w : World, (archive_transmissions ci ts w).2 = false →
      ∀ t ∈ ts, checkIfFile w t.filename = true → checkIfFile w (target_file ci t) = false := by
  induction ts with
  | nil => intro w _ t ht; exact absurd ht (List.not_mem_nil _)
  | cons t0 rest ih =>
    intro w hok t ht hex
    unfold archive_transmissions at hok
    by_cases h0 : checkIfFile w t0.filename = true
    · rw [if_pos h0] at hok
      cases hc : copy_file w t0.filename (target_file ci t0) with
      | none => rw [hc] at hok; cases hok
      | some w1 =>
        rw [hc] at hok
        have hcf := fun q => (checkIfFile_copy_file w w1 _ _ q hc)
        rcases List.mem_cons.mp ht with h | h
        · rw [h]
          exact (hcf "").1
        · have h1 : checkIfFile w1 t.filename = true := by
            rw [(hcf t.filename).2.2.2.2, hex]
            rfl
          have h2 := ih w1 hok t h h1
          rw [(hcf (target_file ci t)).2.2.2.2] at h2
          cases hw : checkIfFile w (target_file ci t) with
          | false => rfl
          | true => rw [hw] at h2; simp at h2
    · rw [if_neg h0] at hok
      rcases List.mem_cons.mp ht with h | h
      · rw [h] at hex
        exact absurd hex h0
      · exact ih w hok t h hex

/-- When the archive loop ends normally, it has copied exactly the transmission files that
existed at its start, each to its target, in order. -/
theorem archive_loop (ci : Call_Data_t) (ts : List Transmission) :
    ∀ w : World, (archive_transmissions ci ts w).2 = false →
      (archive_transmissions ci ts w).1.files =
        w.files ++ (ts.filter (fun t => checkIfFile w t.filename)).map (target_file ci) ∧
      (archive_transmissions ci ts w).1.log =
        w.log ++ (ts.filter (fun t => checkIfFile w t.filename)).map
          (fun t => Effect.copy_file t.filename (target_file ci t)) := by
  induction ts with
  | nil => intro w _; simp [archive_transmissions]
  | cons t0 rest ih =>
    intro w hok
    have hok0 := hok
    unfold archive_transmissions at hok ⊢
    by_cases h0 : checkIfFile w t0.filename = true
    · rw [if_pos h0] at hok ⊢
      cases hc : copy_file w t0.filename (target_file ci t0) with
      | none => rw [hc] at hok; cases hok
      | some w1 =>
        rw [hc] at hok
        have hcf := fun q => (checkIfFile_copy_file w w1 _ _ q hc)
        have hsame : rest.filter (fun t => checkIfFile w1 t.filename) =
            rest.filter (fun t => checkIfFile w t.filename) := by
          apply List.filter_congr
          intro t ht
          rw [(hcf t.filename).2.2.2.2]
          cases hw : checkIfFile w t.filename with
          | true => rfl
          | false =>
            by_cases heq : t.filename = target_file ci t0
            · exfalso
              have h1 : checkIfFile w1 t.filename = true := by
                rw [(hcf t.filename).2.2.2.2, heq]
                simp
              have h2 := archive_ok ci rest w1 hok t ht h1
              have h3 : target_file ci t = target_file ci t0 := by
                unfold target_file
                rw [heq]
                unfold target_file
                rw [path_filename_replace]
              rw [(hcf (target_file ci t)).2.2.2.2, h3] at h2
              simp at h2
            · simp [heq]
        obtain ⟨i1, i2⟩ := ih w1 hok
        simp only [List.filter_cons, h0, if_true, List.map_cons]
        refine ⟨?_, ?_⟩
        · show (archive_transmissions ci rest w1).1.files = _
          rw [i1, hsame, (hcf "").2.1]
          simp
        · show (archive_transmissions ci rest w1).1.log = _
          rw [i2, hsame, (hcf "").2.2.1]
          simp
    · rw [if_neg h0] at hok ⊢
      simp only [List.filter_cons, h0, if_false, Bool.false_eq_true]
      exact ih w hok

theorem checkIfFile_status_step (s : Bool) (X : World) (p q : String) :
    checkIfFile (if s = true then remove_if_file X p else X) q =
      (checkIfFile X q && decide (q ∉ (if s = true then [p] else []))) := by
  cases s
  · simp
  · simp only [if_true, checkIfFile_remove_if_file, List.mem_singleton]

theorem copies_status_step (s : Bool) (X : World) (p : String) :
    copies (if s = true then remove_if_file X p else X) = copies X := by
  cases s
  · rfl
  · simp only [if_true, copies_remove_if_file]

/-- The three ways `remove_call_files` ends normally, and the one way it does not. -/
theorem remove_call_files_cases (w : World) (ci : Call_Data_t) (pf : Bool) :
    ((ci.audio_archive || (pf && ci.archive_files_on_failure)) = true ∧
      ci.transmission_archive = true ∧
      (archive_transmissions ci ci.transmission_list w).2 = true ∧
      remove_call_files w ci pf =
        { (archive_transmissions ci ci.transmission_list w).1 with thrown := true }) ∨
    ((ci.audio_archive || (pf && ci.archive_files_on_failure)) = true ∧
      ci.transmission_archive = true ∧
      (archive_transmissions ci ci.transmission_list w).2 = false ∧
      remove_call_files w ci pf =
        (if (!ci.call_log && !(pf && ci.archive_files_on_failure)) = true then
          remove_if_file (remove_transmissions ci
            (archive_transmissions ci ci.transmission_list w).1) ci.status_filename
         else remove_transmissions ci (archive_transmissions ci ci.transmission_list w).1)) ∨
    ((ci.audio_archive || (pf && ci.archive_files_on_failure)) = true ∧
      ci.transmission_archive = false ∧
      remove_call_files w ci pf =
        (if (!ci.call_log && !(pf && ci.archive_files_on_failure)) = true then
          remove_if_file (remove_transmissions ci w) ci.status_filename
         else remove_transmissions ci w)) ∨
    ((ci.audio_archive || (pf && ci.archive_files_on_failure)) = false ∧
      remove_call_files w ci pf =
        (if (!ci.call_log && !(pf && ci.archive_files_on_failure)) = true then
          remove_if_file (remove_transmissions ci
            (remove_if_file (remove_if_file w ci.filename) ci.converted)) ci.status_filename
         else remove_transmissions ci
            (remove_if_file (remove_if_file w ci.filename) ci.converted))) := by
  unfold remove_call_files
  cases hk : (ci.audio_archive || (pf && ci.archive_files_on_failure))
  · right; right; right
    simp
  · cases ha : ci.transmission_archive
    · right; right; left
      simp
    · cases hb : (archive_transmissions ci ci.transmission_list w).2
      · right; left
        simp [hb]
      · left
        simp [hb]

theorem not_mem_append3 (q : String) (l1 l2 l3 : List String) :
    decide (q ∉ l1 ++ l2 ++ l3) = (decide (q ∉ l1) && decide (q ∉ l2) && decide (q ∉ l3)) := by
  by_cases h1 : q ∈ l1 <;> by_cases h2 : q ∈ l2 <;> by_cases h3 : q ∈ l3 <;>
    simp [h1, h2, h3]

theorem not_mem_pair (q a b : String) :
    decide (q ∉ [a, b]) = (decide (q ≠ a) && decide (q ≠ b)) := by
  by_cases h1 : q = a <;> by_cases h2 : q = b <;> simp [h1, h2]

theorem checkIfFile_remove_call_files (w : World) (ci : Call_Data_t) (pf : Bool) (q : String)
    (hret : (remove_call_files w ci pf).thrown = false) :
    checkIfFile (remove_call_files w ci pf) q =
      ((checkIfFile w q || decide (q ∈ (archived w ci pf).map (target_file ci))) &&
        decide (q ∉ removed_paths ci pf)) := by
  have hrp : decide (q ∉ removed_paths ci pf) =
      (decide (q ∉ (if (ci.audio_archive || (pf && ci.archive_files_on_failure)) = true
          then ([] : List String) else [ci.filename, ci.converted])) &&
        decide (q ∉ ci.transmission_list.map (fun t => t.filename)) &&
        decide (q ∉ (if (!ci.call_log && !(pf && ci.archive_files_on_failure)) = true
          then [ci.status_filename] else []))) := by
    unfold removed_paths
    exact not_mem_append3 q _ _ _
  have hnil : decide (q ∉ ([] : List String)) = true := by simp
  rw [hrp]
  rcases remove_call_files_cases w ci pf with ⟨_, _, _, h⟩ | ⟨hk, ha, hb, h⟩ | ⟨hk, ha, h⟩ |
    ⟨hk, h⟩
  · rw [h] at hret
    cases hret
  · have harch : archived w ci pf =
        ci.transmission_list.filter (fun t => checkIfFile w t.filename) := by
      unfold archived
      rw [hk, ha]
      rfl
    have hA : checkIfFile (archive_transmissions ci ci.transmission_list w).1 q =
        (checkIfFile w q || decide (q ∈ (ci.transmission_list.filter
          (fun t => checkIfFile w t.filename)).map (target_file ci))) := by
      unfold checkIfFile
      rw [(archive_loop ci ci.transmission_list w hb).1]
      simp only [List.mem_append, Bool.decide_or]
      rfl
    rw [h, checkIfFile_status_step, checkIfFile_remove_transmissions, hA, harch, if_pos hk,
      hnil, Bool.true_and, Bool.and_assoc]
  · have harch : archived w ci pf = [] := by
      unfold archived
      rw [hk, ha]
      rfl
    rw [h, checkIfFile_status_step, checkIfFile_remove_transmissions, harch, if_pos hk,
      hnil, Bool.true_and, Bool.and_assoc]
    simp only [List.map_nil, List.not_mem_nil, decide_False, Bool.or_false]
  · have harch : archived w ci pf = [] := by
      unfold archived
      rw [hk]
      rfl
    have hk2 : ¬ (ci.audio_archive || (pf && ci.archive_files_on_failure)) = true := by
      rw [hk]
      decide
    rw [h, checkIfFile_status_step, checkIfFile_remove_transmissions,
      checkIfFile_remove_if_file, checkIfFile_remove_if_file, harch, if_neg hk2,
      not_mem_pair]
    simp only [List.map_nil, List.not_mem_nil, decide_False, Bool.or_false, Bool.and_assoc]

theorem copies_remove_call_files (w : World) (ci : Call_Data_t) (pf : Bool)
    (hret : (remove_call_files w ci pf).thrown = false) :
    copies (remove_call_files w ci pf) =
      copies w ++ (archived w ci pf).map
        (fun t => Effect.copy_file t.filename (target_file ci t)) := by
  rcases remove_call_files_cases w ci pf with ⟨_, _, _, h⟩ | ⟨hk, ha, hb, h⟩ | ⟨hk, ha, h⟩ |
    ⟨hk, h⟩
  · rw [h] at hret
    cases hret
  · rw [h, copies_status_step, copies_remove_transmissions]
    unfold archived
    simp only [hk, ha, Bool.and_self, if_true]
    unfold copies
    rw [(archive_loop ci ci.transmission_list w hb).2, List.filter_append]
    congr 1
    apply List.filter_eq_self.mpr
    intro e he
    obtain ⟨t, _, rfl⟩ := List.mem_map.mp he
    rfl
  · rw [h, copies_status_step, copies_remove_transmissions]
    unfold archived
    simp [hk, ha]
  · rw [h, copies_status_step, copies_remove_transmissions, copies_remove_if_file,
      copies_remove_if_file]
    unfold archived
    simp [hk]

/-- When `copy_file` throws, `remove_call_files` has removed nothing: every file that existed
still exists and no `std::remove` has been performed. -/
theorem copy_failure_removes_nothing (w : World) (ci : Call_Data_t) (pf : Bool)
    (hw : w.thrown = false) (hret : (remove_call_files w ci pf).thrown = true) :
    (ci.audio_archive || (pf && ci.archive_files_on_failure)) = true ∧
    ci.transmission_archive = true ∧
    (∀ q, checkIfFile w q = true → checkIfFile (remove_call_files w ci pf) q = true) ∧
    (∃ cs : List (String × String), (remove_call_files w ci pf).log =
      w.log ++ cs.map (fun c => Effect.copy_file c.1 c.2)) := by
  have hs : ∀ (s : Bool) (X : World) (p : String),
      (if s = true then remove_if_file X p else X).thrown = X.thrown := by
    intro s X p
    cases s
    · rfl
    · simp only [if_true, thrown_remove_if_file]
  rcases remove_call_files_cases w ci pf with ⟨hk, ha, _, h⟩ | ⟨_, _, _, h⟩ | ⟨_, _, h⟩ |
    ⟨_, h⟩
  · obtain ⟨g1, _, g3⟩ := archive_grows ci ci.transmission_list w
    rw [h]
    exact ⟨hk, ha, g1, g3⟩
  · rw [h, hs, thrown_remove_transmissions, (archive_grows ci ci.transmission_list w).2.1,
      hw] at hret
    cases hret
  · rw [h, hs, thrown_remove_transmissions, hw] at hret
    cases hret
  · rw [h, hs, thrown_remove_transmissions, thrown_remove_if_file, thrown_remove_if_file,
      hw] at hret
    cases hret

theorem archived_eq (w : World) (ci : Call_Data_t) (pf : Bool) :
    archived w ci pf =
      (if (ci.audio_archive || (pf && ci.archive_files_on_failure)) = true ∧
          ci.transmission_archive = true then
        ci.transmission_list.filter (fun t => checkIfFile w t.filename)
       else []) := by
  unfold archived
  cases (ci.audio_archive || (pf && ci.archive_files_on_failure)) <;>
    cases ci.transmission_archive <;> simp

/-- The archive loop at work: with the targets free, both transmission files of
`call_archive` are copied into `cap` and removed from `tmp`, and the wav and the m4a stay;
with `cap/t2.wav` in place already, the second `copy_file` throws, the first copy has been
made and nothing has been removed. -/
theorem archive_scenarios :
    (remove_call_files world_archive call_archive false).thrown = false ∧
    (remove_call_files world_archive call_archive false).files =
      ["cap/c.wav", "cap/c.m4a", "cap/t1.wav", "cap/t2.wav"] ∧
    copies (remove_call_files world_archive call_archive false) =
      [Effect.copy_file "tmp/t1.wav" "cap/t1.wav", Effect.copy_file "tmp/t2.wav" "cap/t2.wav"] ∧
    (remove_call_files world_occupied call_archive false).thrown = true ∧
    (remove_call_files world_occupied call_archive false).files =
      world_occupied.files ++ ["cap/t1.wav"] ∧
    (remove_call_files world_occupied call_archive false).log =
      [Effect.copy_file "tmp/t1.wav" "cap/t1.wav"] :=
  ⟨by decide!, by decide!, by decide!, by decide!, by decide!, by decide!⟩

/-- C30, as stated, fails. With only `audio_archive` set (no plugin failure, no
`transmission_archive`) neither of the two stated conditions holds, yet `remove_call_files`
keeps the combined wav and the converted m4a; after a plugin failure with
`archive_files_on_failure` set but `transmission_archive` off, the first condition holds, yet
no transmission file is copied (both are deleted); and with `audio_archive` and
`transmission_archive` set but a file `cap/t2.wav` in the capture directory already, the
second condition holds, yet the second transmission file is not copied: `copy_file` throws
and both transmission files stay in the temporary directory. -/
theorem audio_archive_alone_keeps_wav :
    (call7_audio.audio_archive = true ∧ call7_audio.transmission_archive = false ∧
      call7_audio.archive_files_on_failure = false ∧
      checkIfFile (remove_call_files world7 call7_audio false) "c.wav" = true ∧
      checkIfFile (remove_call_files world7 call7_audio false) "c.m4a" = true) ∧
    (call7_failure.archive_files_on_failure = true ∧
      call7_failure.transmission_archive = false ∧
      copies (remove_call_files world7 call7_failure true) = [] ∧
      checkIfFile (remove_call_files world7 call7_failure true) "t1.wav" = false ∧
      checkIfFile (remove_call_files world7 call7_failure true) "t2.wav" = false) ∧
    (call_archive.audio_archive = true ∧ call_archive.transmission_archive = true ∧
      (remove_call_files world_occupied call_archive false).thrown = true ∧
      copies (remove_call_files world_occupied call_archive false) =
        [Effect.copy_file "tmp/t1.wav" "cap/t1.wav"] ∧
      checkIfFile (remove_call_files world_occupied call_archive false) "tmp/t1.wav" = true ∧
      checkIfFile (remove_call_files world_occupied call_archive false) "tmp/t2.wav" = true) :=
  ⟨⟨by decide, by decide, by decide, by decide!, by decide!⟩,
    ⟨by decide, by decide, by decide!, by decide!, by decide!⟩,
    ⟨by decide, by decide, by decide!, by decide!, by decide!, by decide!⟩⟩

/-- C30, amended. Archive/delete policy: whenever `remove_call_files` returns normally (no
`copy_file` has thrown), it keeps the combined wav and the converted m4a exactly when
`audio_archive` or (`plugin_failure` and `archive_files_on_failure`) holds, and deletes both
otherwise; it copies each existing transmission file into the capture directory (to the file
name of the call with its last component replaced by that of the transmission file) exactly
when that condition holds and `transmission_archive` is set as well; and for every
combination of the flags it deletes all transmission files from the temporary directory. -/
theorem archive_delete_policy (w : World) (call_info : Call_Data_t) (plugin_failure : Bool)
    (hret : (remove_call_files w call_info plugin_failure).thrown = false) :
    archived w call_info plugin_failure =
      (if (call_info.audio_archive ||
            (plugin_failure && call_info.archive_files_on_failure)) = true ∧
          call_info.transmission_archive = true then
        call_info.transmission_list.filter (fun t => checkIfFile w t.filename)
       else []) ∧
    copies (remove_call_files w call_info plugin_failure) =
      copies w ++ (archived w call_info plugin_failure).map
        (fun t => Effect.copy_file t.filename (target_file call_info t)) ∧
    (∀ t ∈ call_info.transmission_list,
      checkIfFile (remove_call_files w call_info plugin_failure) t.filename = false) ∧
    ((call_info.audio_archive || (plugin_failure && call_info.archive_files_on_failure)) = true →
      ∀ q, q ∉ call_info.transmission_list.map (fun t => t.filename) →
        q ≠ call_info.status_filename →
        checkIfFile (remove_call_files w call_info plugin_failure) q =
          (checkIfFile w q ||
            decide (q ∈ (archived w call_info plugin_failure).map (target_file call_info)))) ∧
    ((call_info.audio_archive || (plugin_failure && call_info.archive_files_on_failure)) = false →
      checkIfFile (remove_call_files w call_info plugin_failure) call_info.filename = false ∧
      checkIfFile (remove_call_files w call_info plugin_failure) call_info.converted = false) := by
  refine ⟨archived_eq w call_info plugin_failure,
    copies_remove_call_files w call_info plugin_failure hret, ?_, ?_, ?_⟩
  · intro t ht
    rw [checkIfFile_remove_call_files w call_info plugin_failure _ hret]
    have hmem : t.filename ∈ removed_paths call_info plugin_failure := by
      unfold removed_paths
      apply List.mem_append_left
      apply List.mem_append_right
      exact List.mem_map.mpr ⟨t, ht, rfl⟩
    simp [hmem]
  · intro hk q hq hs
    rw [checkIfFile_remove_call_files w call_info plugin_failure _ hret]
    have hmem : q ∉ removed_paths call_info plugin_failure := by
      unfold removed_paths
      rw [if_pos hk]
      intro h
      rcases List.mem_append.mp h with h | h
      · rcases List.mem_append.mp h with h | h
        · cases h
        · exact hq h
      · split at h
        · exact hs (List.mem_singleton.mp h)
        · cases h
    simp [hmem]
  · intro hk
    have hk2 : ¬ (call_info.audio_archive ||
        (plugin_failure && call_info.archive_files_on_failure)) = true := by
      rw [hk]
      decide
    have h1 : call_info.filename ∈ removed_paths call_info plugin_failure := by
      unfold removed_paths
      rw [if_neg hk2]
      simp
    have h2 : call_info.converted ∈ removed_paths call_info plugin_failure := by
      unfold removed_paths
      rw [if_neg hk2]
      simp
    rw [checkIfFile_remove_call_files w call_info plugin_failure _ hret,
      checkIfFile_remove_call_files w call_info plugin_failure _ hret]
    simp [h1, h2]

theorem archive_delete_policy_witness :
    (remove_call_files world_archive call_archive false).thrown = false ∧
    copies (remove_call_files world_archive call_archive false) =
      copies world_archive ++ (archived world_archive call_archive false).map
        (fun t => Effect.copy_file t.filename (target_file call_archive t)) ∧
    (∀ t ∈ call_archive.transmission_list,
      checkIfFile (remove_call_files world_archive call_archive false) t.filename = false) ∧
    checkIfFile (remove_call_files world_archive call_archive false) "cap/c.wav" =
      (checkIfFile world_archive "cap/c.wav" ||
        decide ("cap/c.wav" ∈
          (archived world_archive call_archive false).map (target_file call_archive))) :=
  ⟨by decide!,
    (archive_delete_policy world_archive call_archive false (by decide!)).2.1,
    (archive_delete_policy world_archive call_archive false (by decide!)).2.2.1,
    (archive_delete_policy world_archive call_archive false (by decide!)).2.2.2.1 (by decide)
      "cap/c.wav" (by decide!) (by decide!)⟩

end CallConcluder

namespace SmartnetParser

/-! ## Consecutive reset markers -/

/-- The reset loop on a queue with two markers (a queue no sequence of messages builds: the
one place that enqueues a marker clears the queue first): on the full queue
`[reset, reset, w1, w2, w3, w4]` (`w1` the channel word of scenario 2, `w2` an idle, `w3` an
unknown word, `w4` a `0x308` header) the pass emits nothing and leaves
`[reset, w2, w3, w4]`, without the word `w1`. -/
theorem double_reset_drops_word :
    (process_osws sys800 0 double_reset_state).map (fun r => r.messages) = some [] ∧
    (process_osws sys800 0 double_reset_state).map (fun r => r.state.osw_q) =
      some [reset800, idle800, unknown800, grant_hdr800] ∧
    (process_osws sys800 0 double_reset_state).map (fun r => r.state.osw_q) ≠
      some [reset800, grant_chan800, idle800, unknown800, grant_hdr800] ∧
    grant_chan800.cmd ≠ OSW_QUEUE_RESET_CMD :=
  ⟨by decide!, by decide!, by decide!, by decide⟩

/-! ## Legal channels and their frequencies -/

/-- C38, the code at the failing input: on the rebanded 800 bandplan channel `0x230` is a
legal channel for `is_chan` but `get_freq` has no frequency for it, so the word enqueued with
`cmd = 0x230` has `ch_rx` set and `f_rx = 0`; the same holds up to channel `0x2cf`. -/
theorem rebanded_channel_without_frequency :
    get_bandplan_details sys800_reband = ⟨"800", true, false, false, false⟩ ∧
    is_chan sys800_reband 0x230 false = true ∧ get_freq sys800_reband 0x230 false = 0 ∧
    (mk_osw sys800_reband 0x1234 1 0x230 0).ch_rx = true ∧
    (mk_osw sys800_reband 0x1234 1 0x230 0).f_rx = 0 ∧
    is_chan sys800_reband 0x2cf false = true ∧ get_freq sys800_reband 0x2cf false = 0 ∧
    is_chan sys800_reband 0x22f false = true ∧ get_freq sys800_reband 0x22f false ≠ 0 :=
  ⟨by decide, by decide, by decide!, by decide, by decide!, by decide, by decide!, by decide,
    by decide!⟩

/-- On the standard and the splinter 800 bandplans every legal channel has a frequency. -/
theorem legal_channel_has_freq (sys : System) (c : Int) (spl : Bool)
    (hd : get_bandplan_details sys = ⟨"800", false, false, spl, false⟩)
    (hc : is_chan sys c false = true) : get_freq sys c false ≠ 0 := by
  have hband : (get_bandplan_details sys).band = "800" := by rw [hd]
  rw [get_freq_800_rx sys c hband]
  unfold is_chan at hc
  rw [hd] at hc
  simp only [if_true, Bool.not_false, Bool.and_true, Bool.false_eq_true, false_and,
    if_false] at hc
  have h0 : (0 : ℚ) ≤ (c : ℚ) := by
    have : 0 ≤ c := by
      by_contra hn
      rw [if_pos (by omega)] at hc
      cases hc
    exact_mod_cast this
  have hle : c ≤ 0x3fe := by
    split_ifs at hc <;> omega
  have hpos : 0 < get_freq_raw sys c false := by
    unfold get_freq_raw
    rw [hd]
    simp only [if_true, Bool.not_false, Bool.and_true, Bool.false_eq_true, false_and,
      if_false]
    have key : ∀ k : Int, k ≤ c → (k : ℚ) ≤ (c : ℚ) := fun k hk => by exact_mod_cast hk
    cases spl
    · simp only [Bool.false_eq_true, if_false]
      split_ifs with h1 h2 h3 h4 h5
      · have := key _ h1.1
        push_cast at this
        linarith
      · have := key _ h2.1
        push_cast at this
        linarith
      · have := key _ h3.1
        push_cast at this
        linarith
      · norm_num
      · linarith
      · exfalso
        split_ifs at hc
        omega
    · simp only [if_true]
      split_ifs with h1 h2 h3 h4 h5 h6
      · have := key _ h1.1
        push_cast at this
        linarith
      · have := key _ h2.1
        push_cast at this
        linarith
      · have := key _ h3.1
        push_cast at this
        linarith
      · norm_num
      · linarith
      · have := key _ h6.1
        push_cast at this
        linarith
      · exfalso
        split_ifs at hc <;> omega
  exact ne_of_gt hpos

/-! ## Queue safety of a pass -/

theorem ArmSafe_ite (P : ArmOut → Prop) (c : Prop) [Decidable c] (a b : Option ArmOut)
    (ha : c → ArmSafe P a) (hb : ¬ c → ArmSafe P b) : ArmSafe P (if c then a else b) := by
  by_cases h : c
  · rw [if_pos h]; exact ha h
  · rw [if_neg h]; exact hb h

theorem ArmSafe_some (P : ArmOut → Prop) (out : ArmOut) (h : P out) :
    ArmSafe P (some out) :=
  ⟨out, rfl, h⟩

theorem three_words (q : List OSW) (h : 3 ≤ q.length) :
    ∃ a b c rest, q = a :: b :: c :: rest := by
  match q, h with
  | a :: b :: c :: rest, _ => exact ⟨a, b, c, rest, rfl⟩

theorem arm_obt_safe (sys : System) (s : ParserState) (osw2 : OSW)
    (hlen : 3 ≤ s.osw_q.length) : ArmSafe OneMessage (arm_obt sys s osw2) := by
  obtain ⟨a, b, c, rest, hq⟩ := three_words s.osw_q hlen
  unfold arm_obt
  rw [hq]
  simp only []
  repeat' first
    | (apply ArmSafe_ite <;> intro _)
    | exact ArmSafe_some _ _ (Nat.zero_le _)
    | exact ArmSafe_some _ _ (le_refl _)

theorem arm_308_30b_safe (sys : System) (t : Int) (s : ParserState) (osw2 osw1 : OSW)
    (q1 : List OSW) (hlen : 2 ≤ q1.length) :
    ArmSafe OneMessage (arm_308_30b sys t s osw2 osw1 q1) := by
  match q1, hlen with
  | a :: b :: rest, _ =>
    unfold arm_308_30b
    simp only []
    by_cases hc : a.cmd = 0x2f8 ∧ (!a.grp) = true
    · rw [if_pos hc]
      simp only []
      repeat' first
        | (apply ArmSafe_ite <;> intro _)
        | exact ArmSafe_some _ _ (Nat.zero_le _)
    · rw [if_neg hc]
      simp only []
      repeat' first
        | (apply ArmSafe_ite <;> intro _)
        | exact ArmSafe_some _ _ (Nat.zero_le _)

theorem arm_308_safe (sys : System) (t : Int) (s : ParserState) (osw2 : OSW)
    (hlen : 3 ≤ s.osw_q.length) : ArmSafe OneMessage (arm_308 sys t s osw2) := by
  obtain ⟨a, b, c, rest, hq⟩ := three_words s.osw_q hlen
  unfold arm_308
  rw [hq]
  simp only []
  repeat' first
    | (apply ArmSafe_ite <;> intro _)
    | exact ArmSafe_some _ _ (Nat.zero_le _)
    | exact ArmSafe_some _ _ (le_refl _)
    | exact arm_308_30b_safe _ _ _ _ _ _ (by simp)

theorem arm_321_safe (sys : System) (s : ParserState) (osw2 : OSW)
    (hlen : 3 ≤ s.osw_q.length) : ArmSafe OneMessage (arm_321 sys s osw2) := by
  obtain ⟨a, b, c, rest, hq⟩ := three_words s.osw_q hlen
  unfold arm_321
  rw [hq]
  simp only []
  repeat' first
    | (apply ArmSafe_ite <;> intro _)
    | exact ArmSafe_some _ _ (Nat.zero_le _)
    | exact ArmSafe_some _ _ (le_refl _)

theorem recognise_safe (sys : System) (t : Int) (s : ParserState) (osw2 : OSW)
    (hlen : 3 ≤ s.osw_q.length) : ArmSafe OneMessage (recognise sys t s osw2) := by
  unfold recognise
  simp only []
  repeat' first
    | (apply ArmSafe_ite <;> intro _)
    | exact arm_obt_safe _ _ _ hlen
    | exact arm_308_safe _ _ _ _ hlen
    | exact arm_321_safe _ _ _ hlen
    | exact ArmSafe_some _ _ (Nat.zero_le _)
    | exact ArmSafe_some _ _ (le_refl _)

/-- A full queue that starts with two reset markers: the pass returns at once, keeping the
second marker and dropping the word behind it. -/
theorem process_osws_double_reset (sys : System) (t : Int) (s : ParserState)
    (r1 r2 w : OSW) (rest : List OSW) (hq : s.osw_q = r1 :: r2 :: w :: rest)
    (hlen : rest.length = 3) (h1 : r1.cmd = OSW_QUEUE_RESET_CMD)
    (h2 : r2.cmd = OSW_QUEUE_RESET_CMD) :
    process_osws sys t s = some ⟨[], { s with osw_q := r2 :: rest }, false, true⟩ := by
  unfold process_osws
  have e1 : s.osw_q.isEmpty = false := by rw [hq]; rfl
  have e2 : ¬ s.osw_q.length < OSW_QUEUE_SIZE := by
    rw [hq]; simp [hlen, OSW_QUEUE_SIZE]
  rw [e1, if_neg (by simp), if_neg e2, hq]
  have hres : resync r1 (r2 :: w :: rest) false default = .returned (r2 :: rest) := by
    unfold resync
    rw [if_pos h1]
    have h4 : (w :: rest).length = OSW_QUEUE_SIZE - 2 := by simp [hlen, OSW_QUEUE_SIZE]
    simp only [if_pos h4]
    unfold resync
    rw [if_pos h2]
    have h3 : ¬ rest.length = OSW_QUEUE_SIZE - 2 := by rw [hlen]; decide
    simp only [if_neg h3]
  simp only [hres]

/-- C39. Queue safety of a pass: for every queue of exactly 6 words (any contents, including
any number of reset markers) and every bandplan, `process_osws` never reads or pops the front
of an empty queue (the pass has a result), emits at most one `TrunkMessage`, and leaves the
queue with at most 6 words. -/
theorem pass_queue_safety (sys : System) (t : Int) (s : ParserState)
    (hfull : s.osw_q.length = 6) :
    ∃ r, process_osws sys t s = some r ∧ r.messages.length ≤ 1 ∧
      r.state.osw_q.length ≤ 6 := by
  have hsome : ∃ r, process_osws sys t s = some r ∧ r.messages.length ≤ 1 := by
    match hq : s.osw_q, hfull with
    | front :: a :: b :: c :: d :: e :: [], _ =>
      by_cases hf : front.cmd = OSW_QUEUE_RESET_CMD
      · by_cases ha : a.cmd = OSW_QUEUE_RESET_CMD
        · exact ⟨_, process_osws_double_reset sys t s front a b [c, d, e] hq rfl hf ha,
            Nat.zero_le _⟩
        · rw [process_osws_reset_head sys t s front a [b, c, d, e] hq rfl hf ha]
          obtain ⟨out, hout, hone⟩ :=
            recognise_safe sys t { s with osw_q := [b, c, d, e] } a (by simp)
          rw [hout]
          refine ⟨_, rfl, ?_⟩
          simp only []
          split <;> exact hone
      · rw [process_osws_plain_head sys t s front [a, b, c, d, e] hq rfl hf]
        obtain ⟨out, hout, hone⟩ :=
          recognise_safe sys t { s with osw_q := [a, b, c, d, e] } front (by simp)
        rw [hout]
        exact ⟨_, rfl, hone⟩
  obtain ⟨r, hr, hone⟩ := hsome
  exact ⟨r, hr, hone, process_osws_queue_le sys t s r hr (le_of_eq hfull)⟩

theorem pass_queue_safety_witness :
    ∃ r, process_osws sys800 0 double_reset_state = some r ∧ r.messages.length ≤ 1 ∧
      r.state.osw_q.length ≤ 6 :=
  pass_queue_safety sys800 0 double_reset_state rfl

end SmartnetParser

namespace CallConcluder

/-! ## Filename templates: the loop -/

theorem find_close_some (l tok after : List Char) (h : find_close l = some (tok, after)) :
    l = tok ++ RBRACE :: after ∧ RBRACE ∉ tok := by
  induction l generalizing tok after with
  | nil => simp [find_close] at h
  | cons c rest ih =>
    unfold find_close at h
    by_cases hc : c = RBRACE
    · rw [if_pos hc] at h
      cases h
      exact ⟨by rw [hc]; rfl, List.not_mem_nil _⟩
    · rw [if_neg hc] at h
      cases hr : find_close rest with
      | none => rw [hr] at h; cases h
      | some p =>
        rw [hr] at h
        obtain ⟨t1, a1⟩ := p
        simp only [Option.map_some', Option.some.injEq, Prod.mk.injEq] at h
        obtain ⟨h1, h2⟩ := h
        subst h1
        subst h2
        obtain ⟨e, hn⟩ := ih t1 a1 hr
        refine ⟨by rw [e]; rfl, ?_⟩
        intro hm
        rcases List.mem_cons.mp hm with hm | hm
        · exact hc hm.symm
        · exact hn hm

theorem find_close_none (l : List Char) : find_close l = none ↔ RBRACE ∉ l := by
  induction l with
  | nil => simp [find_close]
  | cons c rest ih =>
    unfold find_close
    by_cases hc : c = RBRACE
    · rw [if_pos hc]
      simp [hc]
    · rw [if_neg hc]
      simp only [Option.map_eq_none', ih, List.mem_cons, not_or]
      constructor
      · intro h
        exact ⟨fun e => hc e.symm, h⟩
      · intro h
        exact h.2

theorem find_close_of_split (tok after : List Char) (h : RBRACE ∉ tok) :
    find_close (tok ++ RBRACE :: after) = some (tok, after) := by
  induction tok with
  | nil => simp [find_close]
  | cons c rest ih =>
    have hc : c ≠ RBRACE := fun e => h (by rw [e]; exact List.mem_cons_self _ _)
    have hr : RBRACE ∉ rest := fun e => h (List.mem_cons_of_mem _ e)
    show find_close (c :: (rest ++ RBRACE :: after)) = _
    unfold find_close
    rw [if_neg hc, ih hr]
    rfl

theorem expand_loop_cons (libc : Libc) (ci : Call_Data_t) (t : Int) (fuel : Nat) (c : Char)
    (rest : List Char) :
    expand_loop libc ci t (fuel + 1) (c :: rest) =
      if c = LBRACE then
        match find_close rest with
        | none => c :: expand_loop libc ci t fuel rest
        | some (token, after) =>
          expand_token libc ci t token ++ expand_loop libc ci t fuel after
      else c :: expand_loop libc ci t fuel rest := by
  rw [expand_loop]

theorem expand_loop_fuel (libc : Libc) (ci : Call_Data_t) (t : Int) (fuel : Nat) :
    ∀ (l : List Char) (fuel1 : Nat), l.length ≤ fuel → l.length ≤ fuel1 →
      expand_loop libc ci t fuel l = expand_loop libc ci t fuel1 l := by
  induction fuel with
  | zero =>
    intro l fuel1 h _
    have hl : l = [] := List.length_eq_zero.mp (Nat.le_zero.mp h)
    subst hl
    cases fuel1 <;> rfl
  | succ n ih =>
    intro l fuel1 h h1
    cases l with
    | nil => cases fuel1 <;> rfl
    | cons c rest =>
      cases fuel1 with
      | zero => simp at h1
      | succ m =>
        simp only [List.length_cons, Nat.add_le_add_iff_right] at h h1
        rw [expand_loop_cons, expand_loop_cons]
        by_cases hc : c = LBRACE
        · rw [if_pos hc, if_pos hc]
          cases hf : find_close rest with
          | none =>
            simp only []
            rw [ih rest m h h1]
          | some p =>
            obtain ⟨tok, after⟩ := p
            simp only []
            have hlen : after.length ≤ rest.length := by
              rw [(find_close_some rest tok after hf).1]
              simp only [List.length_append, List.length_cons]
              omega
            rw [ih after m (le_trans hlen h) (le_trans hlen h1)]
        · rw [if_neg hc, if_neg hc, ih rest m h h1]

theorem expand_chars_nil (libc : Libc) (ci : Call_Data_t) (t : Int) :
    expand_chars libc ci t [] = [] := rfl

theorem expand_chars_literal (libc : Libc) (ci : Call_Data_t) (t : Int) (c : Char)
    (rest : List Char) (hc : c ≠ LBRACE) :
    expand_chars libc ci t (c :: rest) = c :: expand_chars libc ci t rest := by
  unfold expand_chars
  show expand_loop libc ci t (rest.length + 1) (c :: rest) = _
  rw [expand_loop_cons, if_neg hc]

theorem expand_chars_unclosed (libc : Libc) (ci : Call_Data_t) (t : Int)
    (rest : List Char) (hr : RBRACE ∉ rest) :
    expand_chars libc ci t (LBRACE :: rest) = LBRACE :: expand_chars libc ci t rest := by
  unfold expand_chars
  show expand_loop libc ci t (rest.length + 1) (LBRACE :: rest) = _
  rw [expand_loop_cons, if_pos rfl, (find_close_none rest).mpr hr]

theorem expand_chars_token (libc : Libc) (ci : Call_Data_t) (t : Int)
    (tok after : List Char) (ht : RBRACE ∉ tok) :
    expand_chars libc ci t (LBRACE :: (tok ++ RBRACE :: after)) =
      expand_token libc ci t tok ++ expand_chars libc ci t after := by
  unfold expand_chars
  show expand_loop libc ci t ((tok ++ RBRACE :: after).length + 1)
    (LBRACE :: (tok ++ RBRACE :: after)) = _
  rw [expand_loop_cons, if_pos rfl, find_close_of_split tok after ht]
  simp only []
  rw [expand_loop_fuel libc ci t (tok ++ RBRACE :: after).length after after.length
    (by simp only [List.length_append, List.length_cons]; omega) (le_refl _)]

/-! ## Filename templates: tokens -/

theorem expand_token_unknown (libc : Libc) (ci : Call_Data_t) (t : Int) (token : List Char)
    (hns : ¬ supported token) :
    expand_token libc ci t token = [LBRACE] ++ token ++ [RBRACE] := by
  have hn : ∀ name ∈ token_names, token ≠ name :=
    fun name hm e => hns (Or.inl (e ▸ hm))
  have ht : ¬ (token.length > 5 ∧ token.take 5 = "time:".data) :=
    fun h => hns (Or.inr (Or.inl h))
  have hz : ¬ (token.length > 6 ∧ token.take 6 = "ztime:".data) :=
    fun h => hns (Or.inr (Or.inr h))
  unfold expand_token
  rw [if_neg (hn "talkgroup".data (by decide)),
    if_neg (hn "talkgroup_tag".data (by decide)),
    if_neg (hn "talkgroup_alpha_tag".data (by decide)),
    if_neg (hn "talkgroup_description".data (by decide)),
    if_neg (hn "talkgroup_group".data (by decide)),
    if_neg (hn "talkgroup_display".data (by decide)),
    if_neg (hn "short_name".data (by decide)),
    if_neg (hn "freq".data (by decide)),
    if_neg (hn "freq_mhz".data (by decide)),
    if_neg (hn "call_num".data (by decide)),
    if_neg (hn "tdma_slot".data (by decide)),
    if_neg (hn "sys_num".data (by decide)),
    if_neg (hn "epoch".data (by decide)),
    if_neg (hn "source_num".data (by decide)),
    if_neg (hn "recorder_num".data (by decide)),
    if_neg (hn "audio_type".data (by decide)),
    if_neg (hn "emergency".data (by decide)),
    if_neg (hn "encrypted".data (by decide)),
    if_neg (hn "priority".data (by decide)),
    if_neg (hn "signal".data (by decide)),
    if_neg (hn "noise".data (by decide)),
    if_neg (hn "color_code".data (by decide)),
    if_neg ht, if_neg hz]

theorem sanitize_char_safe (c : Char) : sanitize_char c ∉ unsafe_chars := by
  unfold sanitize_char
  by_cases h : c ∈ unsafe_chars
  · rw [if_pos h]
    decide
  · rw [if_neg h]
    exact h

theorem count_sanitize (s : String) (c : Char) (hc : c ∈ unsafe_chars) :
    (sanitize_token s).data.count c = 0 := by
  apply List.count_eq_zero.mpr
  intro hm
  unfold sanitize_token at hm
  obtain ⟨x, _, hx⟩ := List.mem_map.mp hm
  exact sanitize_char_safe x (hx ▸ hc)

theorem ite_count (n : Char) (c : Prop) [Decidable c] (a b a1 b1 : List Char)
    (ha : c → a.count n = a1.count n) (hb : ¬ c → b.count n = b1.count n) :
    (if c then a else b).count n = (if c then a1 else b1).count n := by
  by_cases h : c
  · rw [if_pos h, if_pos h]; exact ha h
  · rw [if_neg h, if_neg h]; exact hb h

theorem expand_token_count (libc : Libc) (ci : Call_Data_t) (t : Int) (token : List Char)
    (s1 s2 s3 s4 s5 s6 s7 : String) (c : Char) (hc : c ∈ unsafe_chars) :
    (expand_token libc (with_strings ci s1 s2 s3 s4 s5 s6 s7) t token).count c =
      (expand_token libc ci t token).count c := by
  unfold expand_token
  repeat' first
    | (apply ite_count <;> intro _)
    | rfl
    | (rw [count_sanitize _ c hc, count_sanitize _ c hc])

end CallConcluder
namespace CallConcluder

/-! ## Filename templates: the properties -/

theorem sanitize_char_idem (c : Char) : sanitize_char (sanitize_char c) = sanitize_char c := by
  have h := sanitize_char_safe c
  generalize sanitize_char c = d at h ⊢
  unfold sanitize_char
  rw [if_neg h]

/-- C33. Token sanitisation: for every string `s`, `sanitize_token(s)` has the same length as
`s`, its `i`-th character is `_` when the `i`-th character of `s` is one of
`/ \ : * ? " < > |` and is the `i`-th character of `s` otherwise; consequently the result
contains none of those nine characters and `sanitize_token` is idempotent. -/
theorem sanitize_token_spec (s : String) :
    (sanitize_token s).length = s.length ∧
    (∀ i : Nat, (sanitize_token s).data[i]? =
      (s.data[i]?).map (fun c => if c ∈ unsafe_chars then Char.ofNat 95 else c)) ∧
    (∀ c ∈ (sanitize_token s).data, c ∉ unsafe_chars) ∧
    sanitize_token (sanitize_token s) = sanitize_token s := by
  refine ⟨?_, ?_, ?_, ?_⟩
  · show (s.data.map sanitize_char).length = s.data.length
    exact List.length_map _ _
  · intro i
    show (s.data.map sanitize_char)[i]? = _
    rw [List.getElem?_map]
    rfl
  · intro c hc
    obtain ⟨x, _, hx⟩ := List.mem_map.mp hc
    rw [← hx]
    exact sanitize_char_safe x
  · show String.mk ((s.data.map sanitize_char).map sanitize_char) = String.mk _
    rw [List.map_map]
    congr 1
    apply List.map_congr_left
    intro c _
    exact sanitize_char_idem c

theorem sanitize_token_spec_witness :
    sanitize_token "a/b:c" = "a_b_c" ∧ Char.ofNat 95 ∈ (sanitize_token "a/b:c").data ∧
    Char.ofNat 95 ∉ unsafe_chars :=
  ⟨by decide, by decide, (sanitize_token_spec "a/b:c").2.2.1 (Char.ofNat 95) (by decide)⟩

theorem template_cases (l : List Char) :
    l = [] ∨ (∃ c rest, l = c :: rest ∧ c ≠ LBRACE) ∨
    (∃ rest, l = LBRACE :: rest ∧ RBRACE ∉ rest) ∨
    (∃ tok after, l = LBRACE :: (tok ++ RBRACE :: after) ∧ RBRACE ∉ tok) := by
  cases l with
  | nil => exact Or.inl rfl
  | cons c rest =>
    by_cases hc : c = LBRACE
    · subst hc
      cases hf : find_close rest with
      | none => exact Or.inr (Or.inr (Or.inl ⟨rest, rfl, (find_close_none rest).mp hf⟩))
      | some p =>
        obtain ⟨tok, after⟩ := p
        obtain ⟨e, hn⟩ := find_close_some rest tok after hf
        exact Or.inr (Or.inr (Or.inr ⟨tok, after, by rw [e], hn⟩))
    · exact Or.inr (Or.inl ⟨c, rest, rfl, hc⟩)

theorem closed_tail (c : Char) (rest : List Char) (h : Closed (c :: rest)) : Closed rest := by
  intro pre post e
  exact h (c :: pre) post (by rw [e]; rfl)

theorem closed_after (tok after : List Char) (h : Closed (LBRACE :: (tok ++ RBRACE :: after))) :
    Closed after := by
  intro pre post e
  exact h (LBRACE :: (tok ++ RBRACE :: pre)) post (by rw [e]; simp)

theorem expand_chars_append (libc : Libc) (ci : Call_Data_t) (t : Int) (n : Nat) :
    ∀ a b : List Char, a.length ≤ n → Closed a →
      expand_chars libc ci t (a ++ b) = expand_chars libc ci t a ++ expand_chars libc ci t b := by
  induction n with
  | zero =>
    intro a b hlen _
    have ha : a = [] := List.length_eq_zero.mp (Nat.le_zero.mp hlen)
    subst ha
    rfl
  | succ n ih =>
    intro a b hlen hcl
    rcases template_cases a with rfl | ⟨c, rest, rfl, hc⟩ | ⟨rest, rfl, hr⟩ |
      ⟨tok, after, rfl, ht⟩
    · rfl
    · simp only [List.length_cons, Nat.add_le_add_iff_right] at hlen
      rw [List.cons_append, expand_chars_literal libc ci t c _ hc,
        expand_chars_literal libc ci t c _ hc, ih rest b hlen (closed_tail c rest hcl)]
      rfl
    · exact absurd (hcl [] rest rfl) hr
    · have hl : after.length ≤ n := by
        simp only [List.length_cons, List.length_append] at hlen
        omega
      have e : LBRACE :: (tok ++ RBRACE :: after) ++ b =
          LBRACE :: (tok ++ RBRACE :: (after ++ b)) := by simp
      rw [e, expand_chars_token libc ci t tok _ ht, expand_chars_token libc ci t tok _ ht,
        ih after b hl (closed_after tok after hcl), List.append_assoc]

theorem expand_chars_no_open (libc : Libc) (ci : Call_Data_t) (t : Int) (l : List Char)
    (h : LBRACE ∉ l) : expand_chars libc ci t l = l := by
  induction l with
  | nil => rfl
  | cons c rest ih =>
    have hc : c ≠ LBRACE := fun e => h (by rw [e]; exact List.mem_cons_self _ _)
    rw [expand_chars_literal libc ci t c rest hc,
      ih (fun e => h (List.mem_cons_of_mem _ e))]

theorem expand_chars_no_close (libc : Libc) (ci : Call_Data_t) (t : Int) (l : List Char)
    (h : RBRACE ∉ l) : expand_chars libc ci t l = l := by
  induction l with
  | nil => rfl
  | cons c rest ih =>
    have hr : RBRACE ∉ rest := fun e => h (List.mem_cons_of_mem _ e)
    by_cases hc : c = LBRACE
    · subst hc
      rw [expand_chars_unclosed libc ci t rest hr, ih hr]
    · rw [expand_chars_literal libc ci t c rest hc, ih hr]

theorem expand_data (libc : Libc) (format : String) (ci : Call_Data_t) (t : Int) :
    expand_filename_format libc format ci t = String.mk (expand_chars libc ci t format.data) :=
  rfl

end CallConcluder
namespace CallConcluder

/-- C34. Literal preservation: for every template containing no `{` character,
`expand_filename_format` returns the template unchanged; and every brace-delimited token
whose name is not a supported token (the empty token `{}` and `{time:}` among them) is copied
to the output character for character, wherever it stands in the template, as is an unclosed
`{` with everything behind it. -/
theorem literal_preservation (libc : Libc) (ci : Call_Data_t) (t : Int) :
    (∀ format : String, LBRACE ∉ format.data →
      expand_filename_format libc format ci t = format) ∧
    (∀ a token b : List Char, Closed a → RBRACE ∉ token → ¬ supported token →
      expand_filename_format libc (String.mk (a ++ [LBRACE] ++ token ++ [RBRACE] ++ b)) ci t =
        String.mk ((expand_filename_format libc (String.mk a) ci t).data ++ [LBRACE] ++ token ++
          [RBRACE] ++ (expand_filename_format libc (String.mk b) ci t).data)) ∧
    (∀ a rest : List Char, Closed a → RBRACE ∉ rest →
      expand_filename_format libc (String.mk (a ++ [LBRACE] ++ rest)) ci t =
        String.mk ((expand_filename_format libc (String.mk a) ci t).data ++ [LBRACE] ++ rest)) ∧
    (¬ supported [] ∧ ¬ supported "time:".data ∧ ¬ supported "ztime:".data) := by
  refine ⟨?_, ?_, ?_, by decide, by decide, by decide⟩
  · intro format h
    rw [expand_data, expand_chars_no_open libc ci t format.data h]
  · intro a token b ha ht hns
    simp only [expand_data]
    congr 1
    have e : a ++ [LBRACE] ++ token ++ [RBRACE] ++ b = a ++ LBRACE :: (token ++ RBRACE :: b) := by
      simp
    rw [e, expand_chars_append libc ci t a.length a _ (le_refl _) ha,
      expand_chars_token libc ci t token b ht, expand_token_unknown libc ci t token hns]
    simp
  · intro a rest ha hr
    simp only [expand_data]
    congr 1
    have e : a ++ [LBRACE] ++ rest = a ++ LBRACE :: rest := by simp
    have hr2 : RBRACE ∉ LBRACE :: rest := by
      intro hm
      rcases List.mem_cons.mp hm with hm | hm
      · exact absurd hm (by decide)
      · exact hr hm
    rw [e, expand_chars_append libc ci t a.length a _ (le_refl _) ha,
      expand_chars_no_close libc ci t _ hr2]
    simp

theorem literal_preservation_witness :
    expand_filename_format libc_utc "plain/name" call_pd 0 = "plain/name" ∧
    expand_filename_format libc_utc
        (String.mk ("a".data ++ [LBRACE] ++ "time:".data ++ [RBRACE] ++ "b".data)) call_pd 0 =
      String.mk ((expand_filename_format libc_utc (String.mk "a".data) call_pd 0).data ++
        [LBRACE] ++ "time:".data ++ [RBRACE] ++
        (expand_filename_format libc_utc (String.mk "b".data) call_pd 0).data) ∧
    expand_filename_format libc_utc (String.mk ("a".data ++ [LBRACE] ++ "freq".data))
        call_pd 0 =
      String.mk ((expand_filename_format libc_utc (String.mk "a".data) call_pd 0).data ++
        [LBRACE] ++ "freq".data) :=
  ⟨(literal_preservation libc_utc call_pd 0).1 "plain/name" (by decide),
    (literal_preservation libc_utc call_pd 0).2.1 "a".data "time:".data "b".data
      (by intro pre post e
          have hm : LBRACE ∈ "a".data := by rw [e]; simp
          exact absurd hm (by decide))
      (by decide) (by decide),
    (literal_preservation libc_utc call_pd 0).2.2.1 "a".data "freq".data
      (by intro pre post e
          have hm : LBRACE ∈ "a".data := by rw [e]; simp
          exact absurd hm (by decide))
      (by decide)⟩

theorem closed_token (token : List Char) : Closed ([LBRACE] ++ token ++ [RBRACE]) := by
  intro pre post e
  have h1 : ([LBRACE] ++ token ++ [RBRACE]).getLast? = some RBRACE := List.getLast?_concat _
  rw [e] at h1
  cases post with
  | nil =>
    have h2 : (pre ++ [LBRACE]).getLast? = some LBRACE := List.getLast?_concat _
    rw [h2] at h1
    exact absurd h1 (by decide)
  | cons p ps =>
    have e2 : pre ++ LBRACE :: p :: ps = (pre ++ [LBRACE]) ++ (p :: ps) := by simp
    rw [e2, List.getLast?_append_of_ne_nil _ (List.cons_ne_nil p ps)] at h1
    exact List.mem_of_getLast?_eq_some h1

/-- C35. Expansion is deterministic and compositional: for equal (template, call_info,
start_time) the output is equal, and for all templates `a` and `b` such that every `{` in `a`
is followed by a `}` inside `a`, `expand(a ++ b) = expand(a) ++ expand(b)`; hence a token
followed by any text, also by the same token again, expands to the same text as on its
own. -/
theorem expansion_compositional (libc : Libc) :
    (∀ (f1 f2 : String) (ci1 ci2 : Call_Data_t) (t1 t2 : Int), f1 = f2 → ci1 = ci2 → t1 = t2 →
      expand_filename_format libc f1 ci1 t1 = expand_filename_format libc f2 ci2 t2) ∧
    (∀ (a b : String) (ci : Call_Data_t) (t : Int), Closed a.data →
      expand_filename_format libc (a ++ b) ci t =
        expand_filename_format libc a ci t ++ expand_filename_format libc b ci t) ∧
    (∀ (token : List Char) (b : String) (ci : Call_Data_t) (t : Int),
      expand_filename_format libc (String.mk ([LBRACE] ++ token ++ [RBRACE]) ++ b) ci t =
        expand_filename_format libc (String.mk ([LBRACE] ++ token ++ [RBRACE])) ci t ++
          expand_filename_format libc b ci t) := by
  have hcomp : ∀ (a b : String) (ci : Call_Data_t) (t : Int), Closed a.data →
      expand_filename_format libc (a ++ b) ci t =
        expand_filename_format libc a ci t ++ expand_filename_format libc b ci t := by
    intro a b ci t ha
    simp only [expand_data]
    rw [String.data_append, expand_chars_append libc ci t a.data.length a.data b.data
      (le_refl _) ha]
    rfl
  refine ⟨?_, hcomp, ?_⟩
  · intro f1 f2 ci1 ci2 t1 t2 hf hci ht
    rw [hf, hci, ht]
  · intro token b ci t
    exact hcomp _ b ci t (closed_token token)

theorem expansion_compositional_witness :
    expand_filename_format libc_utc ("\x7bfreq\x7d" ++ "\x7bfreq\x7d") call_pd 0 =
      expand_filename_format libc_utc "\x7bfreq\x7d" call_pd 0 ++
        expand_filename_format libc_utc "\x7bfreq\x7d" call_pd 0 :=
  (expansion_compositional libc_utc).2.1 "\x7bfreq\x7d" "\x7bfreq\x7d" call_pd 0
    (closed_token "freq".data)

end CallConcluder
namespace CallConcluder

theorem expand_loop_pieces (libc : Libc) (ci : Call_Data_t) (t : Int) (fuel : Nat) :
    ∀ l : List Char, expand_loop libc ci t fuel l =
      ((parse_loop fuel l).map (render libc ci t)).flatten := by
  induction fuel with
  | zero => intro l; rfl
  | succ n ih =>
    intro l
    cases l with
    | nil => rfl
    | cons c rest =>
      rw [expand_loop_cons]
      rw [parse_loop]
      by_cases hc : c = LBRACE
      · rw [if_pos hc, if_pos hc]
        cases find_close rest with
        | none =>
          simp only [List.map_cons, List.flatten_cons, render]
          rw [ih rest]
          rfl
        | some p =>
          obtain ⟨tok, after⟩ := p
          simp only [List.map_cons, List.flatten_cons, render]
          rw [ih after]
      · rw [if_neg hc, if_neg hc]
        simp only [List.map_cons, List.flatten_cons, render]
        rw [ih rest]
        rfl

theorem render_count (libc : Libc) (ci : Call_Data_t) (t : Int) (p : Piece)
    (s1 s2 s3 s4 s5 s6 s7 : String) (c : Char) (hc : c ∈ unsafe_chars) :
    (render libc (with_strings ci s1 s2 s3 s4 s5 s6 s7) t p).count c =
      (render libc ci t p).count c := by
  cases p with
  | literal x => rfl
  | token name => exact expand_token_count libc ci t name s1 s2 s3 s4 s5 s6 s7 c hc

theorem flatten_count (c : Char) (f g : Piece → List Char) (ps : List Piece)
    (h : ∀ p ∈ ps, (f p).count c = (g p).count c) :
    ((ps.map f).flatten).count c = ((ps.map g).flatten).count c := by
  induction ps with
  | nil => rfl
  | cons p ps ih =>
    simp only [List.map_cons, List.flatten_cons, List.count_append]
    rw [h p (List.mem_cons_self _ _), ih (fun q hq => h q (List.mem_cons_of_mem _ hq))]

/-- C40. Token values cannot inject path separators: for every template and every two
`call_info` values that differ only in their string fields (`talkgroup_tag`,
`talkgroup_alpha_tag`, `talkgroup_description`, `talkgroup_group`, `talkgroup_display`,
`short_name`, `audio_type`), both expanded filenames are the concatenation of the texts of
the same pieces of the template (its literal characters and its tokens, in order), each
piece contributes the same number of `/` and of `\` characters to both, and so the two
filenames contain the same number of `/` and of `\` characters. -/
theorem separators_from_template (libc : Libc) (format : String) (ci : Call_Data_t) (t : Int)
    (s1 s2 s3 s4 s5 s6 s7 : String) :
    (expand_filename_format libc format ci t).data =
      ((parse_template format).map (render libc ci t)).flatten ∧
    (expand_filename_format libc format (with_strings ci s1 s2 s3 s4 s5 s6 s7) t).data =
      ((parse_template format).map
        (render libc (with_strings ci s1 s2 s3 s4 s5 s6 s7) t)).flatten ∧
    (∀ p ∈ parse_template format,
      (render libc (with_strings ci s1 s2 s3 s4 s5 s6 s7) t p).count (Char.ofNat 47) =
        (render libc ci t p).count (Char.ofNat 47) ∧
      (render libc (with_strings ci s1 s2 s3 s4 s5 s6 s7) t p).count (Char.ofNat 92) =
        (render libc ci t p).count (Char.ofNat 92)) ∧
    (expand_filename_format libc format (with_strings ci s1 s2 s3 s4 s5 s6 s7) t).data.count
        (Char.ofNat 47) =
      (expand_filename_format libc format ci t).data.count (Char.ofNat 47) ∧
    (expand_filename_format libc format (with_strings ci s1 s2 s3 s4 s5 s6 s7) t).data.count
        (Char.ofNat 92) =
      (expand_filename_format libc format ci t).data.count (Char.ofNat 92) := by
  have e1 : ∀ ci1 : Call_Data_t, (expand_filename_format libc format ci1 t).data =
      ((parse_template format).map (render libc ci1 t)).flatten :=
    fun ci1 => expand_loop_pieces libc ci1 t format.length format.data
  have h47 : Char.ofNat 47 ∈ unsafe_chars := by decide
  have h92 : Char.ofNat 92 ∈ unsafe_chars := by decide
  refine ⟨e1 ci, e1 _, ?_, ?_, ?_⟩
  · intro p _
    exact ⟨render_count libc ci t p s1 s2 s3 s4 s5 s6 s7 _ h47,
      render_count libc ci t p s1 s2 s3 s4 s5 s6 s7 _ h92⟩
  · rw [e1, e1]
    exact flatten_count _ _ _ _
      (fun p _ => render_count libc ci t p s1 s2 s3 s4 s5 s6 s7 _ h47)
  · rw [e1, e1]
    exact flatten_count _ _ _ _
      (fun p _ => render_count libc ci t p s1 s2 s3 s4 s5 s6 s7 _ h92)

theorem separators_from_template_witness :
    expand_filename_format libc_utc template8 call_slashes 1705330252 =
      ".._PD/101/2024-01-15T14:50:52-851.0125" ∧
    (render libc_utc call_slashes 1705330252 (Piece.token "short_name".data)).count
        (Char.ofNat 47) =
      (render libc_utc call_pd 1705330252 (Piece.token "short_name".data)).count
        (Char.ofNat 47) :=
  ⟨by decide!,
    ((separators_from_template libc_utc template8 call_pd 1705330252 "a/b" "c\\d" "e:f" "g*h"
      "i?j" "../PD" "k|l").2.2.1 (Piece.token "short_name".data) (by decide!)).1⟩

/-- C32, as stated, fails: with the time zone pinned to UTC the expansion of scenario 8 is
not `PD/101/2024-01-15T14:10:52-851.0125`. -/
theorem scenario8_expected_fails :
    expand_filename_format libc_utc template8 call_pd 1705330252 ≠
      "PD/101/2024-01-15T14:10:52-851.0125" := by
  decide!

/-- C32, amended. Filename template scenario 8: with the time zone pinned to UTC,
`expand_filename_format("{short_name}/{talkgroup}/{time:iso}-{freq_mhz}")` for
`short_name = "PD"`, `talkgroup = 101`, `start_time = 1705330252` and `freq = 851012500`
returns `PD/101/2024-01-15T14:50:52-851.0125` (1705330252 s is 14:50:52 UTC on
2024-01-15). -/
theorem scenario8_filename :
    template8.data = [LBRACE] ++ "short_name".data ++ [RBRACE] ++ "/".data ++ [LBRACE] ++
      "talkgroup".data ++ [RBRACE] ++ "/".data ++ [LBRACE] ++ "time:iso".data ++ [RBRACE] ++
      "-".data ++ [LBRACE] ++ "freq_mhz".data ++ [RBRACE] ∧
    call_pd.short_name = "PD" ∧ call_pd.talkgroup = 101 ∧ call_pd.freq = 851012500 ∧
    libc_utc.localtime 1705330252 =
      some { tm_year := 124, tm_mon := 0, tm_mday := 15, tm_hour := 14, tm_min := 50,
             tm_sec := 52 } ∧
    expand_filename_format libc_utc template8 call_pd 1705330252 =
      "PD/101/2024-01-15T14:50:52-851.0125" :=
  ⟨by decide, by decide, by decide, by decide!, by decide, by decide!⟩

end CallConcluder

namespace CallConcluder

/-! ## Dispatch (`conclude_call`) -/

theorem mapM_option_some {β : Type} (f : Nat → Option β) (l : List Nat)
    (h : ∀ i ∈ l, ∃ b, f i = some b) : ∃ bs, l.mapM f = some bs := by
  induction l with
  | nil => exact ⟨[], rfl⟩
  | cons a rest ih =>
    obtain ⟨b, hb⟩ := h a (List.mem_cons_self _ _)
    obtain ⟨bs, hbs⟩ := ih (fun i hi => h i (List.mem_cons_of_mem _ hi))
    refine ⟨b :: bs, ?_⟩
    rw [List.mapM_cons, hb, hbs]
    rfl

theorem json_data_some (ci : Call_Data_t)
    (h : ci.transmission_source_list.length = ci.transmission_error_list.length) :
    ∃ j, json_data ci = some j := by
  have hm : ∃ bs, (List.range ci.transmission_source_list.length).mapM (src_entry ci) =
      some bs := by
    apply mapM_option_some
    intro i hi
    have hlt : i < ci.transmission_source_list.length := List.mem_range.mp hi
    unfold src_entry
    rw [List.getElem?_eq_getElem hlt, List.getElem?_eq_getElem (h ▸ hlt)]
    exact ⟨_, rfl⟩
  obtain ⟨bs, hbs⟩ := hm
  unfold json_data
  rw [hbs]
  exact ⟨_, rfl⟩

theorem json_writes_remove_if_file (w : World) (p : String) :
    json_writes (remove_if_file w p) = json_writes w := by
  unfold remove_if_file json_writes
  by_cases h : checkIfFile w p = true <;> simp [h, List.countP_append]

theorem json_writes_remove_transmissions (ci : Call_Data_t) (w : World) :
    json_writes (remove_transmissions ci w) = json_writes w := by
  unfold remove_transmissions
  generalize ci.transmission_list = ts
  induction ts generalizing w with
  | nil => rfl
  | cons t ts ih => rw [List.foldl_cons, ih, json_writes_remove_if_file]

theorem json_writes_copy (ci : Call_Data_t) (ts : List Transmission) (w : World) :
    json_writes (archive_transmissions ci ts w).1 = json_writes w := by
  obtain ⟨_, _, cs, h⟩ := archive_grows ci ts w
  unfold json_writes
  rw [h, List.countP_append]
  have hz : List.countP (fun e => match e with
      | Effect.write_json _ => true
      | _ => false) (cs.map (fun c => Effect.copy_file c.1 c.2)) = 0 := by
    apply List.countP_eq_zero.mpr
    intro e he
    obtain ⟨c, _, rfl⟩ := List.mem_map.mp he
    simp
  rw [hz, Nat.add_zero]

theorem json_writes_remove_call_files (w : World) (ci : Call_Data_t) (pf : Bool) :
    json_writes (remove_call_files w ci pf) = json_writes w := by
  have hthr : ∀ x : World, json_writes { x with thrown := true } = json_writes x :=
    fun _ => rfl
  unfold remove_call_files
  by_cases hk : (ci.audio_archive || (pf && ci.archive_files_on_failure)) = true <;>
    by_cases hs : (!ci.call_log && !(pf && ci.archive_files_on_failure)) = true <;>
    by_cases ha : ci.transmission_archive = true <;>
    cases hb : (archive_transmissions ci ci.transmission_list w).2 <;>
    simp only [hk, hs, ha, hb, if_true, if_false, json_writes_remove_if_file,
      json_writes_remove_transmissions, json_writes_copy, Bool.false_eq_true, hthr]

theorem json_writes_removed (fs : List String) (w : World) :
    json_writes (fs.foldl remove_if_file w) = json_writes w := by
  induction fs generalizing w with
  | nil => rfl
  | cons f fs ih => rw [List.foldl_cons, ih, json_writes_remove_if_file]

theorem loop_body_encrypted (sys : System) (f : String → Bool) (st : LoopState)
    (t : Transmission) :
    (loop_body sys f st t).call_info.encrypted = st.call_info.encrypted := by
  unfold loop_body
  by_cases hs : seg_len_s t < sys.min_tx_duration
  · by_cases ha : st.call_info.transmission_archive = true <;> simp [hs, ha]
  · simp [hs]

theorem create_call_data_encrypted (call : Call) (sys : System) (f : String → Bool) :
    (create_call_data call sys f).encrypted = call.encrypted := by
  have hfold : ∀ (ts : List Transmission) (st : LoopState),
      (ts.foldl (loop_body sys f) st).call_info.encrypted = st.call_info.encrypted := by
    intro ts
    induction ts with
    | nil => intro st; rfl
    | cons t ts ih => intro st; rw [List.foldl_cons, ih, loop_body_encrypted]
  unfold create_call_data finalize aggregate
  split
  · exact hfold _ _
  · exact hfold _ _

/-- The call data `conclude_call` works with: it exists when `localtime` has a result, and
it is the data of `create_call_data` with the file names and the archive flag filled in. -/
theorem create_call_data_files_spec (libc : Libc) (call : Call) (sys : System)
    (config : Config) (w : World) (htot : ∀ t, ∃ tm, libc.localtime t = some tm) :
    ∃ ci w1, create_call_data_files libc call sys config w = some (ci, w1) ∧
      json_writes w1 = json_writes w ∧
      (∃ fn sf cv, ci = { create_call_data call sys (checkIfFile w) with
        filename := fn, status_filename := sf, converted := cv,
        archive_files_on_failure := config.archive_files_on_failure }) := by
  have hw : ∀ d, json_writes { ((aggregate call sys (checkIfFile w)).removed_files.foldl
      remove_if_file w) with log := ((aggregate call sys (checkIfFile w)).removed_files.foldl
        remove_if_file w).log ++ [Effect.create_directories d] } = json_writes w := by
    intro d
    rw [← json_writes_removed (aggregate call sys (checkIfFile w)).removed_files w]
    unfold json_writes
    simp [List.countP_append]
  unfold create_call_data_files create_base_filename
  simp only []
  by_cases hf : (if sys.filename_format ≠ "" then sys.filename_format
      else config.filename_format) = ""
  · rw [if_pos hf]
    obtain ⟨tm, htm⟩ := htot (Int.tdiv call.start_time_ms 1000)
    rw [htm]
    simp only []
    by_cases hslot : call.tdma_slot = -1
    · rw [if_pos hslot]
      exact ⟨_, _, rfl, hw _, _, _, _, rfl⟩
    · rw [if_neg hslot]
      exact ⟨_, _, rfl, hw _, _, _, _, rfl⟩
  · rw [if_neg hf]
    exact ⟨_, _, rfl, hw _, _, _, _, rfl⟩

theorem removed_nonneg (call : Call) (sys : System) (f : String → Bool) :
    0 ≤ (create_call_data call sys f).min_transmissions_removed := by
  obtain ⟨_, hrem⟩ := foldl_removed sys f call.transmissions (loop_init call sys)
  unfold create_call_data
  rw [(finalize_keeps _).2.2.2]
  unfold aggregate
  rw [hrem]
  have hle : (retained sys call.transmissions).length ≤ call.transmissions.length :=
    List.length_filter_le _ _
  split
  · simp [loop_init]
  · simp only [loop_init]
    omega

theorem create_call_data_list (call : Call) (sys : System) (f : String → Bool) :
    (create_call_data call sys f).transmission_list = retained sys call.transmissions := by
  unfold create_call_data
  rw [finalize_list, aggregate_list]

/-- C31, as stated, fails: an encrypted call with one retained transmission that has been
superseded is not dispatched and gets no JSON sidecar (the status file could be created),
although it has a retained transmission. -/
theorem superseded_encrypted_no_json :
    call_encrypted_superseded.encrypted = true ∧
    retained sys_min1 call_encrypted_superseded.transmissions ≠ [] ∧
    (conclude_call libc_utc true call_encrypted_superseded sys_min1 {} sup_idle).map
        (fun s => (json_writes s.world, s.call_data_workers)) = some (0, []) ∧
    (conclude_call libc_utc true call_encrypted sys_min1 {} sup_idle).map
        (fun s => (json_writes s.world, s.call_data_workers)) = some (1, []) :=
  ⟨by decide, by decide!, by decide!, by decide!⟩

/-- C31, amended. Dispatch conditions: `conclude_call` hands the call to an upload worker if
and only if the call is not superseded, not encrypted, retains at least one transmission and
its playable length exceeds the `min_duration` of the system (so superseded, encrypted and
fully filtered calls are never dispatched); and a status file is written exactly for an
encrypted call that is not superseded and has at least one retained transmission or a
positive `min_transmissions_removed`, when the file can be created. -/
theorem dispatch_conditions (libc : Libc) (json_opens : Bool) (call : Call) (sys : System)
    (config : Config) (s : Supervisor) (htot : ∀ t, ∃ tm, libc.localtime t = some tm) :
    ∃ s1, conclude_call libc json_opens call sys config s = some s1 ∧
      s1.retry_call_list = s.retry_call_list ∧
      ((∃ ci, s1.call_data_workers = s.call_data_workers ++ [Future.running ci]) ↔
        dispatch_condition call sys s.world) ∧
      (¬ dispatch_condition call sys s.world → s1.call_data_workers = s.call_data_workers) ∧
      json_writes s1.world = json_writes s.world +
        (if json_opens = true ∧ call.encrypted = true ∧
            ¬ (call.is_monitoring = true ∧ call.is_superseded = true) ∧
            (retained sys call.transmissions ≠ [] ∨
              (create_call_data call sys (checkIfFile s.world)).min_transmissions_removed > 0)
         then 1 else 0) := by
  obtain ⟨ci, w1, hfiles, hjw, fn, sf, cv, hci⟩ :=
    create_call_data_files_spec libc call sys config s.world htot
  have hlist : ci.transmission_list = retained sys call.transmissions := by
    rw [hci]
    exact create_call_data_list call sys _
  have henc : ci.encrypted = call.encrypted := by
    rw [hci]
    exact create_call_data_encrypted call sys _
  have hrem : ci.min_transmissions_removed =
      (create_call_data call sys (checkIfFile s.world)).min_transmissions_removed := by
    rw [hci]
  have hlen : ci.length = (create_call_data call sys (checkIfFile s.world)).length := by
    rw [hci]
  have halign : ci.transmission_source_list.length = ci.transmission_error_list.length := by
    rw [hci]
    exact (aligned_records call sys _).1
  have hnn := removed_nonneg call sys (checkIfFile s.world)
  have hne : ∀ x : Future, s.call_data_workers ≠ s.call_data_workers ++ [x] := by
    intro x h
    have := congrArg List.length h
    simp at this
  have hempty : ci.transmission_list.length = 0 ↔ retained sys call.transmissions = [] := by
    rw [hlist]
    exact List.length_eq_zero
  unfold conclude_call
  rw [hfiles]
  simp only []
  unfold dispatch_condition
  rw [← hrem, ← hlen]
  generalize hX : (if json_opens = true ∧ call.encrypted = true ∧
      ¬ (call.is_monitoring = true ∧ call.is_superseded = true) ∧
      (retained sys call.transmissions ≠ [] ∨ ci.min_transmissions_removed > 0)
    then 1 else 0) = X
  by_cases hsup : call.is_monitoring = true ∧ call.is_superseded = true
  · rw [if_pos hsup]
    have hX0 : X = 0 := by
      rw [← hX]
      exact if_neg (fun h => h.2.2.1 hsup)
    refine ⟨_, rfl, rfl, ⟨fun ⟨x, hx⟩ => absurd hx (hne _), fun h => absurd hsup h.1⟩,
      fun _ => rfl, ?_⟩
    show json_writes (remove_call_files w1 ci false) = _
    rw [json_writes_remove_call_files, hjw, hX0, Nat.add_zero]
  · rw [if_neg hsup]
    by_cases he : ci.encrypted = true
    · rw [if_pos he]
      have hce : call.encrypted = true := by rw [← henc]; exact he
      by_cases hany : ci.transmission_list.length > 0 ∨ ci.min_transmissions_removed > 0
      · rw [if_pos hany]
        obtain ⟨j, hj⟩ := json_data_some ci halign
        have hany2 : retained sys call.transmissions ≠ [] ∨ ci.min_transmissions_removed > 0 := by
          rcases hany with h | h
          · left
            intro hnil
            rw [hempty.mpr hnil] at h
            exact absurd h (by decide)
          · exact Or.inr h
        unfold create_call_json
        rw [hj]
        simp only []
        by_cases hopen : json_opens = true
        · have hX1 : X = 1 := by
            rw [← hX]
            exact if_pos ⟨hopen, hce, hsup, hany2⟩
          rw [if_pos hopen]
          refine ⟨_, rfl, rfl, ⟨fun ⟨x, hx⟩ => absurd hx (hne _),
            fun h => absurd hce (by rw [h.2.1]; decide)⟩, fun _ => rfl, ?_⟩
          show json_writes (remove_call_files _ _ false) = _
          rw [json_writes_remove_call_files, ← hjw, hX1]
          unfold json_writes
          simp [List.countP_append]
        · have hX0 : X = 0 := by
            rw [← hX]
            exact if_neg (fun h => hopen h.1)
          rw [if_neg hopen]
          refine ⟨_, rfl, rfl, ⟨fun ⟨x, hx⟩ => absurd hx (hne _),
            fun h => absurd hce (by rw [h.2.1]; decide)⟩, fun _ => rfl, ?_⟩
          show json_writes (remove_call_files _ _ false) = _
          rw [json_writes_remove_call_files, hjw, hX0, Nat.add_zero]
      · rw [if_neg hany]
        have hno : ¬ (retained sys call.transmissions ≠ [] ∨
            ci.min_transmissions_removed > 0) := by
          intro h
          apply hany
          rcases h with h | h
          · left
            exact Nat.pos_of_ne_zero (fun h0 => h (hempty.mp h0))
          · exact Or.inr h
        have hX0 : X = 0 := by
          rw [← hX]
          exact if_neg (fun h => hno h.2.2.2)
        refine ⟨_, rfl, rfl, ⟨fun ⟨x, hx⟩ => absurd hx (hne _),
          fun h => absurd hce (by rw [h.2.1]; decide)⟩, fun _ => rfl, ?_⟩
        show json_writes (remove_call_files w1 ci false) = _
        rw [json_writes_remove_call_files, hjw, hX0, Nat.add_zero]
    · rw [if_neg he]
      have hce : call.encrypted = false := by
        rw [← henc]
        cases h : ci.encrypted
        · rfl
        · exact absurd h he
      have hX0 : X = 0 := by
        rw [← hX]
        exact if_neg (fun h => absurd h.2.1 (by rw [hce]; decide))
      have hjson : json_writes w1 = json_writes s.world + X := by rw [hjw, hX0, Nat.add_zero]
      by_cases h0 : ci.transmission_list.length = 0 ∧ ci.min_transmissions_removed = 0
      · rw [if_pos h0]
        exact ⟨_, rfl, rfl, ⟨fun ⟨x, hx⟩ => absurd hx (hne _),
          fun h => absurd (hempty.mp h0.1) h.2.2.1⟩, fun _ => rfl, hjson⟩
      · rw [if_neg h0]
        by_cases h1 : ci.transmission_list.length = 0 ∧ ci.min_transmissions_removed > 0
        · rw [if_pos h1]
          exact ⟨_, rfl, rfl, ⟨fun ⟨x, hx⟩ => absurd hx (hne _),
            fun h => absurd (hempty.mp h1.1) h.2.2.1⟩, fun _ => rfl, hjson⟩
        · rw [if_neg h1]
          have hret : retained sys call.transmissions ≠ [] := by
            intro hnil
            have hz := hempty.mpr hnil
            rw [hrem] at h0 h1
            by_cases hr0 : (create_call_data call sys (checkIfFile s.world)
                ).min_transmissions_removed = 0
            · exact h0 ⟨hz, hr0⟩
            · exact h1 ⟨hz, lt_of_le_of_ne hnn (Ne.symm hr0)⟩
          by_cases hshort : ci.length ≤ sys.min_duration
          · rw [if_pos hshort]
            refine ⟨_, rfl, rfl, ⟨fun ⟨x, hx⟩ => absurd hx (hne _),
              fun h => absurd hshort (not_le.mpr h.2.2.2)⟩, fun _ => rfl, ?_⟩
            show json_writes (remove_call_files w1 ci false) = _
            rw [json_writes_remove_call_files]
            exact hjson
          · rw [if_neg hshort]
            exact ⟨_, rfl, rfl, ⟨fun _ => ⟨hsup, hce, hret, not_le.mp hshort⟩,
              fun _ => ⟨ci, rfl⟩⟩,
              fun h => absurd ⟨hsup, hce, hret, not_le.mp hshort⟩ h, hjson⟩

/-- Witness for C31: the libc model `libc_utc` has a total `localtime`, and the theorem
applies to the encrypted call `call_encrypted`. -/
theorem dispatch_conditions_witness :
    (∀ t, ∃ tm, libc_utc.localtime t = some tm) ∧
    ∃ s1, conclude_call libc_utc true call_encrypted sys_min1 {} sup_idle = some s1 ∧
      s1.retry_call_list = sup_idle.retry_call_list ∧
      ((∃ ci, s1.call_data_workers = sup_idle.call_data_workers ++ [Future.running ci]) ↔
        dispatch_condition call_encrypted sys_min1 sup_idle.world) ∧
      (¬ dispatch_condition call_encrypted sys_min1 sup_idle.world →
        s1.call_data_workers = sup_idle.call_data_workers) ∧
      json_writes s1.world = json_writes sup_idle.world +
        (if true = true ∧ call_encrypted.encrypted = true ∧
            ¬ (call_encrypted.is_monitoring = true ∧ call_encrypted.is_superseded = true) ∧
            (retained sys_min1 call_encrypted.transmissions ≠ [] ∨
              (create_call_data call_encrypted sys_min1
                (checkIfFile sup_idle.world)).min_transmissions_removed > 0)
         then 1 else 0) :=
  ⟨fun t => ⟨gmtime_utc t, rfl⟩,
    dispatch_conditions libc_utc true call_encrypted sys_min1 {} sup_idle
      (fun t => ⟨gmtime_utc t, rfl⟩)⟩

end CallConcluder

namespace CallConcluder

/-! ## Bounded retries -/

theorem worker_finish_keeps (env : WorkerEnv) (w : World) (ci : Call_Data_t) :
    (worker_finish env w ci).2.call_num = ci.call_num ∧
    (worker_finish env w ci).2.retry_attempt = ci.retry_attempt := by
  unfold worker_finish
  simp only []
  split_ifs <;> exact ⟨rfl, rfl⟩

theorem upload_call_worker_snd (env : WorkerEnv) (w : World) (ci : Call_Data_t)
    (r : World × Call_Data_t) (hu : upload_call_worker env w ci = some r) :
    r.2.call_num = ci.call_num ∧ r.2.retry_attempt = ci.retry_attempt := by
  unfold upload_call_worker at hu
  by_cases hst : ci.status = Call_Data_Status.INITIAL
  · rw [if_pos hst] at hu
    simp only [] at hu
    unfold create_call_json at hu
    cases hj : json_data ci with
    | none => rw [hj] at hu; exact absurd hu (by simp)
    | some j =>
      rw [hj] at hu
      simp only [] at hu
      cases hjo : env.json_opens
      · rw [hjo] at hu
        simp only [Bool.false_eq_true, if_false] at hu
        rw [if_neg (by decide)] at hu
        split_ifs at hu
        all_goals (have hr := Option.some.inj hu; subst hr)
        all_goals first
          | exact ⟨rfl, rfl⟩
          | exact worker_finish_keeps env _ _
      · rw [hjo] at hu
        simp only [if_true] at hu
        rw [if_neg (by decide)] at hu
        split_ifs at hu
        all_goals (have hr := Option.some.inj hu; subst hr)
        all_goals first
          | exact ⟨rfl, rfl⟩
          | exact worker_finish_keeps env _ _
  · rw [if_neg hst] at hu
    have hr := Option.some.inj hu
    subst hr
    exact worker_finish_keeps env w ci

theorem upload_call_worker_keeps (env : WorkerEnv) (w w1 : World) (ci ci1 : Call_Data_t)
    (hu : upload_call_worker env w ci = some (w1, ci1)) :
    ci1.call_num = ci.call_num ∧ ci1.retry_attempt = ci.retry_attempt :=
  upload_call_worker_snd env w ci (w1, ci1) hu

theorem loop_body_retry_attempt (sys : System) (f : String → Bool) (st : LoopState)
    (t : Transmission) :
    (loop_body sys f st t).call_info.retry_attempt = st.call_info.retry_attempt := by
  unfold loop_body
  by_cases hs : seg_len_s t < sys.min_tx_duration
  · by_cases ha : st.call_info.transmission_archive = true <;> simp [hs, ha]
  · simp [hs]

/-- The record `create_call_data` builds starts with `retry_attempt = 0`. -/
theorem create_call_data_retry_attempt (call : Call) (sys : System) (f : String → Bool) :
    (create_call_data call sys f).retry_attempt = 0 := by
  have hfold : ∀ (ts : List Transmission) (st : LoopState),
      (ts.foldl (loop_body sys f) st).call_info.retry_attempt = st.call_info.retry_attempt := by
    intro ts
    induction ts with
    | nil => intro st; rfl
    | cons t ts ih => intro st; rw [List.foldl_cons, ih, loop_body_retry_attempt]
  unfold create_call_data finalize aggregate
  split
  · exact hfold _ _
  · exact hfold _ _

/-- The state the life `life7` of call 7 passes through after its third hand-over, when the
third worker has finished with RETRY. -/
theorem life7_third_retry :
    (run 7 rand0 (life7.take 7) (dispatched sup_empty call7, 1)).map
        (fun p => (p.2, p.1.call_data_workers.map
          (fun fut => (fut.call_num, fut.call_info.retry_attempt, fut.call_info.status)),
          p.1.retry_call_list.length)) =
      some (3, [(7, 2, Call_Data_Status.RETRY)], 0) ∧
    (run 7 rand0 life7 (dispatched sup_empty call7, 1)).map
        (fun p => (p.2, p.1.call_data_workers, p.1.retry_call_list)) = some (3, [], []) :=
  ⟨by decide!, by decide!⟩

end CallConcluder

namespace CallConcluder

/-! ## The source list of the JSON sidecar -/

theorem mapM_option_index {β : Type} (f : Nat → Option β) :
    ∀ (l : List Nat) (bs : List β), l.mapM f = some bs →
      bs.length = l.length ∧
      ∀ (i a : Nat), l[i]? = some a → ∃ b, f a = some b ∧ bs[i]? = some b := by
  intro l
  induction l with
  | nil =>
    intro bs h
    have hb : bs = [] := by
      have h1 : some ([] : List β) = some bs := h
      exact (Option.some.inj h1).symm
    subst hb
    refine ⟨rfl, ?_⟩
    intro i a hi
    simp at hi
  | cons a0 rest ih =>
    intro bs h
    rw [List.mapM_cons] at h
    cases hfa : f a0 with
    | none =>
      rw [hfa] at h
      cases h
    | some b0 =>
      cases hr : rest.mapM f with
      | none =>
        rw [hfa, hr] at h
        cases h
      | some bs1 =>
        rw [hfa, hr] at h
        have h1 : some (b0 :: bs1) = some bs := h
        have hb := Option.some.inj h1
        subst hb
        obtain ⟨i1, i2⟩ := ih bs1 hr
        refine ⟨by simp [i1], ?_⟩
        intro i a hi
        cases i with
        | zero =>
          simp only [List.getElem?_cons_zero, Option.some.injEq] at hi
          subst hi
          exact ⟨b0, hfa, List.getElem?_cons_zero⟩
        | succ k =>
          simp only [List.getElem?_cons_succ] at hi ⊢
          exact i2 k a hi

/-- C25. srcList positions: for every `CallData` given to `create_call_json`, that is, every
record whose source and error lists are those built by `create_call_data` (the file names,
the status, the retry count and the other fields may have been set since), building the JSON
object succeeds, so no index of `transmission_error_list` is out of bounds; `srcList` has one
entry per source record; the error record the code reads at index `i` has the position of
the `i`-th source record; and so the `pos` of the `i`-th entry is the position of the `i`-th
source record, `transmission_source_list[i].position`, rounded to 2 decimals. -/
theorem srcList_positions (call : Call) (sys : System) (f : String → Bool) (ci : Call_Data_t)
    (hsrc : ci.transmission_source_list =
      (create_call_data call sys f).transmission_source_list)
    (herr : ci.transmission_error_list =
      (create_call_data call sys f).transmission_error_list) :
    ∃ j, json_data ci = some j ∧
      (∀ (w : World) (opens : Bool), ∃ w1 r,
        create_call_json w opens ci = some (w1, { ci with call_json := some j }, r)) ∧
      j.srcList.length = ci.transmission_source_list.length ∧
      ∀ (i : Nat) (s : Call_Source), ci.transmission_source_list[i]? = some s →
        (∃ e, ci.transmission_error_list[i]? = some e ∧ e.position = s.position) ∧
        ∃ x, j.srcList[i]? = some x ∧ x.pos = round2 s.position := by
  obtain ⟨hlen, hpos⟩ := aligned_records call sys f
  have halign : ci.transmission_source_list.length = ci.transmission_error_list.length := by
    rw [hsrc, herr]
    exact hlen
  obtain ⟨j, hj⟩ := json_data_some ci halign
  have hm : (List.range ci.transmission_source_list.length).mapM (src_entry ci) =
      some j.srcList := by
    unfold json_data at hj
    cases hmm : (List.range ci.transmission_source_list.length).mapM (src_entry ci) with
    | none =>
      rw [hmm] at hj
      cases hj
    | some srcs =>
      rw [hmm] at hj
      have h1 := Option.some.inj hj
      rw [← h1]
  obtain ⟨m1, m2⟩ := mapM_option_index (src_entry ci) _ _ hm
  refine ⟨j, hj, ?_, ?_, ?_⟩
  · intro w opens
    unfold create_call_json
    rw [hj]
    cases opens
    · exact ⟨_, _, rfl⟩
    · exact ⟨_, _, rfl⟩
  · rw [m1, List.length_range]
  · intro i s hs
    have hi : i < ci.transmission_source_list.length := by
      by_contra hn
      rw [List.getElem?_eq_none (by omega)] at hs
      cases hs
    have hs2 : (create_call_data call sys f).transmission_source_list[i]? = some s := by
      rw [← hsrc]
      exact hs
    obtain ⟨e, he, hep⟩ := hpos i s hs2
    have he2 : ci.transmission_error_list[i]? = some e := by
      rw [herr]
      exact he
    have hri : (List.range ci.transmission_source_list.length)[i]? = some i := by
      rw [List.getElem?_range hi]
    obtain ⟨x, hx, hxi⟩ := m2 i i hri
    refine ⟨⟨e, he2, hep⟩, x, hxi, ?_⟩
    unfold src_entry at hx
    rw [hs, he2] at hx
    have h1 := Option.some.inj hx
    rw [← h1, ← hep]

/-- Witness for C25: the record built from the call `call_short_long`, with file names
filled in. -/
theorem srcList_positions_witness :
    ∃ j, json_data { create_call_data call_short_long sys_min1 (fun _ => true) with
        filename := "c.wav", status_filename := "c.json" } = some j ∧
      (∀ (w : World) (opens : Bool), ∃ w1 r,
        create_call_json w opens { create_call_data call_short_long sys_min1 (fun _ => true) with
            filename := "c.wav", status_filename := "c.json" } =
          some (w1, { { create_call_data call_short_long sys_min1 (fun _ => true) with
            filename := "c.wav", status_filename := "c.json" } with call_json := some j }, r)) ∧
      j.srcList.length = ({ create_call_data call_short_long sys_min1 (fun _ => true) with
        filename := "c.wav", status_filename := "c.json" } : Call_Data_t
        ).transmission_source_list.length ∧
      ∀ (i : Nat) (s : Call_Source),
        ({ create_call_data call_short_long sys_min1 (fun _ => true) with
          filename := "c.wav", status_filename := "c.json" } : Call_Data_t
          ).transmission_source_list[i]? = some s →
        (∃ e, ({ create_call_data call_short_long sys_min1 (fun _ => true) with
          filename := "c.wav", status_filename := "c.json" } : Call_Data_t
          ).transmission_error_list[i]? = some e ∧ e.position = s.position) ∧
        ∃ x, j.srcList[i]? = some x ∧ x.pos = round2 s.position :=
  srcList_positions call_short_long sys_min1 (fun _ => true)
    { create_call_data call_short_long sys_min1 (fun _ => true) with
      filename := "c.wav", status_filename := "c.json" } rfl rfl

end CallConcluder

namespace SmartnetParser

/-! ## Reset markers and the words of the control channel -/

theorem NoMarker_cons (w : OSW) (q : List OSW) :
    NoMarker (w :: q) ↔ w.cmd ≠ OSW_QUEUE_RESET_CMD ∧ NoMarker q := by
  unfold NoMarker
  simp

theorem NoMarker_nil : NoMarker [] := by
  intro w hw
  exact absurd hw (List.not_mem_nil _)

theorem arm_321_clean (sys : System) (s : ParserState) (osw2 : OSW)
    (hn : NoMarker (osw2 :: s.osw_q)) : ArmAll QueueClean (arm_321 sys s osw2) := by
  unfold arm_321
  split
  · exact ArmAll_none _
  · rename_i osw1 q1 heq
    rw [heq] at hn
    simp only []
    repeat' first
      | (apply ArmAll_ite <;> intro _)
      | exact ArmAll_none _
      | (apply ArmAll_some; unfold QueueClean
         simp only [NoMarker_cons] at hn
         simp [NoMarker_cons, NoMarker_nil, update_voice_frequency_osw_q, add_adjacent_site,
           add_alternate_cc_freq, hn])
      | split

theorem arm_308_30b_clean (sys : System) (t : Int) (s : ParserState) (osw2 osw1 : OSW)
    (q1 : List OSW) (hn : NoMarker (osw2 :: osw1 :: q1)) :
    ArmAll QueueClean (arm_308_30b sys t s osw2 osw1 q1) := by
  unfold arm_308_30b
  cases q1 with
  | nil => exact ArmAll_none _
  | cons first qa =>
    simp only []
    by_cases hc : first.cmd = 0x2f8 ∧ (!first.grp) = true
    · rw [if_pos hc]
      cases qa with
      | nil => exact ArmAll_none _
      | cons nxt qb =>
        simp only []
        repeat' first
          | (apply ArmAll_ite <;> intro _)
          | (apply ArmAll_some; unfold QueueClean
             simp only [NoMarker_cons] at hn
             simp [NoMarker_cons, NoMarker_nil, add_alternate_cc_freq, hn])
    · rw [if_neg hc]
      simp only []
      repeat' first
        | (apply ArmAll_ite <;> intro _)
        | (apply ArmAll_some; unfold QueueClean
           simp only [NoMarker_cons] at hn
           simp [NoMarker_cons, NoMarker_nil, add_alternate_cc_freq, hn])

theorem arm_308_clean (sys : System) (t : Int) (s : ParserState) (osw2 : OSW)
    (hn : NoMarker (osw2 :: s.osw_q)) : ArmAll QueueClean (arm_308 sys t s osw2) := by
  unfold arm_308
  split
  · rename_i heq
    apply ArmAll_some
    unfold QueueClean
    simp only [NoMarker_cons] at hn
    simp [NoMarker_cons, NoMarker_nil, hn]
  · rename_i osw1 q1 heq
    rw [heq] at hn
    simp only []
    repeat' first
      | (apply ArmAll_ite <;> intro _)
      | exact ArmAll_none _
      | exact arm_308_30b_clean _ _ _ _ _ _ hn
      | (apply ArmAll_some; unfold QueueClean
         simp only [NoMarker_cons] at hn
         simp [NoMarker_cons, NoMarker_nil, update_voice_frequency_osw_q, hn])
      | split

theorem arm_obt_clean (sys : System) (s : ParserState) (osw2 : OSW)
    (hn : NoMarker (osw2 :: s.osw_q)) : ArmAll QueueClean (arm_obt sys s osw2) := by
  unfold arm_obt
  split
  · apply ArmAll_some
    unfold QueueClean
    simp only [NoMarker_cons] at hn
    simp [NoMarker_cons, NoMarker_nil, hn]
  · rename_i osw1 q1 heq
    rw [heq] at hn
    simp only []
    repeat' first
      | (apply ArmAll_ite <;> intro _)
      | exact ArmAll_none _
      | (apply ArmAll_some; unfold QueueClean
         simp only [NoMarker_cons] at hn
         simp [NoMarker_cons, NoMarker_nil, update_voice_frequency_osw_q, add_adjacent_site,
           add_alternate_cc_freq, hn])
      | split

/-- The recognition chain puts back only words it was given: none of them a marker. -/
theorem recognise_clean (sys : System) (t : Int) (s : ParserState) (osw2 : OSW)
    (hn : NoMarker (osw2 :: s.osw_q)) : ArmAll QueueClean (recognise sys t s osw2) := by
  unfold recognise
  simp only []
  repeat' first
    | (apply ArmAll_ite <;> intro _)
    | exact arm_obt_clean _ _ _ hn
    | exact arm_308_clean _ _ _ _ hn
    | exact arm_321_clean _ _ _ hn
    | (apply ArmAll_some; unfold QueueClean
       simp only [NoMarker_cons] at hn
       simp [NoMarker_cons, NoMarker_nil, update_voice_frequency_osw_q, hn])

/-- A pass on a queue without markers leaves a queue without markers, and its reset flag is
clear. -/
theorem process_osws_clean (sys : System) (t : Int) (s : ParserState) (r : PassResult)
    (h : process_osws sys t s = some r) (hs : NoMarker s.osw_q) :
    NoMarker r.state.osw_q ∧ r.is_queue_reset = false := by
  unfold process_osws at h
  split at h
  · cases h; exact ⟨hs, rfl⟩
  split at h
  · cases h; exact ⟨hs, rfl⟩
  split at h
  · cases h; exact ⟨hs, rfl⟩
  rename_i front q heq
  rw [heq] at hs
  have hf := ((NoMarker_cons front q).mp hs).1
  rw [resync_plain front q false default hf] at h
  simp only [] at h
  split at h
  · cases h
  rename_i out hout
  have ho : NoMarker out.state.osw_q :=
    recognise_clean sys t { s with osw_q := q } front hs out hout
  split at h
  · rename_i hc
    exact absurd hc.2 (by decide)
  · cases h
    exact ⟨ho, rfl⟩

theorem enqueue_clean (sys : System) (s : ParserState) (addr grp cmd : Nat) (ts : ℚ)
    (hs : NoMarker s.osw_q) (hc : cmd ≠ OSW_QUEUE_RESET_CMD) :
    NoMarker (enqueue sys s addr grp cmd ts).osw_q := by
  unfold enqueue push_bounded
  intro w hw
  simp only [List.mem_append, List.mem_singleton] at hw
  rcases hw with hw | hw
  · split at hw
    · exact hs w (List.mem_of_mem_tail hw)
    · exact hs w hw
  · rw [hw]
    exact hc

/-- A message whose opcode has 10 bits leaves a queue without markers as one: the branch that
would enqueue a marker is never taken, and the opcode of an enqueued word is below `0xFFE`. -/
theorem parse_message_clean (sys : System) (t : Int) (m : Message) (s : ParserState)
    (out : List TrunkMessage × ParserState) (hm : wire_opcode m)
    (h : parse_message sys t (some m) s = some out) (hs : NoMarker s.osw_q) :
    NoMarker out.2.osw_q := by
  unfold parse_message at h
  simp only [] at h
  split at h
  · cases h; exact hs
  split at h
  · cases h
  rename_i r hr
  have h1 : NoMarker r.state.osw_q := by
    refine (process_osws_clean sys t _ r hr ?_).1
    split
    · exact hs
    split
    · rename_i hbad
      exact absurd hbad (masked_type_ne_bad_osw m.type).1
    split
    · split
      · rename_i b0 b1 b2 b3 b4 rest hbody
        unfold wire_opcode at hm
        rw [hbody] at hm
        simp only [] at hm
        refine enqueue_clean sys s _ _ _ _ hs ?_
        unfold OSW_QUEUE_RESET_CMD
        omega
      · exact hs
    · exact hs
  cases h
  simp only []
  split
  · exact h1
  · exact h1

/-- No message of the control channel puts a reset marker into the queue: in every state the
parser reaches from its constructor state through `parse_message` on messages with 10-bit
opcodes, whatever their type, no word of the queue has cmd `0xFFE`; so the queue never starts
with a marker, let alone with two. -/
theorem wire_queue_has_no_marker (sys : System) (s : ParserState)
    (h : WireReachable sys s) :
    NoMarker s.osw_q ∧
    (∀ r x rest, s.osw_q = r :: x :: rest → r.cmd ≠ OSW_QUEUE_RESET_CMD) := by
  have hn : NoMarker s.osw_q := by
    induction h with
    | init => exact NoMarker_nil
    | message s t m out _ hm hp ih => exact parse_message_clean sys t m s out hm hp ih
  refine ⟨hn, ?_⟩
  intro r x rest hq
  exact hn r (by rw [hq]; exact List.mem_cons_self _ _)

end SmartnetParser

